import Mathlib

/-!
glucn/godaddy: error taxonomy, transport client, registrar adapter and HTTP handlers

A shallow embedding of

* `vendor/github.com/vendasta/gosdks/util/errors.go` (namespace `util`),
* `internal/http/service.go` and `internal/http/interface.go` (namespace `httpService`),
* `vendor/github.com/vendasta/gosdks/validation/validator.go` (namespace `validation`),
* `HTTPStatusFromCode` of `vendor/github.com/vendasta/gosdks/logging/grpc.go`
  (namespace `logging`),
* `ChainUnaryServer` of `vendor/github.com/vendasta/gosdks/serverconfig/grpc.go`
  (namespace `serverconfig`),
* `PurchaseDomain`, `PutDNSRecord` and `GetDomainAvailabilityAndPrice` of
  `internal/godaddy/service.go` (namespace `godaddy`),
* the handlers of `server/main.go` (namespace `server`),

followed by the theorems about them.  Logging calls have no effect on any
returned value and are left out of the embedding.

The goroutines of a fan-out each make one call of `godaddyService` and then either return
its error or append to the shared slice under the mutex.  The handlers are given with a
`server.Schedule`: the order in which the goroutines make their calls and the order in
which they end; the theorems hold for every schedule that permutes the sub-tasks.  The
goroutines are also given step by step (`server.step`, `server.run`), with the mutex and
the two halves of an append as separate steps, for the theorems about interleavings.  For
the theorems about which operations are invoked, the goroutines run step by step with the
record of the invocations `godaddyService` has received (`server.stepTraced`,
`server.runTraced`): a goroutine leaves its invocation on the record by making its call,
and the handlers `server.listDNSInterleaved` and `server.domainSuggestInterleaved` report
the record when `g.Wait()` returns.  Every answer of these is the answer of the handler
with a schedule (`server.listDNSInterleaved_schedule`,
`server.domainSuggestInterleaved_schedule`).
-/

/-! ## `google.golang.org/grpc/codes` -/

namespace codes

/-- The Go type `codes.Code` is `uint32`. -/
abbrev Code := Nat

/-- The named constants of the package `google.golang.org/grpc/codes`.  The package is a
third-party dependency whose source is not part of the repository sources, so its constants
are taken as a parameter.  `distinct` records that the seventeen constants are pairwise
different: `logging.HTTPStatusFromCode` uses all of them as the cases of one `switch`,
which Go only compiles for pairwise different constants. -/
structure Table where
  OK : Code
  Canceled : Code
  Unknown : Code
  InvalidArgument : Code
  DeadlineExceeded : Code
  NotFound : Code
  AlreadyExists : Code
  PermissionDenied : Code
  ResourceExhausted : Code
  FailedPrecondition : Code
  Aborted : Code
  OutOfRange : Code
  Unimplemented : Code
  Internal : Code
  Unavailable : Code
  DataLoss : Code
  Unauthenticated : Code
  distinct : [OK, Canceled, Unknown, InvalidArgument, DeadlineExceeded, NotFound,
    AlreadyExists, PermissionDenied, ResourceExhausted, FailedPrecondition, Aborted,
    OutOfRange, Unimplemented, Internal, Unavailable, DataLoss, Unauthenticated].Nodup

/-- The numbering the gRPC protocol fixes for the status codes (`OK = 0` up to
`Unauthenticated = 16`); the concrete table used to evaluate the embedding. -/
def grpc : Table where
  OK := 0
  Canceled := 1
  Unknown := 2
  InvalidArgument := 3
  DeadlineExceeded := 4
  NotFound := 5
  AlreadyExists := 6
  PermissionDenied := 7
  ResourceExhausted := 8
  FailedPrecondition := 9
  Aborted := 10
  OutOfRange := 11
  Unimplemented := 12
  Internal := 13
  Unavailable := 14
  DataLoss := 15
  Unauthenticated := 16
  distinct := by decide

end codes

/-! ## `net/http` status constants -/

namespace http

/-- `http.StatusBadRequest` -/
def StatusBadRequest : Int := 400
/-- `http.StatusUnauthorized` -/
def StatusUnauthorized : Int := 401
/-- `http.StatusForbidden` -/
def StatusForbidden : Int := 403
/-- `http.StatusNotFound` -/
def StatusNotFound : Int := 404
/-- `http.StatusRequestTimeout` -/
def StatusRequestTimeout : Int := 408
/-- `http.StatusConflict` -/
def StatusConflict : Int := 409
/-- `http.StatusPreconditionFailed` -/
def StatusPreconditionFailed : Int := 412
/-- `http.StatusTooManyRequests` -/
def StatusTooManyRequests : Int := 429
/-- `http.StatusInternalServerError` -/
def StatusInternalServerError : Int := 500
/-- `http.StatusNotImplemented` -/
def StatusNotImplemented : Int := 501
/-- `http.StatusServiceUnavailable` -/
def StatusServiceUnavailable : Int := 503

end http

/-! ## `util/errors.go` -/

namespace util

/-- `type ErrorType int64` -/
abbrev ErrorType := Int

/-- `NotFound ErrorType = 1 + iota` -/
def NotFound : ErrorType := 1
/-- Second constant of the block. -/
def InvalidArgument : ErrorType := 2
/-- Third constant of the block. -/
def AlreadyExists : ErrorType := 3
/-- Fourth constant of the block. -/
def PermissionDenied : ErrorType := 4
/-- Fifth constant of the block. -/
def Unauthenticated : ErrorType := 5
/-- Sixth constant of the block. -/
def Unimplemented : ErrorType := 6
/-- Seventh constant of the block. -/
def Unknown : ErrorType := 7
/-- Eighth constant of the block. -/
def Internal : ErrorType := 8
/-- Ninth constant of the block. -/
def Unavailable : ErrorType := 9
/-- Tenth constant of the block. -/
def FailedPrecondition : ErrorType := 10
/-- Eleventh constant of the block. -/
def DeadlineExceeded : ErrorType := 11
/-- Twelfth constant of the block. -/
def ResourceExhausted : ErrorType := 12
/-- Thirteenth constant of the block. -/
def Aborted : ErrorType := 13

/-- The thirteen declared kinds, in declaration order. -/
def allKinds : List ErrorType :=
  [NotFound, InvalidArgument, AlreadyExists, PermissionDenied, Unauthenticated, Unimplemented,
   Unknown, Internal, Unavailable, FailedPrecondition, DeadlineExceeded, ResourceExhausted,
   Aborted]

/-- `type ServiceError struct { msg string; errType ErrorType }` -/
structure ServiceError where
  msg : String
  errType : ErrorType
  deriving DecidableEq, Repr

/-- `func (v ServiceError) Error() string` -/
def ServiceError.Error (v : ServiceError) : String := v.msg

/-- `func (v ServiceError) ErrorType() ErrorType` -/
def ServiceError.ErrorType (v : ServiceError) : ErrorType := v.errType

/-- `func (v ServiceError) HTTPCode() int` -/
def ServiceError.HTTPCode (v : ServiceError) : Int :=
  if v.errType = NotFound then http.StatusNotFound
  else if v.errType = InvalidArgument then http.StatusBadRequest
  else if v.errType = AlreadyExists then http.StatusConflict
  else if v.errType = PermissionDenied then http.StatusForbidden
  else if v.errType = Unauthenticated then http.StatusUnauthorized
  else if v.errType = Unimplemented then http.StatusNotImplemented
  else if v.errType = FailedPrecondition then http.StatusPreconditionFailed
  else if v.errType = DeadlineExceeded then http.StatusRequestTimeout
  else if v.errType = ResourceExhausted then http.StatusTooManyRequests
  else if v.errType = Unavailable then http.StatusServiceUnavailable
  else if v.errType = Aborted then http.StatusInternalServerError
  else http.StatusInternalServerError

/-- `func Error(errorType ErrorType, format string, a ...interface{}) ServiceError`, at a
format string without verbs and no further arguments (the only use in the embedded code),
where `fmt.Sprintf` returns the format string itself. -/
def Error (errorType : ErrorType) (format : String) : ServiceError :=
  { msg := format, errType := errorType }

/-- `func StatusCodeToGRPCError(statusCode int) ErrorType` -/
def StatusCodeToGRPCError (statusCode : Int) : ErrorType :=
  if statusCode = 400 then InvalidArgument
  else if statusCode = 401 then Unauthenticated
  else if statusCode = 403 then PermissionDenied
  else if statusCode = 404 then NotFound
  else if statusCode = 409 then AlreadyExists
  else if statusCode = 412 then FailedPrecondition
  else if statusCode = 429 then ResourceExhausted
  else if statusCode = 501 then Unimplemented
  else if statusCode = 503 then Unavailable
  else Internal

/-- `func GRPCCodeToErrorType(statusCode codes.Code) ErrorType` -/
def GRPCCodeToErrorType (T : codes.Table) (statusCode : codes.Code) : ErrorType :=
  if statusCode = T.NotFound then NotFound
  else if statusCode = T.InvalidArgument then InvalidArgument
  else if statusCode = T.AlreadyExists then AlreadyExists
  else if statusCode = T.PermissionDenied then PermissionDenied
  else if statusCode = T.Unauthenticated then Unauthenticated
  else if statusCode = T.Unimplemented then Unimplemented
  else if statusCode = T.Unknown then Unknown
  else if statusCode = T.Internal then Internal
  else if statusCode = T.Unavailable then Unavailable
  else if statusCode = T.FailedPrecondition then FailedPrecondition
  else if statusCode = T.DeadlineExceeded then DeadlineExceeded
  else if statusCode = T.ResourceExhausted then ResourceExhausted
  else if statusCode = T.Aborted then Aborted
  else Unknown

/-- `func ErrorTypeToGRPCCode(errorType ErrorType) codes.Code` -/
def ErrorTypeToGRPCCode (T : codes.Table) (errorType : ErrorType) : codes.Code :=
  if errorType = NotFound then T.NotFound
  else if errorType = InvalidArgument then T.InvalidArgument
  else if errorType = AlreadyExists then T.AlreadyExists
  else if errorType = PermissionDenied then T.PermissionDenied
  else if errorType = Unauthenticated then T.Unauthenticated
  else if errorType = Unimplemented then T.Unimplemented
  else if errorType = Unknown then T.Unknown
  else if errorType = Internal then T.Internal
  else if errorType = Unavailable then T.Unavailable
  else if errorType = FailedPrecondition then T.FailedPrecondition
  else if errorType = DeadlineExceeded then T.DeadlineExceeded
  else if errorType = ResourceExhausted then T.ResourceExhausted
  else if errorType = Aborted then T.Aborted
  else T.Unknown

end util

/-! ## Go `error` values -/

namespace httpService

/-- `type Error struct { Body string; StatusCode int }` of `internal/http/service.go`. -/
structure Error where
  Body : String
  StatusCode : Int
  deriving DecidableEq, Repr

/-- `func (e *Error) Error() string`; `none` is the nil pointer. -/
def Error.Error (e : Option Error) : String :=
  match e with
  | none => ""
  | some e => e.Body

end httpService

/-- A non-nil value of the Go interface `error`, by its dynamic type: the distinction the
type assertions of `util` (`err.(ServiceError)`, `status.FromError`) observe.  A nil `error`
is `none : Option GoError`. -/
inductive GoError where
  /-- dynamic type `util.ServiceError` -/
  | service (e : util.ServiceError)
  /-- dynamic type `*httpService.Error` (non-nil pointer) -/
  | httpError (e : httpService.Error)
  /-- an error made by `google.golang.org/grpc/status`, carrying a code and a message -/
  | grpcStatus (code : codes.Code) (msg : String)
  /-- any other error value (`errors.New`, errors of `net`, `io`, ...) with its message -/
  | other (msg : String)
  deriving DecidableEq, Repr

namespace status

/-- `status.FromError(err)` of `google.golang.org/grpc/status` on a non-nil error, as the
library documents it: an error made by the package gives its code and message with
`ok = true` (`some`); any other error gives `ok = false` (`none`). -/
def FromError (err : GoError) : Option (codes.Code × String) :=
  match err with
  | .grpcStatus code msg => some (code, msg)
  | _ => none

end status

namespace util

/-- `func IsError(errorType ErrorType, err error) bool`, for a non-nil `err`. -/
def IsError (T : codes.Table) (errorType : ErrorType) (err : GoError) : Bool :=
  match status.FromError err with
  | some (code, _) => GRPCCodeToErrorType T code == errorType
  | none =>
    match err with
    | .service serviceError => serviceError.errType == errorType
    | _ => false

end util

/-! ## `validation/validator.go` -/

namespace validation

/-- `type Rule interface { Validate() error }`: a rule is given by what its `Validate`
returns (`none` is nil). -/
structure Rule where
  Validate : Option GoError

/-- `type Validator struct { rules []Rule }` -/
structure Validator where
  rules : List Rule

/-- `func NewValidator() *Validator` -/
def NewValidator : Validator := { rules := [] }

/-- `func (c *Validator) Rule(r ...Rule) *Validator` -/
def Validator.Rule (c : Validator) (r : List Rule) : Validator :=
  { rules := c.rules ++ r }

/-- The loop of `Validate` over the remaining rules: the first non-nil error is returned
at once. -/
def validateLoop : List Rule → Option GoError
  | [] => none
  | r :: rest =>
    match r.Validate with
    | some err => some err
    | none => validateLoop rest

/-- `func (c *Validator) Validate() error` -/
def Validator.Validate (c : Validator) : Option GoError :=
  validateLoop c.rules

/-- Modelled from the spec: `validation.StringNotEmpty(value, errorType, message)`, whose
file is not among the sources.  The spec (4.1): "`url` and `method` must be non-empty
strings; violation fails immediately with kind `InvalidArgument`"; so the rule fails, with
the `util.Error` of the kind and message it was given, exactly when the string is empty. -/
def StringNotEmpty (value : String) (errorType : util.ErrorType) (message : String) : Rule :=
  { Validate := if value = "" then some (.service (util.Error errorType message)) else none }

end validation

/-! ## `internal/http/service.go` -/

namespace httpService

/-- An `io.Reader` (or `io.ReadCloser`), given by what reading it to the end yields: the
bytes read and the error, if any, that stopped the read. -/
structure Reader where
  data : String
  err : Option GoError
  deriving DecidableEq, Repr

/-- `ioutil.ReadAll(r)`: the bytes read and the read error (`none` is nil). -/
def ReadAll (r : Reader) : String × Option GoError := (r.data, r.err)

/-- `url.Values`: the values recorded for each key. -/
abbrev Values := List (String × List String)

/-- `func (v Values) Add(key, value string)`: appends `value` to the values of `key`. -/
def Values.Add : Values → String → String → Values
  | [], key, value => [(key, [value])]
  | (k, vs) :: rest, key, value =>
    if k = key then (k, vs ++ [value]) :: rest else (k, vs) :: Values.Add rest key value

/-- The fields of `*http.Request` that `Call` reads or writes. -/
structure Request where
  Method : String
  URL : String
  RawQuery : String
  Header : List (String × String)
  Body : Option Reader
  deriving DecidableEq, Repr

/-- `req.Header.Set(key, value)`: the entry of `key` is replaced. -/
def Request.setHeader (req : Request) (key value : String) : Request :=
  { req with Header := (req.Header.filter (fun kv => kv.1 != key)) ++ [(key, value)] }

/-- The fields of `*http.Response` that `Call` and its callers read. -/
structure Response where
  StatusCode : Int
  Header : List (String × String)
  Body : Option Reader
  deriving DecidableEq, Repr

/-- The functions of the Go standard library that `Call` and `parseError` use: they are
not code of the repository and are taken as parameters. -/
structure Lib where
  /-- `strings.ToUpper` -/
  ToUpper : String → String
  /-- `http.NewRequest(method, url, body)`: the request, or the error of a method or URL
  that does not parse -/
  NewRequest : String → String → Option Reader → Except GoError Request
  /-- `req.URL.Query()`: the parsed `RawQuery` -/
  Query : Request → Values
  /-- `q.Encode()` -/
  Encode : Values → String
  /-- `http.StatusText` -/
  StatusText : Int → String

/-- `*http.Client`, given by its method `Do`: either an error (`err != nil`), or a
response with a nil error. -/
structure Client where
  Do : Request → Except GoError Response

/-- `type Service struct { httpClient *http.Client }` -/
structure Service where
  httpClient : Client

/-- `type URLParam struct { Key string; Value string }` -/
structure URLParam where
  Key : String
  Value : String
  deriving DecidableEq, Repr

/-- What a call of `Call` yields: the two returned values (`none` is nil) and the
requests it handed to `httpClient.Do`, in order. -/
structure CallResult where
  resp : Option Response
  err : Option GoError
  sent : List Request
  deriving DecidableEq, Repr

/-- `func parseError(r *http.Response) error`; the returned error is never nil. -/
def parseError (L : Lib) (r : Response) : GoError :=
  let read : Except GoError String :=
    match r.Body with
    | none => .ok ""
    | some rb =>
      match ReadAll rb with
      | (_, some err) => .error err
      | (bodyBytes, none) => .ok bodyBytes
  match read with
  | .error err => err
  | .ok body =>
    let errorBody := L.StatusText r.StatusCode ++ ": " ++ body
    .httpError { StatusCode := r.StatusCode, Body := errorBody }

/-- The request `Call` hands to `Do`: the new request with the two headers set and, for a
non-empty `urlParams`, the parameters added to its query in order. -/
def buildRequest (L : Lib) (req : Request) (authorization contentType : String)
    (urlParams : List URLParam) : Request :=
  let req := req.setHeader "Authorization" authorization
  let req := req.setHeader "Content-Type" contentType
  if urlParams.length > 0 then
    let q := urlParams.foldl (fun q p => Values.Add q p.Key p.Value) (L.Query req)
    { req with RawQuery := L.Encode q }
  else req

/-- `func (s *Service) Call(ctx, method, url, body, authorization, contentType, urlParams)
(*http.Response, error)`.  The context is only passed to the logger. -/
def Service.Call (L : Lib) (s : Service) (method url : String) (body : Option Reader)
    (authorization contentType : String) (urlParams : List URLParam) : CallResult :=
  let err := ((validation.NewValidator.Rule
      [validation.StringNotEmpty url util.InvalidArgument "URL must not be empty"]).Rule
      [validation.StringNotEmpty method util.InvalidArgument "Method must not be empty"]).Validate
  match err with
  | some err => { resp := none, err := some err, sent := [] }
  | none =>
    match L.NewRequest (L.ToUpper method) url body with
    | .error _ =>
      { resp := none
        err := some (.service (util.Error util.Internal "Error getting http request"))
        sent := [] }
    | .ok req =>
      let req := buildRequest L req authorization contentType urlParams
      match s.httpClient.Do req with
      | .error _ =>
        { resp := none
          err := some (.service (util.Error util.Internal "Error during http call"))
          sent := [req] }
      | .ok resp =>
        if resp.StatusCode > 299 then
          { resp := none, err := some (parseError L resp), sent := [req] }
        else
          { resp := some resp, err := none, sent := [req] }

end httpService

/-! ## Concrete collaborators, for evaluating `Call` -/

namespace httpService

/-- A simple instance of the library functions: upper-casing by characters, a request
constructor that accepts every method and URL, an empty initial query, `k=v` pairs
joined by `&`, and the status texts of 404 and 500. -/
def exampleLib : Lib where
  ToUpper := fun s => String.mk (s.data.map Char.toUpper)
  NewRequest := fun method url body =>
    .ok { Method := method, URL := url, RawQuery := "", Header := [], Body := body }
  Query := fun _ => []
  Encode := fun q =>
    String.intercalate "&" (q.map (fun kv => String.intercalate "&" (kv.2.map (fun v => kv.1 ++ "=" ++ v))))
  StatusText := fun s =>
    if s = 404 then "Not Found" else if s = 500 then "Internal Server Error" else ""

/-- A service whose HTTP client answers every request with `resp`. -/
def answering (resp : Response) : Service :=
  { httpClient := { Do := fun _ => .ok resp } }

/-- A service whose HTTP client fails every request with a transport error. -/
def unreachable : Service :=
  { httpClient := { Do := fun _ => .error (.other "dial tcp: connection refused") } }

/-- The request `exampleLib.NewRequest` makes for `GET https://api.example/v1`. -/
def exampleRequest : Request :=
  { Method := "GET", URL := "https://api.example/v1", RawQuery := "", Header := [],
    Body := none }

/-- A 200 response without a body. -/
def okResponse : Response :=
  { StatusCode := 200, Header := [], Body := none }

/-- A 204 response with one header and an unread body. -/
def noContentResponse : Response :=
  { StatusCode := 204, Header := [("X-Request-Id", "7")],
    Body := some { data := "[]", err := none } }

/-- A 404 response with the readable body `missing`. -/
def notFoundResponse : Response :=
  { StatusCode := 404, Header := [], Body := some { data := "missing", err := none } }

/-- A 503 response without a body. -/
def unavailableResponse : Response :=
  { StatusCode := 503, Header := [], Body := none }

end httpService

/-! ## Kinds that share an HTTP status code -/

namespace util

/-- The HTTP status code `HTTPCode` gives a `ServiceError` of kind `k`; `HTTPCode` reads
only the kind. -/
def httpCodeOfKind (k : ErrorType) : Int := (Error k "").HTTPCode

/-- The declared kinds to which `HTTPCode` assigns the status code `c`. -/
def kindsWithHTTPCode (c : Int) : List ErrorType :=
  allKinds.filter (fun k => httpCodeOfKind k = c)

/-- The status codes that `HTTPCode` assigns to more than one of the declared kinds,
each listed once. -/
def sharedHTTPCodes : List Int :=
  (allKinds.map httpCodeOfKind).dedup.filter (fun c => 1 < (kindsWithHTTPCode c).length)

end util

/-! ## `net/http`: methods, `ResponseWriter` and `http.Error` -/

namespace http

/-- `http.StatusOK` -/
def StatusOK : Int := 200
/-- `http.MethodGet` -/
def MethodGet : String := "GET"
/-- `http.MethodPost` -/
def MethodPost : String := "POST"
/-- `http.MethodPut` -/
def MethodPut : String := "PUT"

/-- The state of the `http.ResponseWriter` a handler writes to: the header map
`w.Header()`, the status code sent by the first `WriteHeader` (`none` while no header has
been written), the headers sent with it, and the body bytes written so far. -/
structure ResponseWriter where
  header : List (String × String)
  status : Option Int
  sentHeader : List (String × String)
  body : String
  deriving DecidableEq, Repr

/-- The writer a handler receives: nothing set, nothing written. -/
def ResponseWriter.fresh : ResponseWriter :=
  { header := [], status := none, sentHeader := [], body := "" }

/-- `w.Header().Set(key, value)` -/
def ResponseWriter.HeaderSet (w : ResponseWriter) (key value : String) : ResponseWriter :=
  { w with header := (w.header.filter (fun kv => kv.1 != key)) ++ [(key, value)] }

/-- `w.WriteHeader(code)`: the first call sends the status code and the headers set so
far; a later call is ignored by the server. -/
def ResponseWriter.WriteHeader (w : ResponseWriter) (code : Int) : ResponseWriter :=
  match w.status with
  | some _ => w
  | none => { w with status := some code, sentHeader := w.header }

/-- `w.Write(b)`: sends `WriteHeader(http.StatusOK)` first if no header was written, then
appends the bytes to the body. -/
def ResponseWriter.Write (w : ResponseWriter) (b : String) : ResponseWriter :=
  let w := w.WriteHeader StatusOK
  { w with body := w.body ++ b }

/-- `http.Error(w, error, code)`: sets the plain-text content type, writes the header with
`code` and prints the message followed by a newline. -/
def Error (w : ResponseWriter) (error : String) (code : Int) : ResponseWriter :=
  let w := w.HeaderSet "Content-Type" "text/plain; charset=utf-8"
  let w := w.HeaderSet "X-Content-Type-Options" "nosniff"
  let w := w.WriteHeader code
  w.Write (error ++ "\n")

end http

/-! ## `internal/http/interface.go` -/

namespace httpService

/-- The arguments of one call of `Call` (the context apart). -/
structure CallArgs where
  method : String
  url : String
  body : Option Reader
  authorization : String
  contentType : String
  urlParams : List URLParam
  deriving DecidableEq, Repr

/-- `type Interface interface { Call(ctx, method, url, body, authorization, contentType,
urlParams) (*http.Response, error) }`: an implementation is given by the two values its
`Call` returns (`none` is nil). -/
structure Interface where
  Call : String → String → Option Reader → String → String → List URLParam →
    Option Response × Option GoError

/-- `func NewService(httpClient *http.Client) Interface`: the `Service` of
`internal/http/service.go` behind the interface. -/
def NewService (L : Lib) (httpClient : Client) : Interface :=
  { Call := fun method url body authorization contentType urlParams =>
      let r := Service.Call L { httpClient := httpClient } method url body authorization
        contentType urlParams
      (r.resp, r.err) }

/-- `ContentTypeJSON` -/
def ContentTypeJSON : String := "application/json"

end httpService

/-! ## `internal/godaddy` -/

namespace godaddy

/-- `type AddressMailing struct` -/
structure AddressMailing where
  Address1 : String
  City : String
  Country : String
  PostalCode : String
  State : String
  deriving DecidableEq, Repr

/-- `type Contact struct` -/
structure Contact where
  AddressMailing : AddressMailing
  Email : String
  NameFirst : String
  NameLast : String
  Phone : String
  deriving DecidableEq, Repr

/-- `type Consent struct` -/
structure Consent where
  AgreedAt : String
  AgreedBy : String
  AgreementKeys : List String
  deriving DecidableEq, Repr

/-- `type DNSRecord struct { Type, Name, Data string; TTL int64 }`; the field `Type` is
written `Type_`. -/
structure DNSRecord where
  Type_ : String
  Name : String
  Data : String
  TTL : Int
  deriving DecidableEq, Repr

/-- `type Interface interface`: the eight operations, each given by the values it returns
for its arguments (`none` is a nil error). -/
structure Interface where
  GetDomainAvailabilityAndPrice : String → Bool × Int × Option GoError
  PurchaseDomain : String → Contact → Consent → Option GoError
  GetDomainSuggestions : String → List String × Option GoError
  GetPurchaseSchema : String → List String × Option GoError
  ListTLDs : List String × Option GoError
  GetPurchaseAgreement : String → List String × Option GoError
  GetDNSRecords : String → String → List DNSRecord × Option GoError
  PutDNSRecord : String → DNSRecord → Option GoError

/-- One invocation of an operation of `Interface`, with its arguments. -/
inductive Invocation where
  | GetDomainAvailabilityAndPrice (domain : String)
  | PurchaseDomain (domain : String) (contact : Contact) (consent : Consent)
  | GetDomainSuggestions (domain : String)
  | GetPurchaseSchema (tld : String)
  | ListTLDs
  | GetPurchaseAgreement (tld : String)
  | GetDNSRecords (domain : String) (dnsType : String)
  | PutDNSRecord (domain : String) (record : DNSRecord)
  deriving DecidableEq, Repr

/-- `purchaseDomainURL` -/
def purchaseDomainURL : String := "https://api.ote-godaddy.com/v1/domains/purchase"

/-- `fmt.Sprintf(putDNSRecordURLTemplate, domain, recordType, name)` with
`putDNSRecordURLTemplate = "https://api.ote-godaddy.com/v1/domains/%s/records/%s/%s"`. -/
def putDNSRecordURL (domain recordType name : String) : String :=
  "https://api.ote-godaddy.com/v1/domains/" ++ domain ++ "/records/" ++ recordType ++ "/" ++ name

/-- `auth` -/
def auth : String := ""

/-- `var DNSTypes` -/
def DNSTypes : List String := ["A", "AAAA", "CNAME", "MX", "NS", "SOA", "SRV", "TXT"]

/-- `type Service struct { httpClient httpService.Interface }` -/
structure Service where
  httpClient : httpService.Interface

/-- `type purchaseDomainBody struct` of `PurchaseDomain`. -/
structure purchaseDomainBody where
  Consent : Consent
  ContactAdmin : Contact
  ContactBilling : Contact
  ContactRegistrant : Contact
  ContactTech : Contact
  Domain : String
  deriving DecidableEq, Repr

/-- The use of `encoding/json` in the two writing operations:
`json.NewEncoder(body).Encode(v)` on a new buffer, given by the bytes the buffer holds
afterwards (the code ignores the error `Encode` returns). -/
structure Encoder where
  EncodePurchase : purchaseDomainBody → String
  EncodeRecords : List DNSRecord → String

/-- What an operation of `Service` yields: the error it returns (`none` is nil) and the
calls of the Transport Client it made, in order. -/
structure OpResult where
  err : Option GoError
  calls : List httpService.CallArgs
  deriving DecidableEq, Repr

/-- The arguments of the one `Call` of `PurchaseDomain`: a POST to the purchase URL with
the encoded `purchaseDomainBody`, in which the one contact fills all four roles. -/
def purchaseDomainArgs (E : Encoder) (domain : String) (contact : Contact)
    (consent : Consent) : httpService.CallArgs :=
  let bodyData : purchaseDomainBody :=
    { Consent := consent, ContactAdmin := contact, ContactBilling := contact,
      ContactRegistrant := contact, ContactTech := contact, Domain := domain }
  let body : httpService.Reader := { data := E.EncodePurchase bodyData, err := none }
  { method := http.MethodPost, url := purchaseDomainURL, body := some body,
    authorization := auth, contentType := httpService.ContentTypeJSON, urlParams := [] }

/-- `func (s *Service) PurchaseDomain(ctx, domain, contact, consent) error` -/
def Service.PurchaseDomain (E : Encoder) (s : Service) (domain : String) (contact : Contact)
    (consent : Consent) : OpResult :=
  let args := purchaseDomainArgs E domain contact consent
  let res := s.httpClient.Call args.method args.url args.body args.authorization
    args.contentType args.urlParams
  match res.2 with
  | some _ =>
    { err := some (.service (util.Error util.Internal "Error purchasing domain"))
      calls := [args] }
  | none => { err := none, calls := [args] }

/-- The arguments of the one `Call` of `PutDNSRecord`: a PUT to the records URL of the
domain, record type and record name, with the encoded one-record list. -/
def putDNSRecordArgs (E : Encoder) (domain : String) (record : DNSRecord) :
    httpService.CallArgs :=
  let url := putDNSRecordURL domain record.Type_ record.Name
  let body : httpService.Reader := { data := E.EncodeRecords [record], err := none }
  { method := http.MethodPut, url := url, body := some body,
    authorization := auth, contentType := httpService.ContentTypeJSON, urlParams := [] }

/-- `func (s *Service) PutDNSRecord(ctx, domain, record) error` -/
def Service.PutDNSRecord (E : Encoder) (s : Service) (domain : String) (record : DNSRecord) :
    OpResult :=
  let args := putDNSRecordArgs E domain record
  let res := s.httpClient.Call args.method args.url args.body args.authorization
    args.contentType args.urlParams
  match res.2 with
  | some err => { err := some err, calls := [args] }
  | none => { err := none, calls := [args] }

end godaddy

/-! ## `server/main.go` -/

namespace server

/-- The inbound `*http.Request`, of which the handlers read only the body. -/
structure Request where
  Body : String
  deriving DecidableEq, Repr

/-- `type request struct { Domain string }` of `/domain-suggest` and `/list-dns`. -/
structure domainRequest where
  Domain : String
  deriving DecidableEq, Repr

/-- `type request struct { Domain, Type, Name, Data string; TTL int64 }` of `/put-dns`. -/
structure putDNSRequest where
  Domain : String
  Type_ : String
  Name : String
  Data : String
  TTL : Int
  deriving DecidableEq, Repr

/-- `type response struct { Available bool; Price int64 }` of `/domain-availability`. -/
structure availabilityResponse where
  Available : Bool
  Price : Int
  deriving DecidableEq, Repr

/-- `type suggestion struct { Domain string; Price int64 }` -/
structure suggestion where
  Domain : String
  Price : Int
  deriving DecidableEq, Repr

/-- The uses of `encoding/json` in the handlers: `json.NewDecoder(r.Body).Decode(&req)` for
the two request types, and `json.Marshal` of the three response types, each with the error
it may return. -/
structure Lib where
  DecodeDomain : String → Except GoError domainRequest
  DecodePutDNS : String → Except GoError putDNSRequest
  MarshalAvailability : availabilityResponse → Except GoError String
  MarshalSuggestions : List suggestion → Except GoError String
  MarshalRecords : List godaddy.DNSRecord → Except GoError String

/-- What handling one request yields: the final state of the response writer and the
operations of `godaddyService` that were invoked. -/
structure Outcome where
  w : http.ResponseWriter
  calls : List godaddy.Invocation
  deriving DecidableEq, Repr

/-- One execution of the goroutines of a fan-out over the sub-task list `l`: `started l`
is the order in which they invoke the operation of `godaddyService`, `finished l` the
order in which they reach their end (returning the error, or appending under the mutex and
returning nil).  An interleaving of the sub-tasks gives two permutations of `l`. -/
structure Schedule where
  started : List String → List String
  finished : List String → List String

/-- The state the goroutines of a fan-out share: the error the `errgroup.Group` keeps
(the first one returned; later ones are dropped) and the slice guarded by the mutex. -/
structure FanOut (β : Type) where
  err : Option GoError
  collected : List β

/-- The end of one goroutine, which returned `res.1` after appending `res.2`. -/
def FanOut.finish {β : Type} (st : FanOut β) (res : Option GoError × List β) : FanOut β :=
  { err := match st.err with
      | some e => some e
      | none => res.1
    collected := st.collected ++ res.2 }

/-- `g.Wait()`: the shared state once every goroutine has ended, in the order given. -/
def FanOut.wait {β : Type} (finished : List (Option GoError × List β)) : FanOut β :=
  finished.foldl FanOut.finish { err := none, collected := [] }

/-- The handler of `/domain-availability`. -/
def domainAvailability (J : Lib) (godaddyService : godaddy.Interface) : Outcome :=
  let w := http.ResponseWriter.fresh
  let domain := "slacknotification.biz"
  let res := godaddyService.GetDomainAvailabilityAndPrice domain
  let resp : availabilityResponse := { Available := res.1, Price := res.2.1 }
  let calls := [godaddy.Invocation.GetDomainAvailabilityAndPrice domain]
  match J.MarshalAvailability resp with
  | .error _ =>
    { w := http.Error w "Internal Server Error" http.StatusInternalServerError, calls := calls }
  | .ok jsonResp =>
    { w := ((w.HeaderSet "Content-Type" "application/json").WriteHeader http.StatusOK).Write
        jsonResp
      calls := calls }

/-- The contact `/purchase-domain` uses. -/
def purchaseContact : godaddy.Contact :=
  { AddressMailing :=
      { Address1 := "123", City := "Saskatoon", Country := "CA", PostalCode := "S7S1N5",
        State := "SK" }
    Email := "glu+test@vendasta.com", NameFirst := "Gary", NameLast := "Lu",
    Phone := "+123.4511111111" }

/-- The consent `/purchase-domain` uses. -/
def purchaseConsent : godaddy.Consent :=
  { AgreedAt := "", AgreedBy := "", AgreementKeys := ["DNRA"] }

/-- The message of a non-nil error, `err.Error()`.  For an error of the `status` package
the library formats the code together with the message; only the message is kept. -/
def errorText : GoError → String
  | .service e => e.Error
  | .httpError e => httpService.Error.Error (some e)
  | .grpcStatus _ msg => msg
  | .other msg => msg

/-- The handler of `/purchase-domain`. -/
def purchaseDomain (godaddyService : godaddy.Interface) : Outcome :=
  let w := http.ResponseWriter.fresh
  let domain := "Crystalisland.io"
  let calls := [godaddy.Invocation.PurchaseDomain domain purchaseContact purchaseConsent]
  match godaddyService.PurchaseDomain domain purchaseContact purchaseConsent with
  | some err =>
    { w := http.Error w (errorText err) http.StatusInternalServerError, calls := calls }
  | none => { w := w.WriteHeader http.StatusOK, calls := calls }

/-- The goroutine of `/domain-suggest` for one candidate: the error it returns and what it
appends to `domainAndPrice.s`. -/
def domainSuggestTask (godaddyService : godaddy.Interface) (domain : String) :
    Option GoError × List suggestion :=
  let res := godaddyService.GetDomainAvailabilityAndPrice domain
  match res.2.2 with
  | some err => (some err, [])
  | none =>
    if res.1 then (none, [{ Domain := domain, Price := res.2.1 }])
    else (none, [])

/-- The handler of `/domain-suggest`. -/
def domainSuggest (J : Lib) (godaddyService : godaddy.Interface) (sched : Schedule)
    (r : Request) : Outcome :=
  let w := http.ResponseWriter.fresh
  match J.DecodeDomain r.Body with
  | .error _ =>
    { w := http.Error w "Error processing request, expected \x7bdomain: string\x7d"
        http.StatusBadRequest
      calls := [] }
  | .ok req =>
    let domain := req.Domain
    let res := godaddyService.GetDomainSuggestions domain
    let sDomains := res.1
    match res.2 with
    | some _ =>
      { w := http.Error w "Error getting domain suggestion" http.StatusInternalServerError
        calls := [.GetDomainSuggestions domain] }
    | none =>
      let calls := godaddy.Invocation.GetDomainSuggestions domain ::
        (sched.started sDomains).map godaddy.Invocation.GetDomainAvailabilityAndPrice
      let domainAndPrice :=
        FanOut.wait ((sched.finished sDomains).map (domainSuggestTask godaddyService))
      let w :=
        match domainAndPrice.err with
        | some _ => http.Error w "Internal Server Error" http.StatusInternalServerError
        | none => w
      match J.MarshalSuggestions domainAndPrice.collected with
      | .error _ =>
        { w := http.Error w "Internal Server Error" http.StatusInternalServerError
          calls := calls }
      | .ok jsonResp =>
        { w := ((w.HeaderSet "Content-Type" "application/json").WriteHeader
            http.StatusOK).Write jsonResp
          calls := calls }

/-- The goroutine of `/list-dns` for one record type: the error it returns and what it
appends to `dnsRecords.r`. -/
def listDNSTask (godaddyService : godaddy.Interface) (domain DNSType : String) :
    Option GoError × List godaddy.DNSRecord :=
  let res := godaddyService.GetDNSRecords domain DNSType
  match res.2 with
  | some err => (some err, [])
  | none => (none, res.1)

/-- The handler of `/list-dns`. -/
def listDNS (J : Lib) (godaddyService : godaddy.Interface) (sched : Schedule)
    (r : Request) : Outcome :=
  let w := http.ResponseWriter.fresh
  match J.DecodeDomain r.Body with
  | .error _ =>
    { w := http.Error w "Error processing request, expected \x7bdomain: string\x7d"
        http.StatusBadRequest
      calls := [] }
  | .ok req =>
    let domain := req.Domain
    let calls := (sched.started godaddy.DNSTypes).map (godaddy.Invocation.GetDNSRecords domain)
    let dnsRecords :=
      FanOut.wait ((sched.finished godaddy.DNSTypes).map (listDNSTask godaddyService domain))
    match dnsRecords.err with
    | some _ =>
      { w := http.Error w "Internal Server Error" http.StatusInternalServerError
        calls := calls }
    | none =>
      match J.MarshalRecords dnsRecords.collected with
      | .error _ =>
        { w := http.Error w "Internal Server Error" http.StatusInternalServerError
          calls := calls }
      | .ok jsonResp =>
        { w := ((w.HeaderSet "Content-Type" "application/json").WriteHeader
            http.StatusOK).Write jsonResp
          calls := calls }

/-- The handler of `/put-dns`. -/
def putDNS (J : Lib) (godaddyService : godaddy.Interface) (r : Request) : Outcome :=
  let w := http.ResponseWriter.fresh
  match J.DecodePutDNS r.Body with
  | .error _ =>
    { w := http.Error w "Error processing request, expected \x7bdomain: string\x7d"
        http.StatusBadRequest
      calls := [] }
  | .ok req =>
    let domain := req.Domain
    let dnsRecord : godaddy.DNSRecord :=
      { Type_ := req.Type_, Name := req.Name, Data := req.Data, TTL := req.TTL }
    let calls := [godaddy.Invocation.PutDNSRecord domain dnsRecord]
    match godaddyService.PutDNSRecord domain dnsRecord with
    | some _ =>
      { w := http.Error w "Internal Server Error" http.StatusInternalServerError
        calls := calls }
    | none => { w := w.WriteHeader http.StatusOK, calls := calls }

end server

/-! ## Concrete collaborators, for evaluating the handlers -/

namespace server

/-- A small instance of the JSON functions: a non-empty body is read as the domain (and,
for `/put-dns`, as the domain of a fixed `A` record), an empty body fails with `EOF`;
values are rendered as bracketed, comma-separated text. -/
def exampleJSON : Lib where
  DecodeDomain := fun body =>
    if body = "" then .error (.other "EOF") else .ok { Domain := body }
  DecodePutDNS := fun body =>
    if body = "" then .error (.other "EOF")
    else .ok { Domain := body, Type_ := "A", Name := "@", Data := "192.0.2.1", TTL := 600 }
  MarshalAvailability := fun r => .ok (toString r.Available ++ "," ++ toString r.Price)
  MarshalSuggestions := fun l =>
    .ok ("[" ++ String.intercalate "," (l.map (fun s => s.Domain ++ "=" ++ toString s.Price))
      ++ "]")
  MarshalRecords := fun l =>
    .ok ("[" ++ String.intercalate ","
      (l.map (fun r => r.Type_ ++ " " ++ r.Name ++ " " ++ r.Data ++ " " ++ toString r.TTL))
      ++ "]")

/-- The error the operations of `failingAdapter` return. -/
def upstreamError : GoError := .service (util.Error util.Internal "Error calling upstream")

/-- An adapter in which every operation succeeds: three candidates, of which `a.com`
(500) and `c.com` (999) are available, and one `TXT` record. -/
def workingAdapter : godaddy.Interface where
  GetDomainAvailabilityAndPrice := fun d =>
    if d = "a.com" then (true, 500, none)
    else if d = "c.com" then (true, 999, none)
    else (false, 0, none)
  PurchaseDomain := fun _ _ _ => none
  GetDomainSuggestions := fun _ => (["a.com", "b.com", "c.com"], none)
  GetPurchaseSchema := fun _ => ([], none)
  ListTLDs := ([], none)
  GetPurchaseAgreement := fun _ => ([], none)
  GetDNSRecords := fun _ t =>
    if t = "TXT" then ([{ Type_ := "TXT", Name := "@", Data := "v=spf1", TTL := 3600 }], none)
    else ([], none)
  PutDNSRecord := fun _ _ => none

/-- An adapter with failures: the availability check succeeds for `a.com` only, the
`MX` listing fails, purchase and record write fail. -/
def failingAdapter : godaddy.Interface where
  GetDomainAvailabilityAndPrice := fun d =>
    if d = "a.com" then (true, 500, none) else (false, 0, some upstreamError)
  PurchaseDomain := fun _ _ _ => some upstreamError
  GetDomainSuggestions := fun _ => (["a.com", "b.com"], none)
  GetPurchaseSchema := fun _ => ([], none)
  ListTLDs := ([], none)
  GetPurchaseAgreement := fun _ => ([], none)
  GetDNSRecords := fun _ t =>
    if t = "MX" then ([], some upstreamError)
    else if t = "TXT" then
      ([{ Type_ := "TXT", Name := "@", Data := "v=spf1", TTL := 3600 }], none)
    else ([], none)
  PutDNSRecord := fun _ _ => some upstreamError

/-- The schedule in which the goroutines call and end in the order they were launched. -/
def inOrder : Schedule := { started := id, finished := id }

/-- The schedule in which the goroutines call in launch order and end in the opposite
order. -/
def lastFirst : Schedule := { started := id, finished := List.reverse }

/-- A request with the body `foo`. -/
def fooRequest : Request := { Body := "foo" }

/-- A request with an empty body. -/
def emptyRequest : Request := { Body := "" }

/-- The record the example decoder of `/put-dns` produces. -/
def exampleRecord : godaddy.DNSRecord :=
  { Type_ := "A", Name := "@", Data := "192.0.2.1", TTL := 600 }

end server

namespace godaddy

/-- An instance of the encoder: the records rendered as text. -/
def exampleEncoder : Encoder where
  EncodePurchase := fun b => b.Domain
  EncodeRecords := fun l =>
    String.intercalate "," (l.map (fun r => r.Type_ ++ " " ++ r.Name ++ " " ++ r.Data))

/-- The adapter over the Transport Client of `internal/http` whose HTTP client answers
every request with the 404 response `notFoundResponse`. -/
def notFoundService : Service :=
  { httpClient :=
      httpService.NewService httpService.exampleLib
        (httpService.answering httpService.notFoundResponse).httpClient }

end godaddy

/-! ## `fmt`, `status` and the rest of `util/errors.go` -/

namespace fmt

/-- `fmt.Sprintf(format)` with no further arguments.  The function belongs to the Go
standard library and is taken as a parameter; `verbFree` records that a format without
the character `%` is returned as it is. -/
structure Lib where
  Sprintf : String → String
  verbFree : ∀ s : String, '%' ∉ s.data → Sprintf s = s

/-- An instance: a format with a `%` gets the marker Go prints for a verb without an
operand appended, any other format is returned as it is. -/
def exampleLib : Lib where
  Sprintf := fun s => if '%' ∈ s.data then s ++ "(MISSING)" else s
  verbFree := fun s h => by simp [h]

end fmt

namespace status

/-- `status.Error(c, msg)`, and `(*Status).Err()` of the status with code `c` and message
`msg`: nil for the code `OK`, otherwise the error carrying the code and the message. -/
def Error (T : codes.Table) (c : codes.Code) (msg : String) : Option GoError :=
  if c = T.OK then none else some (.grpcStatus c msg)

/-- `status.Errorf(c, format)` with no further arguments:
`Error(c, fmt.Sprintf(format))`. -/
def Errorf (T : codes.Table) (F : fmt.Lib) (c : codes.Code) (format : String) :
    Option GoError :=
  Error T c (F.Sprintf format)

end status

namespace util

/-- `func (v ServiceError) GRPCError() error` -/
def ServiceError.GRPCError (T : codes.Table) (F : fmt.Lib) (v : ServiceError) :
    Option GoError :=
  let grpcCode := ErrorTypeToGRPCCode T v.errType
  if grpcCode = T.Unknown then
    status.Errorf T F T.Unknown "Unknown server error."
  else
    status.Errorf T F grpcCode v.msg

/-- `func FromError(err error) ServiceError`.  For a nil error `status.FromError` returns
the nil status with `ok = true`, whose code is `OK` and whose message is empty; `Error`
formats the message it is given with `fmt.Sprintf`. -/
def FromError (T : codes.Table) (F : fmt.Lib) (err : Option GoError) : ServiceError :=
  match err with
  | none => { msg := F.Sprintf "", errType := GRPCCodeToErrorType T T.OK }
  | some e =>
    match status.FromError e with
    | some (code, message) => { msg := F.Sprintf message, errType := GRPCCodeToErrorType T code }
    | none =>
      match e with
      | .service serviceError => serviceError
      | _ => Error Unknown "Unknown server error."

/-- `func ToGrpcError(err error) error` -/
def ToGrpcError (T : codes.Table) (F : fmt.Lib) (err : Option GoError) : Option GoError :=
  match err with
  | none => none
  | some e =>
    match status.FromError e with
    | some (code, message) => status.Error T code message
    | none => (FromError T F (some e)).GRPCError T F

end util

/-! ## `logging/grpc.go` -/

namespace logging

/-- `func HTTPStatusFromCode(code codes.Code) int32` -/
def HTTPStatusFromCode (T : codes.Table) (code : codes.Code) : Int :=
  if code = T.OK then http.StatusOK
  else if code = T.Canceled then http.StatusRequestTimeout
  else if code = T.Unknown then http.StatusInternalServerError
  else if code = T.InvalidArgument then http.StatusBadRequest
  else if code = T.DeadlineExceeded then http.StatusRequestTimeout
  else if code = T.NotFound then http.StatusNotFound
  else if code = T.AlreadyExists then http.StatusConflict
  else if code = T.PermissionDenied then http.StatusForbidden
  else if code = T.Unauthenticated then http.StatusUnauthorized
  else if code = T.ResourceExhausted then http.StatusTooManyRequests
  else if code = T.FailedPrecondition then http.StatusPreconditionFailed
  else if code = T.Aborted then http.StatusConflict
  else if code = T.OutOfRange then http.StatusBadRequest
  else if code = T.Unimplemented then http.StatusNotImplemented
  else if code = T.Internal then http.StatusInternalServerError
  else if code = T.Unavailable then http.StatusServiceUnavailable
  else if code = T.DataLoss then http.StatusInternalServerError
  else http.StatusInternalServerError

end logging

/-! ## `validation/validator.go`: the rules evaluated, and `ValidateAndJoinErrors` -/

namespace validation

/-- The loop of `Validate` together with the rules whose `Validate` it called, in order. -/
def validateLoopTrace : List Rule → Option GoError × List Rule
  | [] => (none, [])
  | r :: rest =>
    match r.Validate with
    | some err => (some err, [r])
    | none => ((validateLoopTrace rest).1, r :: (validateLoopTrace rest).2)

/-- The state of the loop of `ValidateAndJoinErrors`: the messages gathered and the rules
whose `Validate` was called. -/
structure JoinState where
  messages : List String
  evaluated : List Rule

/-- One round of the loop of `ValidateAndJoinErrors`; `Error` gives `err.Error()`. -/
def joinStep (Error : GoError → String) (st : JoinState) (r : Rule) : JoinState :=
  match r.Validate with
  | some err => { messages := st.messages ++ [Error err], evaluated := st.evaluated ++ [r] }
  | none => { messages := st.messages, evaluated := st.evaluated ++ [r] }

/-- The loop of `ValidateAndJoinErrors` over all rules. -/
def joinLoop (Error : GoError → String) (rules : List Rule) : JoinState :=
  rules.foldl (joinStep Error) { messages := [], evaluated := [] }

/-- `func (c *Validator) ValidateAndJoinErrors() error`, where `Error` gives the message
`err.Error()` of a rule's error, `strings.Join(messages, "\n")` is `String.intercalate` and
`errors.New(text)` is `GoError.other text`. -/
def Validator.ValidateAndJoinErrors (Error : GoError → String) (c : Validator) :
    Option GoError :=
  let messages := (joinLoop Error c.rules).messages
  if messages.length > 0 then some (.other (String.intercalate "\n" messages)) else none

/-- A rule that passes. -/
def passing : Rule := { Validate := none }

/-- A rule that fails with the given message. -/
def failing (msg : String) : Rule :=
  { Validate := some (.service (util.Error util.InvalidArgument msg)) }

end validation

/-! ## `serverconfig/grpc.go` -/

namespace serverconfig

/-- `grpc.UnaryHandler`: `func(ctx, req) (interface{}, error)`, with the pair of returned
values as one result. -/
abbrev UnaryHandler (Ctx Req Res : Type) := Ctx → Req → Res

/-- `grpc.UnaryServerInterceptor`: `func(ctx, req, info, handler) (interface{}, error)`. -/
abbrev UnaryServerInterceptor (Ctx Req Info Res : Type) :=
  Ctx → Req → Info → UnaryHandler Ctx Req Res → Res

/-- The closure `buildChain` of `ChainUnaryServer`, which captures `info`. -/
def buildChain {Ctx Req Info Res : Type} (info : Info)
    (current : UnaryServerInterceptor Ctx Req Info Res) (next : UnaryHandler Ctx Req Res) :
    UnaryHandler Ctx Req Res :=
  fun currentCtx currentReq => current currentCtx currentReq info next

/-- The loop `for i := len(interceptors) - 1; i >= 0; i--` of `ChainUnaryServer`, with
`k = i + 1` rounds left. -/
def chainLoop {Ctx Req Info Res : Type} (info : Info)
    (interceptors : List (UnaryServerInterceptor Ctx Req Info Res)) :
    Nat → UnaryHandler Ctx Req Res → UnaryHandler Ctx Req Res
  | 0, chain => chain
  | i + 1, chain =>
    match interceptors.get? i with
    | some current => chainLoop info interceptors i (buildChain info current chain)
    | none => chainLoop info interceptors i chain

/-- `func ChainUnaryServer(interceptors ...grpc.UnaryServerInterceptor)
grpc.UnaryServerInterceptor` -/
def ChainUnaryServer {Ctx Req Info Res : Type}
    (interceptors : List (UnaryServerInterceptor Ctx Req Info Res)) :
    UnaryServerInterceptor Ctx Req Info Res :=
  fun ctx req info handler =>
    let chain := chainLoop info interceptors interceptors.length handler
    chain ctx req

/-- The chain as the specification words it: the first interceptor called with a
next-handler that calls the second with a next-handler that ... calls the last with the
handler `h`, each with the same `info`; for the empty list, `h` itself. -/
def nestedChain {Ctx Req Info Res : Type} (info : Info) :
    List (UnaryServerInterceptor Ctx Req Info Res) → UnaryHandler Ctx Req Res →
    UnaryHandler Ctx Req Res
  | [], h => h
  | i :: rest, h => fun ctx req => i ctx req info (nestedChain info rest h)

/-- An interceptor that records its name before and after the rest of the chain; requests
and results are lists of strings. -/
def tagging (name : String) : UnaryServerInterceptor Unit (List String) String (List String) :=
  fun ctx req info handler => handler ctx (req ++ [name ++ ":" ++ info]) ++ [name]

end serverconfig

/-! ## Concrete responses below 200 -/

namespace httpService

/-- A 101 response without a body. -/
def switchingResponse : Response :=
  { StatusCode := 101, Header := [("Upgrade", "websocket")], Body := none }

end httpService

/-! ## The goroutines of a fan-out, step by step -/

namespace server

/-- What a goroutine of a fan-out does once its call of `godaddyService` has returned:
return the error, return nil without appending, or lock the mutex, append the items,
unlock and return nil. -/
inductive Plan (β : Type) where
  | fail (err : GoError)
  | skip
  | append (items : List β)
  deriving DecidableEq, Repr

/-- The items a goroutine with this plan appends. -/
def Plan.items {β : Type} : Plan β → List β
  | .append items => items
  | _ => []

/-- Whether a goroutine with this plan enters the section guarded by the mutex. -/
def Plan.appends {β : Type} : Plan β → Bool
  | .append _ => true
  | _ => false

/-- The goroutine of `/domain-suggest` for one candidate. -/
def domainSuggestPlan (godaddyService : godaddy.Interface) (domain : String) :
    Plan suggestion :=
  let res := godaddyService.GetDomainAvailabilityAndPrice domain
  match res.2.2 with
  | some err => .fail err
  | none =>
    if res.1 then .append [{ Domain := domain, Price := res.2.1 }]
    else .skip

/-- The goroutine of `/list-dns` for one record type. -/
def listDNSPlan (godaddyService : godaddy.Interface) (domain DNSType : String) :
    Plan godaddy.DNSRecord :=
  let res := godaddyService.GetDNSRecords domain DNSType
  match res.2 with
  | some err => .fail err
  | none => .append res.1

/-- Where a goroutine stands: launched and not yet calling `godaddyService`; inside the
call; back from the call; holding the mutex after `mu.Lock()`; having read the slice (the
first half of `s = append(s, ...)`); having stored the appended slice; returned. -/
inductive PC (β : Type) where
  | idle
  | calling
  | called
  | locked
  | read (snapshot : List β)
  | written
  | done
  deriving DecidableEq, Repr

/-- Whether a goroutine at this point holds the mutex. -/
def PC.holds {β : Type} : PC β → Bool
  | .locked => true
  | .read _ => true
  | .written => true
  | _ => false

/-- The state the goroutines of one fan-out share: the point each goroutine is at, the
goroutine holding the mutex, the slice, the error kept by the `errgroup.Group`, whether its
context has been cancelled, and the goroutines that have issued their call, in order. -/
structure Shared (β : Type) where
  pc : Nat → PC β
  mutex : Option Nat
  slice : List β
  err : Option GoError
  cancelled : Bool
  calls : List Nat

/-- The state when the goroutines have been launched. -/
def Shared.init {β : Type} : Shared β :=
  { pc := fun _ => .idle, mutex := none, slice := [], err := none, cancelled := false,
    calls := [] }

/-- The state with goroutine `i` moved to the point `p`. -/
def Shared.setPC {β : Type} (s : Shared β) (i : Nat) (p : PC β) : Shared β :=
  { s with pc := fun j => if j = i then p else s.pc j }

/-- One step of goroutine `i` of the `n` goroutines, `plan i` being what the call of
goroutine `i` leads to; `none` when the goroutine cannot move (it waits for the mutex, has
returned, or is not one of the `n`). -/
def step {β : Type} (plan : Nat → Plan β) (n : Nat) (s : Shared β) (i : Nat) :
    Option (Shared β) :=
  if i < n then
    match s.pc i with
    | .idle => some { s.setPC i .calling with calls := s.calls ++ [i] }
    | .calling => some (s.setPC i .called)
    | .called =>
      match plan i with
      | .fail e =>
        some { s.setPC i .done with
          err := (match s.err with
            | some e0 => some e0
            | none => some e)
          cancelled := true }
      | .skip => some (s.setPC i .done)
      | .append _ =>
        match s.mutex with
        | none => some { s.setPC i .locked with mutex := some i }
        | some _ => none
    | .locked => some (s.setPC i (.read s.slice))
    | .read snapshot =>
      match plan i with
      | .append items => some { s.setPC i .written with slice := snapshot ++ items }
      | _ => none
    | .written => some { s.setPC i .done with mutex := none }
    | .done => none
  else none

/-- The state after the goroutines have been given the turns of `sched`, one after the
other; a turn given to a goroutine that cannot move changes nothing. -/
def run {β : Type} (plan : Nat → Plan β) (n : Nat) (s : Shared β) : List Nat → Shared β
  | [] => s
  | i :: rest =>
    match step plan n s i with
    | some s2 => run plan n s2 rest
    | none => run plan n s rest

/-- Whether a goroutine at this point has stored its appended slice, `a` telling whether
its plan appends. -/
def PC.appended {β : Type} (p : PC β) (a : Bool) : Bool :=
  match p with
  | .written => true
  | .done => a
  | _ => false

/-- Whether goroutine `i` has stored its appended slice. -/
def appended {β : Type} (plan : Nat → Plan β) (s : Shared β) (i : Nat) : Bool :=
  (s.pc i).appended (plan i).appends

/-- The invariant of the shared state: the mutex is held by exactly the goroutine that is
between `Lock` and `Unlock`; a goroutine that has read the slice has read its current
value; only goroutines whose plan appends enter the guarded section; only the `n`
goroutines move; and the slice is made of the items of the goroutines that have stored
their append, each once, in the order in which they stored. -/
structure Inv {β : Type} (plan : Nat → Plan β) (n : Nat) (s : Shared β) : Prop where
  mutex_iff : ∀ i, s.mutex = some i ↔ (s.pc i).holds = true
  snapshot : ∀ i snap, s.pc i = .read snap → snap = s.slice
  holder_appends : ∀ i, (s.pc i).holds = true → (plan i).appends = true
  outside_idle : ∀ i, n ≤ i → s.pc i = .idle
  slice_eq : ∃ order : List Nat,
    s.slice = order.flatMap (fun i => (plan i).items) ∧ order.Nodup ∧
    ∀ i, i ∈ order ↔ appended plan s i = true

end server

/-! ## The plans of the two fan-outs, by goroutine -/

namespace server

/-- The plans of the goroutines of `/domain-suggest`, goroutine `i` being the one launched
for the `i`-th candidate. -/
def domainSuggestPlans (godaddyService : godaddy.Interface) (sDomains : List String) :
    Nat → Plan suggestion :=
  fun i =>
    match sDomains.get? i with
    | some d => domainSuggestPlan godaddyService d
    | none => .skip

/-- The plans of the goroutines of `/list-dns`, goroutine `i` being the one launched for
the `i`-th record type. -/
def listDNSPlans (godaddyService : godaddy.Interface) (domain : String) :
    Nat → Plan godaddy.DNSRecord :=
  fun i =>
    match godaddy.DNSTypes.get? i with
    | some t => listDNSPlan godaddyService domain t
    | none => .skip

end server

/-! ## `internal/godaddy/service.go`: `GetDomainAvailabilityAndPrice` -/

namespace godaddy

/-- `domainsAvailableURL` -/
def domainsAvailableURL : String := "https://api.godaddy.com/v1/domains/available"

/-- `type response struct { Available bool; Currency string; Price int64 }` of
`GetDomainAvailabilityAndPrice`. -/
structure availabilityBody where
  Available : Bool
  Currency : String
  Price : Int
  deriving DecidableEq, Repr

/-- `json.Unmarshal(buf, body)` for a pointer to an `availabilityBody`, of which the code
ignores the returned error.  `encoding/json` checks the whole input for syntax before it
stores anything: on input that is not syntactically valid JSON (`Valid` is false) the value
is left as it was; on valid input it stores what `Fill` gives. -/
structure Unmarshaler where
  Valid : String → Bool
  Fill : String → availabilityBody → availabilityBody

/-- The value after `json.Unmarshal(buf, body)`. -/
def Unmarshaler.Unmarshal (U : Unmarshaler) (buf : String) (body : availabilityBody) :
    availabilityBody :=
  if U.Valid buf then U.Fill buf body else body

/-- What `GetDomainAvailabilityAndPrice` returns, with the calls of the Transport Client it
made. -/
structure AvailabilityResult where
  available : Bool
  price : Int
  err : Option GoError
  calls : List httpService.CallArgs
  deriving DecidableEq, Repr

/-- The arguments of the one `Call` of `GetDomainAvailabilityAndPrice`. -/
def availabilityArgs (domain : String) : httpService.CallArgs :=
  { method := http.MethodGet, url := domainsAvailableURL, body := none,
    authorization := auth, contentType := "",
    urlParams := [{ Key := "domain", Value := domain }] }

/-- `func (s *Service) GetDomainAvailabilityAndPrice(ctx, domain) (bool, int64, error)`;
`none` stands for the run-time panic of reading the body of a nil response, or a nil
body. -/
def Service.GetDomainAvailabilityAndPrice (U : Unmarshaler) (s : Service) (domain : String) :
    Option AvailabilityResult :=
  let args := availabilityArgs domain
  let res := s.httpClient.Call args.method args.url args.body args.authorization
    args.contentType args.urlParams
  match res.2 with
  | some _ =>
    some { available := false, price := 0
           err := some (.service (util.Error util.Internal "Error getting domain availability"))
           calls := [args] }
  | none =>
    match res.1 with
    | none => none
    | some r =>
      match r.Body with
      | none => none
      | some rb =>
        match httpService.ReadAll rb with
        | (_, some _) =>
          some { available := false, price := 0
                 err := some (.service (util.Error util.Internal "Error reading response body"))
                 calls := [args] }
        | (buf, none) =>
          let body := U.Unmarshal buf { Available := false, Currency := "", Price := 0 }
          some { available := body.Available, price := body.Price, err := none
                 calls := [args] }

/-- An instance of the decoder: only the text `yes 500` counts as valid, and fills in an
available domain at the price 500. -/
def exampleUnmarshaler : Unmarshaler where
  Valid := fun buf => buf == "yes 500"
  Fill := fun _ body => { body with Available := true, Price := 500 }

/-- The adapter over the Transport Client of `internal/http` whose HTTP client answers
every request with status 200 and an HTML page as body. -/
def htmlService : Service :=
  { httpClient :=
      httpService.NewService httpService.exampleLib
        { Do := fun _ =>
            .ok { StatusCode := 200, Header := [],
                  Body := some { data := "<html>maintenance</html>", err := none } } } }

end godaddy

/-! ## The fan-outs with the calls of `godaddyService` on record -/

namespace godaddy

/-- The call `godaddyService.GetDNSRecords(ctx, domain, dnsType)` with the record of the
invocations `godaddyService` has received: the call returns what the operation returns and
leaves its invocation on the record. -/
def Interface.invokeGetDNSRecords (godaddyService : Interface) (domain dnsType : String)
    (log : List Invocation) : (List DNSRecord × Option GoError) × List Invocation :=
  (godaddyService.GetDNSRecords domain dnsType, log ++ [.GetDNSRecords domain dnsType])

/-- The call `godaddyService.GetDomainAvailabilityAndPrice(ctx, domain)` with the record of
invocations. -/
def Interface.invokeGetDomainAvailabilityAndPrice (godaddyService : Interface)
    (domain : String) (log : List Invocation) :
    (Bool × Int × Option GoError) × List Invocation :=
  (godaddyService.GetDomainAvailabilityAndPrice domain,
    log ++ [.GetDomainAvailabilityAndPrice domain])

/-- The call `godaddyService.GetDomainSuggestions(ctx, domain)` with the record of
invocations. -/
def Interface.invokeGetDomainSuggestions (godaddyService : Interface) (domain : String)
    (log : List Invocation) : (List String × Option GoError) × List Invocation :=
  (godaddyService.GetDomainSuggestions domain, log ++ [.GetDomainSuggestions domain])

end godaddy

namespace server

/-- The first statement of the goroutine that `/list-dns` launches for the `i`-th record
type, `records, err := godaddyService.GetDNSRecords(ctx, domain, DNSType)`, and what the
goroutine does with the result: the plan it follows, and the record of invocations after
the call. -/
def listDNSCalls (godaddyService : godaddy.Interface) (domain : String) (i : Nat)
    (log : List godaddy.Invocation) : Plan godaddy.DNSRecord × List godaddy.Invocation :=
  match godaddy.DNSTypes.get? i with
  | some DNSType =>
    let c := godaddyService.invokeGetDNSRecords domain DNSType log
    match c.1.2 with
    | some err => (.fail err, c.2)
    | none => (.append c.1.1, c.2)
  | none => (.skip, log)

/-- The first statement of the goroutine that `/domain-suggest` launches for the `i`-th
candidate, `avail, price, err := godaddyService.GetDomainAvailabilityAndPrice(ctx,
domain)`, and what the goroutine does with the result. -/
def domainSuggestCalls (godaddyService : godaddy.Interface) (sDomains : List String)
    (i : Nat) (log : List godaddy.Invocation) : Plan suggestion × List godaddy.Invocation :=
  match sDomains.get? i with
  | some domain =>
    let c := godaddyService.invokeGetDomainAvailabilityAndPrice domain log
    match c.1.2.2 with
    | some err => (.fail err, c.2)
    | none =>
      if c.1.1 then (.append [{ Domain := domain, Price := c.1.2.1 }], c.2)
      else (.skip, c.2)
  | none => (.skip, log)

/-- The state of a fan-out whose goroutines call `godaddyService`: the shared state, the
plan each goroutine got from its call, and the record of invocations. -/
structure Traced (β : Type) where
  shared : Shared β
  plans : Nat → Plan β
  log : List godaddy.Invocation

/-- The state when the goroutines have been launched after the invocations `log`. -/
def Traced.init {β : Type} (log : List godaddy.Invocation) : Traced β :=
  { shared := Shared.init, plans := fun _ => .skip, log := log }

/-- One step of goroutine `i`: the step of `step`, where the step of a goroutine that has
not yet called is its call `call i` of `godaddyService`, which puts the invocation on
record and gives the goroutine its plan. -/
def stepTraced {β : Type} (call : Nat → List godaddy.Invocation → Plan β × List godaddy.Invocation)
    (n : Nat) (st : Traced β) (i : Nat) : Option (Traced β) :=
  match step st.plans n st.shared i with
  | none => none
  | some s2 =>
    match st.shared.pc i with
    | .idle =>
      some { shared := s2
             plans := fun j => if j = i then (call i st.log).1 else st.plans j
             log := (call i st.log).2 }
    | _ => some { st with shared := s2 }

/-- The state after the goroutines have been given the turns of `turns`, one after the
other; a turn given to a goroutine that cannot move changes nothing. -/
def runTraced {β : Type} (call : Nat → List godaddy.Invocation → Plan β × List godaddy.Invocation)
    (n : Nat) (st : Traced β) : List Nat → Traced β
  | [] => st
  | i :: rest =>
    match stepTraced call n st i with
    | some st2 => runTraced call n st2 rest
    | none => runTraced call n st rest

/-- Whether a goroutine at this point has returned. -/
def PC.isDone {β : Type} : PC β → Bool
  | .done => true
  | _ => false

/-- Whether all `n` goroutines have returned, which is when `g.Wait()` returns. -/
def allDone {β : Type} (n : Nat) (s : Shared β) : Bool :=
  (List.range n).all (fun i => (s.pc i).isDone)

/-- The turns that let the `n` goroutines run one after the other, each to its end (a
goroutine takes at most six steps). -/
def sequentialTurns (n : Nat) : List Nat :=
  (List.range n).flatMap (fun i => List.replicate 6 i)

/-- The goroutines of `/list-dns` for the domain `domain` after the turns `turns`: the
loop over `godaddy.DNSTypes` has launched one goroutine for each record type, and no
operation of `godaddyService` has been invoked before. -/
def listDNSFanOut (godaddyService : godaddy.Interface) (domain : String)
    (turns : List Nat) : Traced godaddy.DNSRecord :=
  runTraced (listDNSCalls godaddyService domain) godaddy.DNSTypes.length (Traced.init [])
    turns

/-- The goroutines of `/domain-suggest` for the candidates `sDomains` after the turns
`turns`: the loop over `sDomains` has launched one goroutine for each candidate, after the
invocations `log`. -/
def domainSuggestFanOut (godaddyService : godaddy.Interface) (sDomains : List String)
    (log : List godaddy.Invocation) (turns : List Nat) : Traced suggestion :=
  runTraced (domainSuggestCalls godaddyService sDomains) sDomains.length (Traced.init log)
    turns

/-- The handler of `/list-dns`, its goroutines run by the turns `turns`; `none` when after
these turns some goroutine has not returned, so that `g.Wait()` is still waiting. -/
def listDNSInterleaved (J : Lib) (godaddyService : godaddy.Interface) (turns : List Nat)
    (r : Request) : Option Outcome :=
  let w := http.ResponseWriter.fresh
  match J.DecodeDomain r.Body with
  | .error _ =>
    some { w := http.Error w "Error processing request, expected \x7bdomain: string\x7d"
             http.StatusBadRequest
           calls := [] }
  | .ok req =>
    let domain := req.Domain
    let st := listDNSFanOut godaddyService domain turns
    if allDone godaddy.DNSTypes.length st.shared then
      match st.shared.err with
      | some _ =>
        some { w := http.Error w "Internal Server Error" http.StatusInternalServerError
               calls := st.log }
      | none =>
        match J.MarshalRecords st.shared.slice with
        | .error _ =>
          some { w := http.Error w "Internal Server Error" http.StatusInternalServerError
                 calls := st.log }
        | .ok jsonResp =>
          some { w := ((w.HeaderSet "Content-Type" "application/json").WriteHeader
                   http.StatusOK).Write jsonResp
                 calls := st.log }
    else none

/-- The handler of `/domain-suggest`, its goroutines run by the turns `turns`; `none` when
after these turns some goroutine has not returned. -/
def domainSuggestInterleaved (J : Lib) (godaddyService : godaddy.Interface)
    (turns : List Nat) (r : Request) : Option Outcome :=
  let w := http.ResponseWriter.fresh
  match J.DecodeDomain r.Body with
  | .error _ =>
    some { w := http.Error w "Error processing request, expected \x7bdomain: string\x7d"
             http.StatusBadRequest
           calls := [] }
  | .ok req =>
    let domain := req.Domain
    let c := godaddyService.invokeGetDomainSuggestions domain []
    let sDomains := c.1.1
    match c.1.2 with
    | some _ =>
      some { w := http.Error w "Error getting domain suggestion"
               http.StatusInternalServerError
             calls := c.2 }
    | none =>
      let st := domainSuggestFanOut godaddyService sDomains c.2 turns
      if allDone sDomains.length st.shared then
        let w :=
          match st.shared.err with
          | some _ => http.Error w "Internal Server Error" http.StatusInternalServerError
          | none => w
        match J.MarshalSuggestions st.shared.slice with
        | .error _ =>
          some { w := http.Error w "Internal Server Error" http.StatusInternalServerError
                 calls := st.log }
        | .ok jsonResp =>
          some { w := ((w.HeaderSet "Content-Type" "application/json").WriteHeader
                   http.StatusOK).Write jsonResp
                 calls := st.log }
      else none

end server
/-! ## The record of calls as an invariant -/

namespace server

/-- The invariant of the goroutines that have issued their call: each is listed once, a
goroutine is listed exactly when it has left its starting point, and only the `n`
goroutines move. -/
structure CallsInv {β : Type} (n : Nat) (s : Shared β) : Prop where
  nodup : s.calls.Nodup
  mem_iff : ∀ i, i ∈ s.calls ↔ s.pc i ≠ .idle
  outside_idle : ∀ i, n ≤ i → s.pc i = .idle

end server

/-! ## The error kept by the `errgroup.Group` as an invariant -/

namespace server

/-- The error a goroutine with this plan returns. -/
def Plan.err {β : Type} : Plan β → Option GoError
  | .fail e => some e
  | _ => none

/-- What a goroutine with this plan has done when it ends: the error it returns and what
it has appended, as `FanOut.finish` takes them. -/
def Plan.result {β : Type} (p : Plan β) : Option GoError × List β := (p.err, p.items)

/-- The invariant of the error kept by the `errgroup.Group`: it is the error of the first
of the goroutines that have returned an error, `order` listing these in the order in which
they returned. -/
structure ErrInv {β : Type} (plan : Nat → Plan β) (s : Shared β) : Prop where
  failed : ∃ order : List Nat, order.Nodup ∧
    (∀ i, i ∈ order ↔ (s.pc i = .done ∧ (plan i).err ≠ none)) ∧
    s.err = order.head?.bind (fun i => (plan i).err)

end server

/-! # Theorems -/

namespace codes

/-- Any two different constants of a table differ, in both orientations. -/
theorem Table.ne (T : Table) :
    [T.OK, T.Canceled, T.Unknown, T.InvalidArgument, T.DeadlineExceeded, T.NotFound,
      T.AlreadyExists, T.PermissionDenied, T.ResourceExhausted, T.FailedPrecondition, T.Aborted,
      T.OutOfRange, T.Unimplemented, T.Internal, T.Unavailable, T.DataLoss,
      T.Unauthenticated].Pairwise (fun a b => a ≠ b ∧ b ≠ a) :=
  T.distinct.imp (fun h => ⟨h, fun e => h e.symm⟩)

end codes

namespace util

/-- A conditional whose two branches lie in a list lies in the list. -/
theorem ite_mem_of_mem {α : Type} {c : Prop} [Decidable c] {a b : α} {l : List α}
    (ha : a ∈ l) (hb : b ∈ l) : (if c then a else b) ∈ l := by
  split_ifs <;> assumption

/-- What `GRPCCodeToErrorType` returns at each of the seventeen named codes. -/
theorem GRPCCodeToErrorType_named (T : codes.Table) :
    GRPCCodeToErrorType T T.NotFound = NotFound ∧
    GRPCCodeToErrorType T T.InvalidArgument = InvalidArgument ∧
    GRPCCodeToErrorType T T.AlreadyExists = AlreadyExists ∧
    GRPCCodeToErrorType T T.PermissionDenied = PermissionDenied ∧
    GRPCCodeToErrorType T T.Unauthenticated = Unauthenticated ∧
    GRPCCodeToErrorType T T.Unimplemented = Unimplemented ∧
    GRPCCodeToErrorType T T.Unknown = Unknown ∧
    GRPCCodeToErrorType T T.Internal = Internal ∧
    GRPCCodeToErrorType T T.Unavailable = Unavailable ∧
    GRPCCodeToErrorType T T.FailedPrecondition = FailedPrecondition ∧
    GRPCCodeToErrorType T T.DeadlineExceeded = DeadlineExceeded ∧
    GRPCCodeToErrorType T T.ResourceExhausted = ResourceExhausted ∧
    GRPCCodeToErrorType T T.Aborted = Aborted ∧
    GRPCCodeToErrorType T T.OK = Unknown ∧
    GRPCCodeToErrorType T T.Canceled = Unknown ∧
    GRPCCodeToErrorType T T.OutOfRange = Unknown ∧
    GRPCCodeToErrorType T T.DataLoss = Unknown := by
  have h := T.ne
  simp only [List.pairwise_cons, List.mem_cons, List.mem_singleton, List.not_mem_nil,
    forall_eq_or_imp, forall_eq, ne_eq, List.Pairwise.nil, and_true, false_implies,
    implies_true, IsEmpty.forall_iff] at h
  simp only [GRPCCodeToErrorType, h, if_true, if_false, and_self]

/-- Translating a declared kind to its gRPC code and back gives the kind. -/
theorem GRPCCodeToErrorType_ErrorTypeToGRPCCode (T : codes.Table) (k : ErrorType)
    (hk : k ∈ allKinds) : GRPCCodeToErrorType T (ErrorTypeToGRPCCode T k) = k := by
  obtain ⟨h1, h2, h3, h4, h5, h6, h7, h8, h9, h10, h11, h12, h13, -⟩ :=
    GRPCCodeToErrorType_named T
  simp only [allKinds, List.mem_cons, List.mem_singleton, List.not_mem_nil, or_false] at hk
  rcases hk with rfl | rfl | rfl | rfl | rfl | rfl | rfl | rfl | rfl | rfl | rfl | rfl | rfl
  · exact h1
  · exact h2
  · exact h3
  · exact h4
  · exact h5
  · exact h6
  · exact h7
  · exact h8
  · exact h9
  · exact h10
  · exact h11
  · exact h12
  · exact h13

/-- C6: for each of the 13 error kinds `k`,
`GRPCCodeToErrorType(ErrorTypeToGRPCCode(k)) = k`; hence `ErrorTypeToGRPCCode` is
injective on the enumeration: two declared kinds with the same gRPC code are equal. -/
theorem C6_grpc_round_trip (T : codes.Table) (k k2 : ErrorType)
    (hk : k ∈ allKinds) (hk2 : k2 ∈ allKinds) :
    GRPCCodeToErrorType T (ErrorTypeToGRPCCode T k) = k ∧
    (ErrorTypeToGRPCCode T k = ErrorTypeToGRPCCode T k2 → k = k2) := by
  refine ⟨GRPCCodeToErrorType_ErrorTypeToGRPCCode T k hk, fun e => ?_⟩
  have a := GRPCCodeToErrorType_ErrorTypeToGRPCCode T k hk
  have b := GRPCCodeToErrorType_ErrorTypeToGRPCCode T k2 hk2
  rw [e] at a
  exact a.symm.trans b

/-- The round trip of C6 at the gRPC numbering, for the kinds `Aborted` and `Unknown`. -/
theorem C6_grpc_round_trip_witness :
    Aborted ∈ allKinds ∧ Unknown ∈ allKinds ∧
    GRPCCodeToErrorType codes.grpc (ErrorTypeToGRPCCode codes.grpc Aborted) = Aborted ∧
    (ErrorTypeToGRPCCode codes.grpc Aborted = ErrorTypeToGRPCCode codes.grpc Unknown →
      Aborted = Unknown) :=
  ⟨by decide, by decide, C6_grpc_round_trip codes.grpc Aborted Unknown (by decide) (by decide)⟩

/-- C7: for every error kind whose HTTP code `HTTPCode` is one of the codes that
`StatusCodeToGRPCError` handles explicitly (400, 401, 403, 404, 409, 412, 429, 501, 503),
translating the code back gives the same kind. -/
theorem C7_http_round_trip (v : ServiceError)
    (h : v.HTTPCode ∈ [400, 401, 403, 404, 409, 412, 429, 501, 503]) :
    StatusCodeToGRPCError v.HTTPCode = v.errType := by
  revert h
  unfold ServiceError.HTTPCode
  by_cases h1 : v.errType = NotFound
  · rw [if_pos h1, h1]; decide
  rw [if_neg h1]
  by_cases h2 : v.errType = InvalidArgument
  · rw [if_pos h2, h2]; decide
  rw [if_neg h2]
  by_cases h3 : v.errType = AlreadyExists
  · rw [if_pos h3, h3]; decide
  rw [if_neg h3]
  by_cases h4 : v.errType = PermissionDenied
  · rw [if_pos h4, h4]; decide
  rw [if_neg h4]
  by_cases h5 : v.errType = Unauthenticated
  · rw [if_pos h5, h5]; decide
  rw [if_neg h5]
  by_cases h6 : v.errType = Unimplemented
  · rw [if_pos h6, h6]; decide
  rw [if_neg h6]
  by_cases h7 : v.errType = FailedPrecondition
  · rw [if_pos h7, h7]; decide
  rw [if_neg h7]
  by_cases h8 : v.errType = DeadlineExceeded
  · rw [if_pos h8]; exact fun h => absurd h (by decide)
  rw [if_neg h8]
  by_cases h9 : v.errType = ResourceExhausted
  · rw [if_pos h9, h9]; decide
  rw [if_neg h9]
  by_cases h10 : v.errType = Unavailable
  · rw [if_pos h10, h10]; decide
  rw [if_neg h10]
  by_cases h11 : v.errType = Aborted
  · rw [if_pos h11]; exact fun h => absurd h (by decide)
  rw [if_neg h11]
  exact fun h => absurd h (by decide)

/-- The round trip of C7 at a `NotFound` error, whose HTTP code is 404. -/
theorem C7_http_round_trip_witness :
    (Error NotFound "no such domain").HTTPCode ∈ [400, 401, 403, 404, 409, 412, 429, 501, 503] ∧
    StatusCodeToGRPCError (Error NotFound "no such domain").HTTPCode = NotFound :=
  ⟨by decide, C7_http_round_trip (Error NotFound "no such domain") (by decide)⟩

/-- C8, as stated, fails: it is not the case that exactly two HTTP status codes are shared
by more than one kind (with the representative of each among the kinds sharing it). -/
theorem C8_two_shared_codes_false :
    ¬ (sharedHTTPCodes.length = 2 ∧
       ∀ c ∈ sharedHTTPCodes, StatusCodeToGRPCError c ∈ kindsWithHTTPCode c) := by
  decide

/-- C8, amended: among the HTTP status codes that `HTTPCode` assigns to the 13 error
kinds exactly one, 500, is shared by more than one kind (by `Unknown`, `Internal` and
`Aborted`); every other code belongs to one kind; and `StatusCodeToGRPCError` sends each
shared code to a single kind that is one of the kinds sharing it (500 to `Internal`). -/
theorem C8_one_shared_code :
    sharedHTTPCodes = [500] ∧
    kindsWithHTTPCode 500 = [Unknown, Internal, Aborted] ∧
    StatusCodeToGRPCError 500 = Internal ∧
    (∀ c ∈ sharedHTTPCodes, StatusCodeToGRPCError c ∈ kindsWithHTTPCode c) ∧
    (∀ k ∈ allKinds, httpCodeOfKind k ≠ 500 → kindsWithHTTPCode (httpCodeOfKind k) = [k]) := by
  decide

/-- C9: `StatusCodeToGRPCError` is total: for every integer status code it returns one of
the 13 kinds, and for every integer other than 400, 401, 403, 404, 409, 412, 429, 501 and
503 it returns the fallback kind `Internal`. -/
theorem C9_status_code_total (statusCode : Int) :
    StatusCodeToGRPCError statusCode ∈ allKinds ∧
    (statusCode ∉ [400, 401, 403, 404, 409, 412, 429, 501, 503] →
      StatusCodeToGRPCError statusCode = Internal) := by
  constructor
  · unfold StatusCodeToGRPCError
    split_ifs <;> decide
  · intro h
    simp only [List.mem_cons, List.mem_singleton, List.not_mem_nil, or_false, not_or] at h
    obtain ⟨a1, a2, a3, a4, a5, a6, a7, a8, a9⟩ := h
    simp only [StatusCodeToGRPCError, a1, a2, a3, a4, a5, a6, a7, a8, a9, if_false]

/-- The fallback of C9 at the codes 0, -1, 200 and 500. -/
theorem C9_status_code_total_witness :
    StatusCodeToGRPCError 0 = Internal ∧ StatusCodeToGRPCError (-1) = Internal ∧
    StatusCodeToGRPCError 200 = Internal ∧ StatusCodeToGRPCError 500 = Internal :=
  ⟨(C9_status_code_total 0).2 (by decide), (C9_status_code_total (-1)).2 (by decide),
   (C9_status_code_total 200).2 (by decide), (C9_status_code_total 500).2 (by decide)⟩

/-- C10: `GRPCCodeToErrorType` is total: for every code it returns a kind of the fixed
enumeration, and for every code that is not the code of one of the 13 kinds (so for `OK`,
`Canceled`, `OutOfRange`, `DataLoss` and every value outside the named codes) it returns
`Unknown`. -/
theorem C10_grpc_code_total (T : codes.Table) (statusCode : codes.Code) :
    GRPCCodeToErrorType T statusCode ∈ allKinds ∧
    (statusCode ∉ [T.NotFound, T.InvalidArgument, T.AlreadyExists, T.PermissionDenied,
        T.Unauthenticated, T.Unimplemented, T.Unknown, T.Internal, T.Unavailable,
        T.FailedPrecondition, T.DeadlineExceeded, T.ResourceExhausted, T.Aborted] →
      GRPCCodeToErrorType T statusCode = Unknown) ∧
    GRPCCodeToErrorType T T.OK = Unknown ∧ GRPCCodeToErrorType T T.Canceled = Unknown ∧
    GRPCCodeToErrorType T T.OutOfRange = Unknown ∧ GRPCCodeToErrorType T T.DataLoss = Unknown := by
  refine ⟨?_, ?_, (GRPCCodeToErrorType_named T).2.2.2.2.2.2.2.2.2.2.2.2.2⟩
  · unfold GRPCCodeToErrorType
    repeat first | exact ite_mem_of_mem (by decide) (by decide) | refine ite_mem_of_mem (by decide) ?_
  · intro h
    simp only [List.mem_cons, List.mem_singleton, List.not_mem_nil, or_false, not_or] at h
    obtain ⟨a1, a2, a3, a4, a5, a6, a7, a8, a9, a10, a11, a12, a13⟩ := h
    simp only [GRPCCodeToErrorType, a1, a2, a3, a4, a5, a6, a7, a8, a9, a10, a11, a12, a13,
      if_false]

/-- The fallback of C10 at the gRPC numbering: the codes 0 (`OK`), 1 (`Canceled`),
11 (`OutOfRange`), 15 (`DataLoss`) and the unnamed code 99 give `Unknown`. -/
theorem C10_grpc_code_total_witness :
    GRPCCodeToErrorType codes.grpc 0 = Unknown ∧ GRPCCodeToErrorType codes.grpc 1 = Unknown ∧
    GRPCCodeToErrorType codes.grpc 11 = Unknown ∧ GRPCCodeToErrorType codes.grpc 15 = Unknown ∧
    GRPCCodeToErrorType codes.grpc 99 = Unknown :=
  ⟨(C10_grpc_code_total codes.grpc 0).2.1 (by decide),
   (C10_grpc_code_total codes.grpc 1).2.1 (by decide),
   (C10_grpc_code_total codes.grpc 11).2.1 (by decide),
   (C10_grpc_code_total codes.grpc 15).2.1 (by decide),
   (C10_grpc_code_total codes.grpc 99).2.1 (by decide)⟩

end util

namespace httpService

/-- The validation at the head of `Call` passes exactly when neither string is empty. -/
theorem Call_validation (url method : String) :
    ((validation.NewValidator.Rule
      [validation.StringNotEmpty url util.InvalidArgument "URL must not be empty"]).Rule
      [validation.StringNotEmpty method util.InvalidArgument "Method must not be empty"]).Validate
    = if url = "" then
        some (.service (util.Error util.InvalidArgument "URL must not be empty"))
      else if method = "" then
        some (.service (util.Error util.InvalidArgument "Method must not be empty"))
      else none := by
  by_cases hu : url = "" <;> by_cases hm : method = "" <;>
    simp [validation.Validator.Validate, validation.Validator.Rule, validation.NewValidator,
      validation.validateLoop, validation.StringNotEmpty, hu, hm]

/-- `Call` after a validation that passed and a request that `NewRequest` built, when
`Do` returns a transport error. -/
theorem Call_of_transport_error (L : Lib) (s : Service) (method url : String)
    (body : Option Reader) (authorization contentType : String) (urlParams : List URLParam)
    (req : Request) (e : GoError) (hurl : url ≠ "") (hmethod : method ≠ "")
    (hreq : L.NewRequest (L.ToUpper method) url body = .ok req)
    (hdo : s.httpClient.Do (buildRequest L req authorization contentType urlParams) = .error e) :
    s.Call L method url body authorization contentType urlParams =
      { resp := none
        err := some (.service (util.Error util.Internal "Error during http call"))
        sent := [buildRequest L req authorization contentType urlParams] } := by
  unfold Service.Call
  rw [Call_validation, if_neg hurl, if_neg hmethod]
  simp only [hreq, hdo]

/-- `Call` after a validation that passed and a request that `NewRequest` built, when
`Do` returns a response: the status code decides. -/
theorem Call_of_response (L : Lib) (s : Service) (method url : String)
    (body : Option Reader) (authorization contentType : String) (urlParams : List URLParam)
    (req : Request) (resp : Response) (hurl : url ≠ "") (hmethod : method ≠ "")
    (hreq : L.NewRequest (L.ToUpper method) url body = .ok req)
    (hdo : s.httpClient.Do (buildRequest L req authorization contentType urlParams) = .ok resp) :
    s.Call L method url body authorization contentType urlParams =
      if resp.StatusCode > 299 then
        { resp := none, err := some (parseError L resp),
          sent := [buildRequest L req authorization contentType urlParams] }
      else
        { resp := some resp, err := none,
          sent := [buildRequest L req authorization contentType urlParams] } := by
  unfold Service.Call
  rw [Call_validation, if_neg hurl, if_neg hmethod]
  simp only [hreq, hdo]

/-- `parseError` on a response whose body is absent or read without error. -/
theorem parseError_of_readable (L : Lib) (r : Response)
    (hbody : ∀ rb, r.Body = some rb → rb.err = none) :
    parseError L r = .httpError
      { StatusCode := r.StatusCode
        Body := L.StatusText r.StatusCode ++ ": " ++
          (match r.Body with
           | none => ""
           | some rb => rb.data) } := by
  unfold parseError
  cases hb : r.Body with
  | none => rfl
  | some rb =>
    have := hbody rb hb
    simp [ReadAll, this]

/-- C1: for every call of `Call` in which `url` is the empty string or `method` is the
empty string, whatever the other arguments, `Call` returns no response and an error of
kind `InvalidArgument`, and `Do` of the HTTP client is invoked zero times. -/
theorem C1_empty_url_or_method (L : Lib) (s : Service) (method url : String)
    (body : Option Reader) (authorization contentType : String) (urlParams : List URLParam)
    (h : url = "" ∨ method = "") :
    (s.Call L method url body authorization contentType urlParams).resp = none ∧
    (∃ e : util.ServiceError,
      (s.Call L method url body authorization contentType urlParams).err = some (.service e) ∧
      e.ErrorType = util.InvalidArgument) ∧
    (s.Call L method url body authorization contentType urlParams).sent = [] := by
  unfold Service.Call
  rw [Call_validation]
  by_cases hu : url = ""
  · rw [if_pos hu]
    exact ⟨rfl, ⟨_, rfl, rfl⟩, rfl⟩
  · have hm : method = "" := h.resolve_left hu
    rw [if_neg hu, if_pos hm]
    exact ⟨rfl, ⟨_, rfl, rfl⟩, rfl⟩

/-- C1 at an empty URL with a client that would answer 200: nothing is sent. -/
theorem C1_empty_url_or_method_witness :
    ((answering okResponse).Call
        exampleLib "GET" "" none "" "" []).resp = none ∧
    (∃ e : util.ServiceError,
      ((answering okResponse).Call
        exampleLib "GET" "" none "" "" []).err = some (.service e) ∧
      e.ErrorType = util.InvalidArgument) ∧
    ((answering okResponse).Call
        exampleLib "GET" "" none "" "" []).sent = [] :=
  C1_empty_url_or_method exampleLib _ "GET" "" none "" "" [] (Or.inl rfl)

/-- C2: for every call of `Call` with non-empty `url` and `method` whose HTTP round trip
yields a response with status code `s`, `200 <= s < 300`, `Call` returns exactly that
response (same status, headers and unread body) and a nil error. -/
theorem C2_success_returns_response (L : Lib) (s : Service) (method url : String)
    (body : Option Reader) (authorization contentType : String) (urlParams : List URLParam)
    (req : Request) (resp : Response)
    (hurl : url ≠ "") (hmethod : method ≠ "")
    (hreq : L.NewRequest (L.ToUpper method) url body = .ok req)
    (hdo : s.httpClient.Do (buildRequest L req authorization contentType urlParams) = .ok resp)
    (hs : 200 ≤ resp.StatusCode ∧ resp.StatusCode < 300) :
    (s.Call L method url body authorization contentType urlParams).resp = some resp ∧
    (s.Call L method url body authorization contentType urlParams).err = none := by
  rw [Call_of_response L s method url body authorization contentType urlParams req resp hurl
    hmethod hreq hdo, if_neg (by omega)]
  exact ⟨rfl, rfl⟩

/-- C2 at a 204 response carrying a header and an unread body. -/
theorem C2_success_returns_response_witness :
    ((answering noContentResponse).Call
      exampleLib "get" "https://api.example/v1" none "sso-key k" ""
      [{ Key := "domain", Value := "foo.com" }]).resp
      = some noContentResponse ∧
    ((answering noContentResponse).Call
      exampleLib "get" "https://api.example/v1" none "sso-key k" ""
      [{ Key := "domain", Value := "foo.com" }]).err = none :=
  C2_success_returns_response exampleLib _ "get" "https://api.example/v1" none "sso-key k" ""
    [{ Key := "domain", Value := "foo.com" }] exampleRequest noContentResponse (by decide)
    (by decide) rfl rfl (by decide)

/-- C3: for every call of `Call` whose HTTP round trip yields a response with status code
`s >= 300` and a fully readable body `b`, `Call` returns no response and an error whose
message equals `StatusText(s)` followed by `": "` followed by `b`, and whose carried
`StatusCode` equals `s`. -/
theorem C3_error_message_and_code (L : Lib) (s : Service) (method url : String)
    (body : Option Reader) (authorization contentType : String) (urlParams : List URLParam)
    (req : Request) (resp : Response) (rb : Reader)
    (hurl : url ≠ "") (hmethod : method ≠ "")
    (hreq : L.NewRequest (L.ToUpper method) url body = .ok req)
    (hdo : s.httpClient.Do (buildRequest L req authorization contentType urlParams) = .ok resp)
    (hs : 300 ≤ resp.StatusCode) (hbody : resp.Body = some rb) (hread : rb.err = none) :
    (s.Call L method url body authorization contentType urlParams).resp = none ∧
    ∃ e : Error,
      (s.Call L method url body authorization contentType urlParams).err = some (.httpError e) ∧
      Error.Error (some e) = L.StatusText resp.StatusCode ++ ": " ++ rb.data ∧
      e.StatusCode = resp.StatusCode := by
  rw [Call_of_response L s method url body authorization contentType urlParams req resp hurl
    hmethod hreq hdo, if_pos (by omega), parseError_of_readable L resp
    (fun rb2 h2 => by rw [hbody] at h2; cases h2; exact hread)]
  refine ⟨rfl, _, rfl, ?_, rfl⟩
  simp [Error.Error, hbody]

/-- C3 at a 404 response with body `missing`: the message is `Not Found: missing`. -/
theorem C3_error_message_and_code_witness :
    ((answering notFoundResponse).Call
      exampleLib "get" "https://api.example/v1" none "sso-key k" ""
      [{ Key := "domain", Value := "foo.com" }]).resp = none ∧
    ∃ e : Error,
      ((answering notFoundResponse).Call
        exampleLib "get" "https://api.example/v1" none "sso-key k" ""
        [{ Key := "domain", Value := "foo.com" }]).err = some (.httpError e) ∧
      Error.Error (some e) = exampleLib.StatusText 404 ++ ": " ++ "missing" ∧
      e.StatusCode = 404 :=
  C3_error_message_and_code exampleLib _ "get" "https://api.example/v1" none "sso-key k" ""
    [{ Key := "domain", Value := "foo.com" }] exampleRequest notFoundResponse
    { data := "missing", err := none } (by decide) (by decide) rfl rfl (by decide) rfl rfl

/-- C4, as stated, fails: for a 404 response `Call` returns a `*Error`, which is not a
`ServiceError` of the kind `StatusCodeToGRPCError(404) = NotFound`, and `util.IsError`
does not report that kind for it. -/
theorem C4_not_classified :
    ((answering notFoundResponse).Call
      exampleLib "get" "https://api.example/v1" none "sso-key k" ""
      [{ Key := "domain", Value := "foo.com" }]).err
      = some (.httpError { Body := "Not Found: missing", StatusCode := 404 }) ∧
    util.StatusCodeToGRPCError 404 = util.NotFound ∧
    (¬ ∃ e : util.ServiceError,
      ((answering notFoundResponse).Call
        exampleLib "get" "https://api.example/v1" none "sso-key k" ""
        [{ Key := "domain", Value := "foo.com" }]).err = some (.service e) ∧
      e.ErrorType = util.StatusCodeToGRPCError 404) ∧
    util.IsError codes.grpc (util.StatusCodeToGRPCError 404)
      (.httpError { Body := "Not Found: missing", StatusCode := 404 }) = false := by
  refine ⟨by decide, by decide, ?_, by decide⟩
  rintro ⟨e, he, -⟩
  have h : ((answering notFoundResponse).Call
      exampleLib "get" "https://api.example/v1" none "sso-key k" ""
      [{ Key := "domain", Value := "foo.com" }]).err
      = some (.httpError { Body := "Not Found: missing", StatusCode := 404 }) := by decide
  rw [h] at he
  cases he

/-- C4, amended: for every response with status code `s >= 300` whose body is absent or
fully readable, the error that `Call` returns is a `*Error` carrying the status code `s`;
it is not a `ServiceError`, `util.IsError` reports no kind for it, and
`StatusCodeToGRPCError` is not applied to `s`. -/
theorem C4_error_is_unclassified (L : Lib) (s : Service) (method url : String)
    (body : Option Reader) (authorization contentType : String) (urlParams : List URLParam)
    (req : Request) (resp : Response)
    (hurl : url ≠ "") (hmethod : method ≠ "")
    (hreq : L.NewRequest (L.ToUpper method) url body = .ok req)
    (hdo : s.httpClient.Do (buildRequest L req authorization contentType urlParams) = .ok resp)
    (hs : 300 ≤ resp.StatusCode) (hbody : ∀ rb, resp.Body = some rb → rb.err = none) :
    ∃ e : Error,
      (s.Call L method url body authorization contentType urlParams).err = some (.httpError e) ∧
      e.StatusCode = resp.StatusCode ∧
      (∀ se : util.ServiceError,
        (s.Call L method url body authorization contentType urlParams).err
          ≠ some (.service se)) ∧
      ∀ (T : codes.Table) (k : util.ErrorType), util.IsError T k (.httpError e) = false := by
  rw [Call_of_response L s method url body authorization contentType urlParams req resp hurl
    hmethod hreq hdo, if_pos (by omega), parseError_of_readable L resp hbody]
  exact ⟨_, rfl, rfl, fun se h => (by cases h), fun T k => rfl⟩

/-- C4, amended, at a 503 response without a body. -/
theorem C4_error_is_unclassified_witness :
    ∃ e : Error,
      ((answering unavailableResponse).Call
        exampleLib "get" "https://api.example/v1" none "sso-key k" ""
        [{ Key := "domain", Value := "foo.com" }]).err = some (.httpError e) ∧
      e.StatusCode = 503 ∧
      (∀ se : util.ServiceError,
        ((answering unavailableResponse).Call
          exampleLib "get" "https://api.example/v1" none "sso-key k" ""
          [{ Key := "domain", Value := "foo.com" }]).err ≠ some (.service se)) ∧
      ∀ (T : codes.Table) (k : util.ErrorType), util.IsError T k (.httpError e) = false :=
  C4_error_is_unclassified exampleLib _ "get" "https://api.example/v1" none "sso-key k" ""
    [{ Key := "domain", Value := "foo.com" }] exampleRequest unavailableResponse
    (by decide) (by decide) rfl rfl (by decide) (fun _ h => by cases h)

/-- C5: for every call of `Call` with non-empty `url` and `method` in which `Do` of the
HTTP client returns a transport error, `Call` returns no response and an error of kind
`Internal`. -/
theorem C5_transport_error_internal (L : Lib) (s : Service) (method url : String)
    (body : Option Reader) (authorization contentType : String) (urlParams : List URLParam)
    (req : Request) (e : GoError)
    (hurl : url ≠ "") (hmethod : method ≠ "")
    (hreq : L.NewRequest (L.ToUpper method) url body = .ok req)
    (hdo : s.httpClient.Do (buildRequest L req authorization contentType urlParams) = .error e) :
    (s.Call L method url body authorization contentType urlParams).resp = none ∧
    ∃ se : util.ServiceError,
      (s.Call L method url body authorization contentType urlParams).err = some (.service se) ∧
      se.ErrorType = util.Internal := by
  rw [Call_of_transport_error L s method url body authorization contentType urlParams req e
    hurl hmethod hreq hdo]
  exact ⟨rfl, _, rfl, rfl⟩

/-- C5 at a client that refuses every connection. -/
theorem C5_transport_error_internal_witness :
    (unreachable.Call exampleLib "get" "https://api.example/v1" none "sso-key k" ""
      [{ Key := "domain", Value := "foo.com" }]).resp = none ∧
    ∃ se : util.ServiceError,
      (unreachable.Call exampleLib "get" "https://api.example/v1" none "sso-key k" ""
        [{ Key := "domain", Value := "foo.com" }]).err = some (.service se) ∧
      se.ErrorType = util.Internal :=
  C5_transport_error_internal exampleLib unreachable "get" "https://api.example/v1" none
    "sso-key k" "" [{ Key := "domain", Value := "foo.com" }] exampleRequest
    (.other "dial tcp: connection refused") (by decide) (by decide) rfl rfl

end httpService

namespace server

/-- Folding `finish` from any state appends what each goroutine appended, in order. -/
theorem FanOut.foldl_collected {β : Type} (l : List (Option GoError × List β))
    (st : FanOut β) :
    (l.foldl FanOut.finish st).collected = st.collected ++ l.flatMap (fun res => res.2) := by
  induction l generalizing st with
  | nil => simp
  | cons x xs ih =>
    rw [List.foldl_cons, ih, List.flatMap_cons]
    simp [FanOut.finish, List.append_assoc]

/-- An error once kept is kept to the end. -/
theorem FanOut.foldl_err_of_some {β : Type} (l : List (Option GoError × List β))
    (st : FanOut β) (e : GoError) (h : st.err = some e) :
    (l.foldl FanOut.finish st).err = some e := by
  induction l generalizing st with
  | nil => simpa using h
  | cons x xs ih =>
    rw [List.foldl_cons]
    apply ih
    simp [FanOut.finish, h]

/-- When no goroutine returns an error, none is kept. -/
theorem FanOut.foldl_err_of_none {β : Type} (l : List (Option GoError × List β))
    (st : FanOut β) (h : st.err = none) (hl : ∀ res ∈ l, res.1 = none) :
    (l.foldl FanOut.finish st).err = none := by
  induction l generalizing st with
  | nil => simpa using h
  | cons x xs ih =>
    rw [List.foldl_cons]
    apply ih
    · simp [FanOut.finish, h, hl x (List.mem_cons_self _ _)]
    · exact fun res hres => hl res (List.mem_cons_of_mem _ hres)

/-- When some goroutine returns an error, an error is kept. -/
theorem FanOut.foldl_err_of_mem {β : Type} (l : List (Option GoError × List β))
    (st : FanOut β) (res : Option GoError × List β) (hres : res ∈ l) (e : GoError)
    (he : res.1 = some e) :
    ∃ e2, (l.foldl FanOut.finish st).err = some e2 := by
  induction l generalizing st with
  | nil => cases hres
  | cons x xs ih =>
    rw [List.foldl_cons]
    rcases List.mem_cons.mp hres with hx | hx
    · subst hx
      cases hst : st.err with
      | some e0 =>
        exact ⟨e0, FanOut.foldl_err_of_some xs _ e0 (by simp [FanOut.finish, hst])⟩
      | none =>
        exact ⟨e, FanOut.foldl_err_of_some xs _ e (by simp [FanOut.finish, hst, he])⟩
    · exact ih _ hx

/-- What `wait` collects. -/
theorem FanOut.wait_collected {β : Type} (l : List (Option GoError × List β)) :
    (FanOut.wait l).collected = l.flatMap (fun res => res.2) := by
  unfold FanOut.wait
  rw [FanOut.foldl_collected]
  rfl

/-- `wait` returns nil when every goroutine returned nil. -/
theorem FanOut.wait_err_none {β : Type} (l : List (Option GoError × List β))
    (hl : ∀ res ∈ l, res.1 = none) : (FanOut.wait l).err = none :=
  FanOut.foldl_err_of_none l _ rfl hl

/-- `wait` returns an error when some goroutine returned one. -/
theorem FanOut.wait_err_some {β : Type} (l : List (Option GoError × List β))
    (res : Option GoError × List β) (hres : res ∈ l) (e : GoError) (he : res.1 = some e) :
    ∃ e2, (FanOut.wait l).err = some e2 :=
  FanOut.foldl_err_of_mem l _ res hres e he

/-- After `http.Error` on a fresh writer the status is the given code and the body is the
message and a newline. -/
theorem Error_fresh (msg : String) (code : Int) :
    (http.Error http.ResponseWriter.fresh msg code).status = some code ∧
    (http.Error http.ResponseWriter.fresh msg code).body = msg ++ "\n" := by
  simp [http.Error, http.ResponseWriter.fresh, http.ResponseWriter.HeaderSet,
    http.ResponseWriter.WriteHeader, http.ResponseWriter.Write]

/-- The successful end of a handler on a fresh writer: status 200 and the JSON as body. -/
theorem write_json_fresh (jsonResp : String) :
    (((http.ResponseWriter.fresh.HeaderSet "Content-Type" "application/json").WriteHeader
      http.StatusOK).Write jsonResp).status = some 200 ∧
    (((http.ResponseWriter.fresh.HeaderSet "Content-Type" "application/json").WriteHeader
      http.StatusOK).Write jsonResp).body = jsonResp := by
  simp [http.ResponseWriter.fresh, http.ResponseWriter.HeaderSet,
    http.ResponseWriter.WriteHeader, http.ResponseWriter.Write, http.StatusOK]

end server

namespace server

/-- The error a `/list-dns` goroutine returns is the error of its `GetDNSRecords`. -/
theorem listDNSTask_err (godaddyService : godaddy.Interface) (domain DNSType : String) :
    (listDNSTask godaddyService domain DNSType).1
      = (godaddyService.GetDNSRecords domain DNSType).2 := by
  cases h : (godaddyService.GetDNSRecords domain DNSType).2 <;> simp [listDNSTask, h]

/-- A `/list-dns` goroutine whose `GetDNSRecords` succeeded appends the records. -/
theorem listDNSTask_records (godaddyService : godaddy.Interface) (domain DNSType : String)
    (h : (godaddyService.GetDNSRecords domain DNSType).2 = none) :
    (listDNSTask godaddyService domain DNSType).2
      = (godaddyService.GetDNSRecords domain DNSType).1 := by
  simp [listDNSTask, h]

/-- The error a `/domain-suggest` goroutine returns is the error of its availability
check. -/
theorem domainSuggestTask_err (godaddyService : godaddy.Interface) (domain : String) :
    (domainSuggestTask godaddyService domain).1
      = (godaddyService.GetDomainAvailabilityAndPrice domain).2.2 := by
  cases h : (godaddyService.GetDomainAvailabilityAndPrice domain).2.2 with
  | some e => simp [domainSuggestTask, h]
  | none =>
    by_cases ha : (godaddyService.GetDomainAvailabilityAndPrice domain).1 = true <;>
      simp [domainSuggestTask, h, ha]

/-- What the goroutines of `/domain-suggest` append, over a list of candidates whose
availability checks all succeed: one pair for each candidate reported available. -/
theorem domainSuggestTask_collect (godaddyService : godaddy.Interface) (S : List String)
    (hall : ∀ d ∈ S, (godaddyService.GetDomainAvailabilityAndPrice d).2.2 = none) :
    S.flatMap (fun d => (domainSuggestTask godaddyService d).2)
      = (S.filter (fun d => (godaddyService.GetDomainAvailabilityAndPrice d).1)).map
          (fun d => { Domain := d, Price := (godaddyService.GetDomainAvailabilityAndPrice d).2.1 }) := by
  induction S with
  | nil => rfl
  | cons d ds ih =>
    have hd := hall d (List.mem_cons_self _ _)
    have ih2 := ih (fun x hx => hall x (List.mem_cons_of_mem _ hx))
    rw [List.flatMap_cons, ih2]
    by_cases ha : (godaddyService.GetDomainAvailabilityAndPrice d).1 = true
    · simp [domainSuggestTask, hd, ha, List.filter_cons]
    · simp [domainSuggestTask, hd, ha, List.filter_cons]

/-- What the goroutines of `/list-dns` append, over record types whose listings all
succeed: the returned lists, one after the other. -/
theorem listDNSTask_collect (godaddyService : godaddy.Interface) (domain : String)
    (l : List String) (hall : ∀ t ∈ l, (godaddyService.GetDNSRecords domain t).2 = none) :
    l.flatMap (fun t => (listDNSTask godaddyService domain t).2)
      = l.flatMap (fun t => (godaddyService.GetDNSRecords domain t).1) := by
  induction l with
  | nil => rfl
  | cons t ts ih =>
    rw [List.flatMap_cons, List.flatMap_cons, ih (fun x hx => hall x (List.mem_cons_of_mem _ hx)),
      listDNSTask_records _ _ _ (hall t (List.mem_cons_self _ _))]

/-- C11 (the code departs from the claim): with candidates `a.com` and `b.com`, of which
`a.com` is available at 500 and the check of `b.com` fails, the `/domain-suggest` handler
answers 500 but, after the error text, also writes the listing of `a.com` to the body. -/
theorem C11_listing_written_after_error :
    (failingAdapter.GetDomainSuggestions "foo").1 = ["a.com", "b.com"] ∧
    (failingAdapter.GetDomainAvailabilityAndPrice "b.com").2.2 = some upstreamError ∧
    (domainSuggest exampleJSON failingAdapter inOrder fooRequest).w.status = some 500 ∧
    exampleJSON.MarshalSuggestions [{ Domain := "a.com", Price := 500 }] = .ok "[a.com=500]" ∧
    (domainSuggest exampleJSON failingAdapter inOrder fooRequest).w.body
      = "Internal Server Error\n" ++ "[a.com=500]" ∧
    (domainSuggest exampleJSON failingAdapter lastFirst fooRequest).w.body
      = "Internal Server Error\n" ++ "[a.com=500]" :=
  ⟨by decide, by decide, by decide, rfl, by decide, by decide⟩

/-- C12: for every `/list-dns` request with a decodable body, if `GetDNSRecords` returns
an error for at least one of the 8 record types, the response has status 500 and its body
is the error text alone (no records are written), whatever the other calls return and in
whatever order the sub-tasks complete. -/
theorem C12_list_dns_error_500 (J : Lib) (godaddyService : godaddy.Interface)
    (sched : Schedule) (r : Request) (req : domainRequest) (t : String) (e : GoError)
    (hdec : J.DecodeDomain r.Body = .ok req)
    (hfin : (sched.finished godaddy.DNSTypes).Perm godaddy.DNSTypes)
    (ht : t ∈ godaddy.DNSTypes)
    (herr : (godaddyService.GetDNSRecords req.Domain t).2 = some e) :
    (listDNS J godaddyService sched r).w.status = some 500 ∧
    (listDNS J godaddyService sched r).w.body = "Internal Server Error\n" := by
  have hmem : t ∈ sched.finished godaddy.DNSTypes := hfin.mem_iff.mpr ht
  obtain ⟨e2, he2⟩ := FanOut.wait_err_some
    ((sched.finished godaddy.DNSTypes).map (listDNSTask godaddyService req.Domain))
    (listDNSTask godaddyService req.Domain t) (List.mem_map_of_mem _ hmem) e
    (by rw [listDNSTask_err, herr])
  unfold listDNS
  simp only [hdec, he2]
  exact Error_fresh _ _

/-- C12 at the adapter whose `MX` listing fails, the sub-tasks ending in reverse order. -/
theorem C12_list_dns_error_500_witness :
    (listDNS exampleJSON failingAdapter lastFirst fooRequest).w.status = some 500 ∧
    (listDNS exampleJSON failingAdapter lastFirst fooRequest).w.body
      = "Internal Server Error\n" :=
  C12_list_dns_error_500 exampleJSON failingAdapter lastFirst fooRequest { Domain := "foo" }
    "MX" upstreamError rfl (by decide) (by decide) rfl

/-- C13: for every `/domain-suggest` request with a decodable body for which the
suggestion lookup returns the candidates `S` and every availability check succeeds, the
response has status 200 and its body is the JSON of a `Suggestion` list that is, up to
order, exactly the pairs `(d, price d)` of the candidates `d` of `S` reported available
(`json.Marshal` does not fail on this type of value). -/
theorem C13_domain_suggest_success (J : Lib) (godaddyService : godaddy.Interface)
    (sched : Schedule) (r : Request) (req : domainRequest) (S : List String)
    (hdec : J.DecodeDomain r.Body = .ok req)
    (hsug : godaddyService.GetDomainSuggestions req.Domain = (S, none))
    (hfin : (sched.finished S).Perm S)
    (hall : ∀ d ∈ S, (godaddyService.GetDomainAvailabilityAndPrice d).2.2 = none)
    (hM : ∀ p, ∃ b, J.MarshalSuggestions p = .ok b) :
    (domainSuggest J godaddyService sched r).w.status = some 200 ∧
    ∃ p : List suggestion,
      p.Perm ((S.filter (fun d => (godaddyService.GetDomainAvailabilityAndPrice d).1)).map
        (fun d =>
          { Domain := d, Price := (godaddyService.GetDomainAvailabilityAndPrice d).2.1 })) ∧
      J.MarshalSuggestions p = .ok (domainSuggest J godaddyService sched r).w.body := by
  have herr : (FanOut.wait ((sched.finished S).map (domainSuggestTask godaddyService))).err
      = none := by
    apply FanOut.wait_err_none
    intro res hres
    obtain ⟨d, hd, rfl⟩ := List.mem_map.mp hres
    rw [domainSuggestTask_err]
    exact hall d (hfin.mem_iff.mp hd)
  have hcol : (FanOut.wait ((sched.finished S).map (domainSuggestTask godaddyService))).collected
      = (sched.finished S).flatMap (fun d => (domainSuggestTask godaddyService d).2) := by
    rw [FanOut.wait_collected, List.flatMap_map]
  obtain ⟨b, hb⟩ := hM
    (FanOut.wait ((sched.finished S).map (domainSuggestTask godaddyService))).collected
  have hres1 : (godaddyService.GetDomainSuggestions req.Domain).1 = S := by rw [hsug]
  have hres2 : (godaddyService.GetDomainSuggestions req.Domain).2 = none := by rw [hsug]
  unfold domainSuggest
  simp only [hdec, hres1, hres2, herr, hb]
  refine ⟨(write_json_fresh b).1,
    (FanOut.wait ((sched.finished S).map (domainSuggestTask godaddyService))).collected, ?_, ?_⟩
  · rw [hcol]
    exact (List.Perm.flatMap_right _ hfin).trans
      (by rw [domainSuggestTask_collect godaddyService S hall])
  · rw [(write_json_fresh b).2]
    exact hb

/-- C13 at the adapter with three candidates of which two are available, the sub-tasks
ending in reverse order. -/
theorem C13_domain_suggest_success_witness :
    (domainSuggest exampleJSON workingAdapter lastFirst fooRequest).w.status = some 200 ∧
    ∃ p : List suggestion,
      p.Perm ((["a.com", "b.com", "c.com"].filter
          (fun d => (workingAdapter.GetDomainAvailabilityAndPrice d).1)).map
        (fun d =>
          { Domain := d, Price := (workingAdapter.GetDomainAvailabilityAndPrice d).2.1 })) ∧
      exampleJSON.MarshalSuggestions p
        = .ok (domainSuggest exampleJSON workingAdapter lastFirst fooRequest).w.body :=
  C13_domain_suggest_success exampleJSON workingAdapter lastFirst fooRequest { Domain := "foo" }
    ["a.com", "b.com", "c.com"] rfl rfl (List.reverse_perm _) (by decide)
    (fun p => ⟨_, rfl⟩)

end server

namespace server

/-- C14: for every `/list-dns` request with a decodable body for which all 8
`GetDNSRecords` calls succeed, the response has status 200 and its body is the JSON of a
`records` list that is, up to order, the 8 returned record lists put together (no record
omitted, none duplicated), for every completion order of the sub-tasks (`json.Marshal`
does not fail on this type of value). -/
theorem C14_list_dns_success (J : Lib) (godaddyService : godaddy.Interface)
    (sched : Schedule) (r : Request) (req : domainRequest)
    (hdec : J.DecodeDomain r.Body = .ok req)
    (hfin : (sched.finished godaddy.DNSTypes).Perm godaddy.DNSTypes)
    (hall : ∀ t ∈ godaddy.DNSTypes, (godaddyService.GetDNSRecords req.Domain t).2 = none)
    (hM : ∀ p, ∃ b, J.MarshalRecords p = .ok b) :
    (listDNS J godaddyService sched r).w.status = some 200 ∧
    ∃ p : List godaddy.DNSRecord,
      p.Perm (godaddy.DNSTypes.flatMap
        (fun t => (godaddyService.GetDNSRecords req.Domain t).1)) ∧
      J.MarshalRecords p = .ok (listDNS J godaddyService sched r).w.body := by
  have herr : (FanOut.wait ((sched.finished godaddy.DNSTypes).map
      (listDNSTask godaddyService req.Domain))).err = none := by
    apply FanOut.wait_err_none
    intro res hres
    obtain ⟨t, ht, rfl⟩ := List.mem_map.mp hres
    rw [listDNSTask_err]
    exact hall t (hfin.mem_iff.mp ht)
  have hcol : (FanOut.wait ((sched.finished godaddy.DNSTypes).map
      (listDNSTask godaddyService req.Domain))).collected
      = (sched.finished godaddy.DNSTypes).flatMap
          (fun t => (listDNSTask godaddyService req.Domain t).2) := by
    rw [FanOut.wait_collected, List.flatMap_map]
  obtain ⟨b, hb⟩ := hM (FanOut.wait ((sched.finished godaddy.DNSTypes).map
      (listDNSTask godaddyService req.Domain))).collected
  unfold listDNS
  simp only [hdec, herr, hb]
  refine ⟨(write_json_fresh b).1,
    (FanOut.wait ((sched.finished godaddy.DNSTypes).map
      (listDNSTask godaddyService req.Domain))).collected, ?_, ?_⟩
  · rw [hcol]
    exact (List.Perm.flatMap_right _ hfin).trans
      (by rw [listDNSTask_collect godaddyService req.Domain godaddy.DNSTypes hall])
  · rw [(write_json_fresh b).2]
    exact hb

/-- C14 at the adapter that returns one `TXT` record and seven empty lists, the sub-tasks
ending in reverse order. -/
theorem C14_list_dns_success_witness :
    (listDNS exampleJSON workingAdapter lastFirst fooRequest).w.status = some 200 ∧
    ∃ p : List godaddy.DNSRecord,
      p.Perm (godaddy.DNSTypes.flatMap (fun t => (workingAdapter.GetDNSRecords "foo" t).1)) ∧
      exampleJSON.MarshalRecords p
        = .ok (listDNS exampleJSON workingAdapter lastFirst fooRequest).w.body :=
  C14_list_dns_success exampleJSON workingAdapter lastFirst fooRequest { Domain := "foo" }
    rfl (List.reverse_perm _) (by decide) (fun p => ⟨_, rfl⟩)

/-- C16: on each of the routes `/domain-suggest`, `/list-dns` and `/put-dns`, a request
whose body cannot be decoded is answered with status 400 and no operation of
`godaddyService` is invoked. -/
theorem C16_undecodable_400 (J : Lib) (godaddyService : godaddy.Interface)
    (sched : Schedule) (r : Request) :
    (∀ e, J.DecodeDomain r.Body = .error e →
      (domainSuggest J godaddyService sched r).w.status = some 400 ∧
      (domainSuggest J godaddyService sched r).calls = [] ∧
      (listDNS J godaddyService sched r).w.status = some 400 ∧
      (listDNS J godaddyService sched r).calls = []) ∧
    (∀ e, J.DecodePutDNS r.Body = .error e →
      (putDNS J godaddyService r).w.status = some 400 ∧
      (putDNS J godaddyService r).calls = []) := by
  constructor
  · intro e he
    have h1 : domainSuggest J godaddyService sched r
        = { w := http.Error http.ResponseWriter.fresh
              "Error processing request, expected \x7bdomain: string\x7d" http.StatusBadRequest
            calls := [] } := by
      unfold domainSuggest
      simp only [he]
    have h2 : listDNS J godaddyService sched r
        = { w := http.Error http.ResponseWriter.fresh
              "Error processing request, expected \x7bdomain: string\x7d" http.StatusBadRequest
            calls := [] } := by
      unfold listDNS
      simp only [he]
    rw [h1, h2]
    exact ⟨(Error_fresh _ _).1, rfl, (Error_fresh _ _).1, rfl⟩
  · intro e he
    have h3 : putDNS J godaddyService r
        = { w := http.Error http.ResponseWriter.fresh
              "Error processing request, expected \x7bdomain: string\x7d" http.StatusBadRequest
            calls := [] } := by
      unfold putDNS
      simp only [he]
    rw [h3]
    exact ⟨(Error_fresh _ _).1, rfl⟩

/-- C16 at a request with an empty body, which the example decoders reject. -/
theorem C16_undecodable_400_witness :
    ((domainSuggest exampleJSON workingAdapter inOrder emptyRequest).w.status = some 400 ∧
      (domainSuggest exampleJSON workingAdapter inOrder emptyRequest).calls = [] ∧
      (listDNS exampleJSON workingAdapter inOrder emptyRequest).w.status = some 400 ∧
      (listDNS exampleJSON workingAdapter inOrder emptyRequest).calls = []) ∧
    ((putDNS exampleJSON workingAdapter emptyRequest).w.status = some 400 ∧
      (putDNS exampleJSON workingAdapter emptyRequest).calls = []) :=
  ⟨(C16_undecodable_400 exampleJSON workingAdapter inOrder emptyRequest).1 (.other "EOF") rfl,
   (C16_undecodable_400 exampleJSON workingAdapter inOrder emptyRequest).2 (.other "EOF") rfl⟩

/-- C17 (the code departs from the claim): when `GetDomainAvailabilityAndPrice` returns an
error, the `/domain-availability` handler drops it and answers 200 with the JSON of
`available = false, price = 0`. -/
theorem C17_domain_availability_ignores_error :
    (failingAdapter.GetDomainAvailabilityAndPrice "slacknotification.biz").2.2
      = some upstreamError ∧
    (domainAvailability exampleJSON failingAdapter).calls
      = [.GetDomainAvailabilityAndPrice "slacknotification.biz"] ∧
    (domainAvailability exampleJSON failingAdapter).w.status = some 200 ∧
    (domainAvailability exampleJSON failingAdapter).w.body = "false,0" := by
  decide

end server

namespace godaddy

/-- C18 (the code departs from the claim): when the Transport Client answers 404,
`PutDNSRecord` returns the `*Error` of `internal/http` that `Call` returned, which is not a
`ServiceError`, while `PurchaseDomain` on the same client returns a `ServiceError` of kind
`Internal`. -/
theorem C18_put_dns_record_raw_error :
    (Service.PutDNSRecord exampleEncoder notFoundService "example.com"
        server.exampleRecord).err
      = some (.httpError { Body := "Not Found: missing", StatusCode := 404 }) ∧
    (∀ se : util.ServiceError,
      (Service.PutDNSRecord exampleEncoder notFoundService "example.com"
        server.exampleRecord).err ≠ some (.service se)) ∧
    (Service.PurchaseDomain exampleEncoder notFoundService "example.com"
        server.purchaseContact server.purchaseConsent).err
      = some (.service (util.Error util.Internal "Error purchasing domain")) := by
  have h : (Service.PutDNSRecord exampleEncoder notFoundService "example.com"
        server.exampleRecord).err
      = some (.httpError { Body := "Not Found: missing", StatusCode := 404 }) := by decide
  refine ⟨h, fun se hse => ?_, by decide⟩
  rw [h] at hse
  cases hse

/-- C19: `PurchaseDomain` and `PutDNSRecord` each make exactly one call of the Transport
Client (a POST to the purchase URL, respectively a PUT to the records URL built from the
domain, the record type and the record name), and each returns an error if and only if that
call returns an error. -/
theorem C19_one_call_each (E : Encoder) (s : Service) (domain : String) (contact : Contact)
    (consent : Consent) (record : DNSRecord) :
    (∃ args : httpService.CallArgs,
      (s.PurchaseDomain E domain contact consent).calls = [args] ∧
      args.method = "POST" ∧
      args.url = "https://api.ote-godaddy.com/v1/domains/purchase" ∧
      ((s.PurchaseDomain E domain contact consent).err ≠ none ↔
        (s.httpClient.Call args.method args.url args.body args.authorization
          args.contentType args.urlParams).2 ≠ none)) ∧
    (∃ args : httpService.CallArgs,
      (s.PutDNSRecord E domain record).calls = [args] ∧
      args.method = "PUT" ∧
      args.url = "https://api.ote-godaddy.com/v1/domains/" ++ domain ++ "/records/" ++
        record.Type_ ++ "/" ++ record.Name ∧
      ((s.PutDNSRecord E domain record).err ≠ none ↔
        (s.httpClient.Call args.method args.url args.body args.authorization
          args.contentType args.urlParams).2 ≠ none)) := by
  constructor
  · refine ⟨purchaseDomainArgs E domain contact consent, ?_, rfl, rfl, ?_⟩ <;>
      cases h : (s.httpClient.Call (purchaseDomainArgs E domain contact consent).method
        (purchaseDomainArgs E domain contact consent).url
        (purchaseDomainArgs E domain contact consent).body
        (purchaseDomainArgs E domain contact consent).authorization
        (purchaseDomainArgs E domain contact consent).contentType
        (purchaseDomainArgs E domain contact consent).urlParams).2 <;>
      simp [Service.PurchaseDomain, h]
  · refine ⟨putDNSRecordArgs E domain record, ?_, rfl, rfl, ?_⟩ <;>
      cases h : (s.httpClient.Call (putDNSRecordArgs E domain record).method
        (putDNSRecordArgs E domain record).url
        (putDNSRecordArgs E domain record).body
        (putDNSRecordArgs E domain record).authorization
        (putDNSRecordArgs E domain record).contentType
        (putDNSRecordArgs E domain record).urlParams).2 <;>
      simp [Service.PutDNSRecord, h]

end godaddy

namespace server

/-- C20: for every `/put-dns` request whose body decodes to `{domain, type, name, data,
ttl}` and whose upstream write succeeds, the handler invokes `PutDNSRecord` exactly once,
with that domain and a record of exactly those type, name, data and ttl, and responds with
status 200 and an empty body. -/
theorem C20_put_dns_success (J : Lib) (godaddyService : godaddy.Interface) (r : Request)
    (req : putDNSRequest)
    (hdec : J.DecodePutDNS r.Body = .ok req)
    (hok : godaddyService.PutDNSRecord req.Domain
      { Type_ := req.Type_, Name := req.Name, Data := req.Data, TTL := req.TTL } = none) :
    (putDNS J godaddyService r).calls
      = [.PutDNSRecord req.Domain
          { Type_ := req.Type_, Name := req.Name, Data := req.Data, TTL := req.TTL }] ∧
    (putDNS J godaddyService r).w.status = some 200 ∧
    (putDNS J godaddyService r).w.body = "" := by
  have h : putDNS J godaddyService r
      = { w := http.ResponseWriter.fresh.WriteHeader http.StatusOK
          calls := [.PutDNSRecord req.Domain
            { Type_ := req.Type_, Name := req.Name, Data := req.Data, TTL := req.TTL }] } := by
    unfold putDNS
    simp only [hdec, hok]
  rw [h]
  exact ⟨rfl, rfl, rfl⟩

/-- C20 at a request for the domain `foo` and the working adapter. -/
theorem C20_put_dns_success_witness :
    (putDNS exampleJSON workingAdapter fooRequest).calls
      = [.PutDNSRecord "foo" { Type_ := "A", Name := "@", Data := "192.0.2.1", TTL := 600 }] ∧
    (putDNS exampleJSON workingAdapter fooRequest).w.status = some 200 ∧
    (putDNS exampleJSON workingAdapter fooRequest).w.body = "" :=
  C20_put_dns_success exampleJSON workingAdapter fooRequest
    { Domain := "foo", Type_ := "A", Name := "@", Data := "192.0.2.1", TTL := 600 } rfl rfl

end server

namespace server

/-- Once a status has been written, `http.Error` and the successful end of a handler leave
it as it is. -/
theorem status_kept (w : http.ResponseWriter) (s : Int) (h : w.status = some s)
    (msg : String) (code : Int) (jsonResp : String) :
    (http.Error w msg code).status = some s ∧
    (((w.HeaderSet "Content-Type" "application/json").WriteHeader http.StatusOK).Write
      jsonResp).status = some s := by
  simp [http.Error, http.ResponseWriter.HeaderSet, http.ResponseWriter.WriteHeader,
    http.ResponseWriter.Write, h]

/-- On the routes other than `/domain-availability`, an error of the operation invoked for
the request gives status 500: `/purchase-domain`, `/put-dns`, and `/domain-suggest` both
when the suggestion lookup fails and when an availability check fails (`/list-dns` is
C12). -/
theorem adapter_error_500 (J : Lib) (godaddyService : godaddy.Interface) (sched : Schedule)
    (r : Request) :
    (∀ e, godaddyService.PurchaseDomain "Crystalisland.io" purchaseContact purchaseConsent
        = some e → (purchaseDomain godaddyService).w.status = some 500) ∧
    (∀ req e, J.DecodePutDNS r.Body = .ok req →
      godaddyService.PutDNSRecord req.Domain
        { Type_ := req.Type_, Name := req.Name, Data := req.Data, TTL := req.TTL } = some e →
      (putDNS J godaddyService r).w.status = some 500) ∧
    (∀ req e, J.DecodeDomain r.Body = .ok req →
      (godaddyService.GetDomainSuggestions req.Domain).2 = some e →
      (domainSuggest J godaddyService sched r).w.status = some 500) ∧
    (∀ req d e, J.DecodeDomain r.Body = .ok req →
      (godaddyService.GetDomainSuggestions req.Domain).2 = none →
      d ∈ sched.finished (godaddyService.GetDomainSuggestions req.Domain).1 →
      (godaddyService.GetDomainAvailabilityAndPrice d).2.2 = some e →
      (domainSuggest J godaddyService sched r).w.status = some 500) := by
  refine ⟨?_, ?_, ?_, ?_⟩
  · intro e he
    unfold purchaseDomain
    simp only [he]
    exact (Error_fresh _ _).1
  · intro req e hdec he
    unfold putDNS
    simp only [hdec, he]
    exact (Error_fresh _ _).1
  · intro req e hdec he
    unfold domainSuggest
    simp only [hdec, he]
    exact (Error_fresh _ _).1
  · intro req d e hdec hsug hd he
    obtain ⟨e2, he2⟩ := FanOut.wait_err_some
      ((sched.finished (godaddyService.GetDomainSuggestions req.Domain).1).map
        (domainSuggestTask godaddyService))
      (domainSuggestTask godaddyService d) (List.mem_map_of_mem _ hd) e
      (by rw [domainSuggestTask_err, he])
    unfold domainSuggest
    simp only [hdec, hsug, he2]
    have hw := (Error_fresh "Internal Server Error" http.StatusInternalServerError).1
    split
    · exact (status_kept _ _ hw _ _ "").1
    · exact (status_kept _ _ hw "" 0 _).2

end server

namespace validation

/-- The error of the traced loop is the error of the loop of `Validate`. -/
theorem validateLoopTrace_fst (rules : List Rule) :
    (validateLoopTrace rules).1 = validateLoop rules := by
  induction rules with
  | nil => rfl
  | cons r rest ih =>
    unfold validateLoopTrace validateLoop
    cases h : r.Validate with
    | some err => rfl
    | none => simpa using ih

/-- Adding rules through a sequence of `Rule` calls gives the rules of all calls, in
order. -/
theorem rules_of_calls (batches : List (List Rule)) (c : Validator) :
    (batches.foldl Validator.Rule c).rules = c.rules ++ batches.flatten := by
  induction batches generalizing c with
  | nil => simp
  | cons b bs ih =>
    rw [List.foldl_cons, ih]
    simp [Validator.Rule, List.append_assoc]

/-- When every rule passes, the loop returns nil and has evaluated every rule. -/
theorem validateLoopTrace_all_pass (rules : List Rule)
    (h : ∀ r ∈ rules, r.Validate = none) : validateLoopTrace rules = (none, rules) := by
  induction rules with
  | nil => rfl
  | cons r rest ih =>
    have hr := h r (List.mem_cons_self _ _)
    have ih2 := ih (fun x hx => h x (List.mem_cons_of_mem _ hx))
    unfold validateLoopTrace
    simp only [hr, ih2]

/-- At the first failing rule the loop returns its error, having evaluated the rules up
to and including it and none after it. -/
theorem validateLoopTrace_first_failure (pre post : List Rule) (r : Rule) (e : GoError)
    (hpre : ∀ x ∈ pre, x.Validate = none) (hr : r.Validate = some e) :
    validateLoopTrace (pre ++ r :: post) = (some e, pre ++ [r]) := by
  induction pre with
  | nil =>
    unfold validateLoopTrace
    simp only [List.nil_append, hr]
  | cons x xs ih =>
    have hx := hpre x (List.mem_cons_self _ _)
    have ih2 := ih (fun y hy => hpre y (List.mem_cons_of_mem _ hy))
    rw [List.cons_append]
    unfold validateLoopTrace
    simp only [hx, ih2, List.cons_append]

/-- C23: for every Validator built by adding the rules `r1..rn` through any sequence of
`Rule` calls, `Validate` returns nil if every rule's `Validate` returns nil, and otherwise
returns exactly the error of the first rule whose `Validate` fails, having evaluated the
rules up to that one and none after it. -/
theorem C23_validate_first_failure (batches : List (List Rule)) :
    ((batches.foldl Validator.Rule NewValidator).rules = batches.flatten) ∧
    ((∀ r ∈ batches.flatten, r.Validate = none) →
      (batches.foldl Validator.Rule NewValidator).Validate = none ∧
      validateLoopTrace (batches.foldl Validator.Rule NewValidator).rules
        = (none, batches.flatten)) ∧
    (∀ (pre post : List Rule) (r : Rule) (e : GoError),
      batches.flatten = pre ++ r :: post → (∀ x ∈ pre, x.Validate = none) →
      r.Validate = some e →
      (batches.foldl Validator.Rule NewValidator).Validate = some e ∧
      validateLoopTrace (batches.foldl Validator.Rule NewValidator).rules
        = (some e, pre ++ [r])) := by
  have hrules : (batches.foldl Validator.Rule NewValidator).rules = batches.flatten := by
    rw [rules_of_calls]
    rfl
  refine ⟨hrules, ?_, ?_⟩
  · intro h
    have ht := validateLoopTrace_all_pass batches.flatten h
    refine ⟨?_, by rw [hrules, ht]⟩
    unfold Validator.Validate
    rw [hrules, ← validateLoopTrace_fst, ht]
  · intro pre post r e hsplit hpre hr
    have ht := validateLoopTrace_first_failure pre post r e hpre hr
    refine ⟨?_, by rw [hrules, hsplit, ht]⟩
    unfold Validator.Validate
    rw [hrules, hsplit, ← validateLoopTrace_fst, ht]

/-- C23 at a validator built by two `Rule` calls, whose second rule is the first to fail:
the third and fourth rules are not evaluated. -/
theorem C23_validate_first_failure_witness :
    ([[passing, failing "second"], [failing "third", passing]].foldl Validator.Rule
        NewValidator).Validate
      = some (.service (util.Error util.InvalidArgument "second")) ∧
    validateLoopTrace ([[passing, failing "second"], [failing "third", passing]].foldl
        Validator.Rule NewValidator).rules
      = (some (.service (util.Error util.InvalidArgument "second")),
          [passing] ++ [failing "second"]) :=
  (C23_validate_first_failure [[passing, failing "second"], [failing "third", passing]]).2.2
    [passing] [failing "third", passing] (failing "second")
    (.service (util.Error util.InvalidArgument "second")) rfl
    (fun x hx => by rw [List.mem_singleton.mp hx]; rfl) rfl

/-- What the loop of `ValidateAndJoinErrors` gathers from any state on. -/
theorem joinLoop_foldl (Error : GoError → String) (rules : List Rule) (st : JoinState) :
    (rules.foldl (joinStep Error) st).messages
        = st.messages ++ rules.filterMap (fun r => r.Validate.map Error) ∧
    (rules.foldl (joinStep Error) st).evaluated = st.evaluated ++ rules := by
  induction rules generalizing st with
  | nil => simp
  | cons r rest ih =>
    rw [List.foldl_cons]
    obtain ⟨h1, h2⟩ := ih (joinStep Error st r)
    rw [h1, h2]
    cases hr : r.Validate with
    | none => simp [joinStep, hr, List.filterMap_cons]
    | some err => simp [joinStep, hr, List.filterMap_cons]

/-- C24: for every Validator with rules `r1..rn`, `ValidateAndJoinErrors` evaluates every
rule, returns nil if and only if no rule fails, and otherwise returns an error whose
message is the messages of all failing rules, in rule order, joined by a newline. -/
theorem C24_validate_and_join (Error : GoError → String) (c : Validator) :
    (joinLoop Error c.rules).evaluated = c.rules ∧
    (c.ValidateAndJoinErrors Error = none ↔ ∀ r ∈ c.rules, r.Validate = none) ∧
    ((∃ r ∈ c.rules, r.Validate ≠ none) →
      c.ValidateAndJoinErrors Error
        = some (.other (String.intercalate "\n"
            (c.rules.filterMap (fun r => r.Validate.map Error))))) := by
  obtain ⟨hm, he⟩ := joinLoop_foldl Error c.rules { messages := [], evaluated := [] }
  have hm2 : (joinLoop Error c.rules).messages
      = c.rules.filterMap (fun r => r.Validate.map Error) := by
    unfold joinLoop
    rw [hm]
    rfl
  have hnil : c.rules.filterMap (fun r => r.Validate.map Error) = [] ↔
      ∀ r ∈ c.rules, r.Validate = none := by
    rw [List.filterMap_eq_nil_iff]
    constructor
    · intro h r hr
      simpa using h r hr
    · intro h r hr
      simp [h r hr]
  refine ⟨?_, ?_, ?_⟩
  · unfold joinLoop
    rw [he]
    rfl
  · unfold Validator.ValidateAndJoinErrors
    rw [hm2, ← hnil]
    cases hl : c.rules.filterMap (fun r => r.Validate.map Error) with
    | nil => simp
    | cons a as => simp
  · rintro ⟨r, hr, hne⟩
    unfold Validator.ValidateAndJoinErrors
    rw [hm2]
    have hne2 : c.rules.filterMap (fun r => r.Validate.map Error) ≠ [] := by
      intro h
      exact hne (hnil.mp h r hr)
    have hpos : (c.rules.filterMap (fun r => r.Validate.map Error)).length > 0 :=
      List.length_pos.mpr hne2
    simp only [hpos, if_true]

/-- C24 at four rules of which the second and third fail. -/
theorem C24_validate_and_join_witness :
    Validator.ValidateAndJoinErrors server.errorText
        { rules := [passing, failing "second", failing "third", passing] }
      = some (.other (String.intercalate "\n"
          ([passing, failing "second", failing "third", passing].filterMap
            (fun r => r.Validate.map server.errorText)))) :=
  (C24_validate_and_join server.errorText
    { rules := [passing, failing "second", failing "third", passing] }).2.2
    ⟨failing "second", by simp, by simp [failing]⟩

end validation

namespace util

/-- What `ErrorTypeToGRPCCode` returns at each of the thirteen kinds. -/
theorem ErrorTypeToGRPCCode_values (T : codes.Table) :
    ErrorTypeToGRPCCode T NotFound = T.NotFound ∧
    ErrorTypeToGRPCCode T InvalidArgument = T.InvalidArgument ∧
    ErrorTypeToGRPCCode T AlreadyExists = T.AlreadyExists ∧
    ErrorTypeToGRPCCode T PermissionDenied = T.PermissionDenied ∧
    ErrorTypeToGRPCCode T Unauthenticated = T.Unauthenticated ∧
    ErrorTypeToGRPCCode T Unimplemented = T.Unimplemented ∧
    ErrorTypeToGRPCCode T Unknown = T.Unknown ∧
    ErrorTypeToGRPCCode T Internal = T.Internal ∧
    ErrorTypeToGRPCCode T Unavailable = T.Unavailable ∧
    ErrorTypeToGRPCCode T FailedPrecondition = T.FailedPrecondition ∧
    ErrorTypeToGRPCCode T DeadlineExceeded = T.DeadlineExceeded ∧
    ErrorTypeToGRPCCode T ResourceExhausted = T.ResourceExhausted ∧
    ErrorTypeToGRPCCode T Aborted = T.Aborted :=
  ⟨rfl, rfl, rfl, rfl, rfl, rfl, rfl, rfl, rfl, rfl, rfl, rfl, rfl⟩

/-- A kind outside the enumeration is translated to the code `Unknown`. -/
theorem ErrorTypeToGRPCCode_outside (T : codes.Table) (k : ErrorType) (hk : k ∉ allKinds) :
    ErrorTypeToGRPCCode T k = T.Unknown := by
  simp only [allKinds, List.mem_cons, List.mem_singleton, List.not_mem_nil, or_false,
    not_or] at hk
  obtain ⟨a1, a2, a3, a4, a5, a6, a7, a8, a9, a10, a11, a12, a13⟩ := hk
  simp only [ErrorTypeToGRPCCode, a1, a2, a3, a4, a5, a6, a7, a8, a9, a10, a11, a12, a13,
    if_false]

/-- The code of a declared kind other than `Unknown` is neither `Unknown` nor `OK`. -/
theorem ErrorTypeToGRPCCode_ne (T : codes.Table) (k : ErrorType) (hk : k ∈ allKinds)
    (hne : k ≠ Unknown) :
    ErrorTypeToGRPCCode T k ≠ T.Unknown ∧ ErrorTypeToGRPCCode T k ≠ T.OK := by
  have h := T.ne
  simp only [List.pairwise_cons, List.mem_cons, List.mem_singleton, List.not_mem_nil,
    forall_eq_or_imp, forall_eq, ne_eq, List.Pairwise.nil, and_true, false_implies,
    implies_true, IsEmpty.forall_iff] at h
  obtain ⟨e1, e2, e3, e4, e5, e6, e7, e8, e9, e10, e11, e12, e13⟩ :=
    ErrorTypeToGRPCCode_values T
  simp only [allKinds, List.mem_cons, List.mem_singleton, List.not_mem_nil, or_false] at hk
  rcases hk with rfl | rfl | rfl | rfl | rfl | rfl | rfl | rfl | rfl | rfl | rfl | rfl | rfl
  · rw [e1]; simp only [ne_eq, h, not_false_eq_true, and_self]
  · rw [e2]; simp only [ne_eq, h, not_false_eq_true, and_self]
  · rw [e3]; simp only [ne_eq, h, not_false_eq_true, and_self]
  · rw [e4]; simp only [ne_eq, h, not_false_eq_true, and_self]
  · rw [e5]; simp only [ne_eq, h, not_false_eq_true, and_self]
  · rw [e6]; simp only [ne_eq, h, not_false_eq_true, and_self]
  · exact absurd rfl hne
  · rw [e8]; simp only [ne_eq, h, not_false_eq_true, and_self]
  · rw [e9]; simp only [ne_eq, h, not_false_eq_true, and_self]
  · rw [e10]; simp only [ne_eq, h, not_false_eq_true, and_self]
  · rw [e11]; simp only [ne_eq, h, not_false_eq_true, and_self]
  · rw [e12]; simp only [ne_eq, h, not_false_eq_true, and_self]
  · rw [e13]; simp only [ne_eq, h, not_false_eq_true, and_self]

/-- The code `Unknown` differs from the code `OK`. -/
theorem Unknown_ne_OK (T : codes.Table) : T.Unknown ≠ T.OK := by
  have h := T.ne
  simp only [List.pairwise_cons, List.mem_cons, List.mem_singleton, List.not_mem_nil,
    forall_eq_or_imp, forall_eq, ne_eq, List.Pairwise.nil, and_true, false_implies,
    implies_true, IsEmpty.forall_iff] at h
  simp only [ne_eq, h, not_false_eq_true]

/-- `GRPCError` of an error whose kind translates to the code `Unknown`. -/
theorem GRPCError_of_unknown (T : codes.Table) (F : fmt.Lib) (v : ServiceError)
    (h : ErrorTypeToGRPCCode T v.errType = T.Unknown) :
    v.GRPCError T F = some (.grpcStatus T.Unknown "Unknown server error.") := by
  unfold ServiceError.GRPCError
  simp only [h, if_true]
  unfold status.Errorf status.Error
  rw [if_neg (Unknown_ne_OK T), F.verbFree "Unknown server error." (by decide)]

/-- C25: for every non-nil error that is neither a gRPC status error nor a ServiceError,
`ToGrpcError` returns a gRPC error with code `Unknown`; for every error that already is a
gRPC status error (whose code, as for every error the status package makes, is not `OK`),
`ToGrpcError` returns an error with the same code and message. -/
theorem C25_to_grpc_error (T : codes.Table) (F : fmt.Lib) :
    (∀ err : GoError, (∀ c m, err ≠ .grpcStatus c m) → (∀ se, err ≠ .service se) →
      ToGrpcError T F (some err) = some (.grpcStatus T.Unknown "Unknown server error.")) ∧
    (∀ (c : codes.Code) (m : String), c ≠ T.OK →
      ToGrpcError T F (some (.grpcStatus c m)) = some (.grpcStatus c m)) := by
  constructor
  · intro err hs hv
    have hu : ErrorTypeToGRPCCode T Unknown = T.Unknown := rfl
    cases err with
    | service se => exact absurd rfl (hv se)
    | grpcStatus c m => exact absurd rfl (hs c m)
    | httpError e =>
      exact GRPCError_of_unknown T F (Error Unknown "Unknown server error.") hu
    | other m =>
      exact GRPCError_of_unknown T F (Error Unknown "Unknown server error.") hu
  · intro c m hc
    simp [ToGrpcError, status.FromError, status.Error, hc]

/-- C25 at the gRPC numbering: the `*Error` of a 404 response becomes an `Unknown` status
error, and a `NotFound` status error is passed through. -/
theorem C25_to_grpc_error_witness :
    ToGrpcError codes.grpc fmt.exampleLib
        (some (.httpError { Body := "Not Found: missing", StatusCode := 404 }))
      = some (.grpcStatus 2 "Unknown server error.") ∧
    ToGrpcError codes.grpc fmt.exampleLib (some (.grpcStatus 5 "no such domain"))
      = some (.grpcStatus 5 "no such domain") :=
  ⟨(C25_to_grpc_error codes.grpc fmt.exampleLib).1 _ (fun _ _ h => by cases h)
      (fun _ h => by cases h),
   (C25_to_grpc_error codes.grpc fmt.exampleLib).2 5 "no such domain" (by decide)⟩

/-- C29: for every ServiceError with kind `k` and message `m`: if `k` is `Unknown` or a
value outside the 13-kind enumeration, `GRPCError` returns a gRPC error with code
`Unknown` and the fixed message `Unknown server error.`; otherwise it returns a gRPC error
whose code is `ErrorTypeToGRPCCode(k)`, which is neither `Unknown` nor `OK`. -/
theorem C29_grpc_error (T : codes.Table) (F : fmt.Lib) (v : ServiceError) :
    ((v.errType = Unknown ∨ v.errType ∉ allKinds) →
      v.GRPCError T F = some (.grpcStatus T.Unknown "Unknown server error.")) ∧
    ((v.errType ∈ allKinds ∧ v.errType ≠ Unknown) →
      (∃ msg, v.GRPCError T F = some (.grpcStatus (ErrorTypeToGRPCCode T v.errType) msg)) ∧
      ErrorTypeToGRPCCode T v.errType ≠ T.Unknown ∧
      ErrorTypeToGRPCCode T v.errType ≠ T.OK) := by
  constructor
  · rintro (h | h)
    · exact GRPCError_of_unknown T F v (by rw [h]; rfl)
    · exact GRPCError_of_unknown T F v (ErrorTypeToGRPCCode_outside T v.errType h)
  · rintro ⟨hk, hne⟩
    obtain ⟨h1, h2⟩ := ErrorTypeToGRPCCode_ne T v.errType hk hne
    refine ⟨⟨F.Sprintf v.msg, ?_⟩, h1, h2⟩
    unfold ServiceError.GRPCError
    simp only [h1, if_false]
    unfold status.Errorf status.Error
    rw [if_neg h2]

/-- C29 at the gRPC numbering, for the kind 99 outside the enumeration and for
`NotFound`. -/
theorem C29_grpc_error_witness :
    ServiceError.GRPCError codes.grpc fmt.exampleLib { msg := "lost", errType := 99 }
      = some (.grpcStatus 2 "Unknown server error.") ∧
    ((∃ msg, ServiceError.GRPCError codes.grpc fmt.exampleLib (Error NotFound "no such domain")
        = some (.grpcStatus (ErrorTypeToGRPCCode codes.grpc NotFound) msg)) ∧
      ErrorTypeToGRPCCode codes.grpc NotFound ≠ 2 ∧
      ErrorTypeToGRPCCode codes.grpc NotFound ≠ 0) :=
  ⟨(C29_grpc_error codes.grpc fmt.exampleLib { msg := "lost", errType := 99 }).1
      (Or.inr (by decide)),
   (C29_grpc_error codes.grpc fmt.exampleLib (Error NotFound "no such domain")).2
      ⟨by decide, by decide⟩⟩

end util

namespace logging

/-- What `HTTPStatusFromCode` returns at the codes of the thirteen kinds. -/
theorem HTTPStatusFromCode_named (T : codes.Table) :
    HTTPStatusFromCode T T.NotFound = 404 ∧
    HTTPStatusFromCode T T.InvalidArgument = 400 ∧
    HTTPStatusFromCode T T.AlreadyExists = 409 ∧
    HTTPStatusFromCode T T.PermissionDenied = 403 ∧
    HTTPStatusFromCode T T.Unauthenticated = 401 ∧
    HTTPStatusFromCode T T.Unimplemented = 501 ∧
    HTTPStatusFromCode T T.Unknown = 500 ∧
    HTTPStatusFromCode T T.Internal = 500 ∧
    HTTPStatusFromCode T T.Unavailable = 503 ∧
    HTTPStatusFromCode T T.FailedPrecondition = 412 ∧
    HTTPStatusFromCode T T.DeadlineExceeded = 408 ∧
    HTTPStatusFromCode T T.ResourceExhausted = 429 ∧
    HTTPStatusFromCode T T.Aborted = 409 := by
  have h := T.ne
  simp only [List.pairwise_cons, List.mem_cons, List.mem_singleton, List.not_mem_nil,
    forall_eq_or_imp, forall_eq, ne_eq, List.Pairwise.nil, and_true, false_implies,
    implies_true, IsEmpty.forall_iff] at h
  simp only [HTTPStatusFromCode, h, if_true, if_false, http.StatusNotFound,
    http.StatusBadRequest, http.StatusConflict, http.StatusForbidden, http.StatusUnauthorized,
    http.StatusNotImplemented, http.StatusInternalServerError, http.StatusServiceUnavailable,
    http.StatusPreconditionFailed, http.StatusRequestTimeout, http.StatusTooManyRequests,
    and_self]

/-- C28: for every error kind other than `Aborted` (of the 13 kinds, and also for a value
outside them), the two routes from a kind to an HTTP status agree:
`HTTPStatusFromCode(ErrorTypeToGRPCCode(k)) = HTTPCode(k)`; for `Aborted` they disagree, 409
through the gRPC code and 500 through `HTTPCode`. -/
theorem C28_two_routes (T : codes.Table) (v : util.ServiceError) :
    (v.errType ≠ util.Aborted →
      HTTPStatusFromCode T (util.ErrorTypeToGRPCCode T v.errType) = v.HTTPCode) ∧
    (v.errType = util.Aborted →
      HTTPStatusFromCode T (util.ErrorTypeToGRPCCode T v.errType) = 409 ∧ v.HTTPCode = 500) := by
  obtain ⟨n1, n2, n3, n4, n5, n6, n7, n8, n9, n10, n11, n12, n13⟩ := HTTPStatusFromCode_named T
  obtain ⟨e1, e2, e3, e4, e5, e6, e7, e8, e9, e10, e11, e12, e13⟩ :=
    util.ErrorTypeToGRPCCode_values T
  constructor
  · intro hne
    by_cases hk : v.errType ∈ util.allKinds
    · simp only [util.allKinds, List.mem_cons, List.mem_singleton, List.not_mem_nil,
        or_false] at hk
      rcases hk with h | h | h | h | h | h | h | h | h | h | h | h | h
      · rw [h, e1, n1]; simp [util.ServiceError.HTTPCode, h]; rfl
      · rw [h, e2, n2]; simp [util.ServiceError.HTTPCode, h]; decide
      · rw [h, e3, n3]; simp [util.ServiceError.HTTPCode, h]; decide
      · rw [h, e4, n4]; simp [util.ServiceError.HTTPCode, h]; decide
      · rw [h, e5, n5]; simp [util.ServiceError.HTTPCode, h]; decide
      · rw [h, e6, n6]; simp [util.ServiceError.HTTPCode, h]; decide
      · rw [h, e7, n7]; simp [util.ServiceError.HTTPCode, h]; decide
      · rw [h, e8, n8]; simp [util.ServiceError.HTTPCode, h]; decide
      · rw [h, e9, n9]; simp [util.ServiceError.HTTPCode, h]; decide
      · rw [h, e10, n10]; simp [util.ServiceError.HTTPCode, h]; decide
      · rw [h, e11, n11]; simp [util.ServiceError.HTTPCode, h]; decide
      · rw [h, e12, n12]; simp [util.ServiceError.HTTPCode, h]; decide
      · exact absurd h hne
    · rw [util.ErrorTypeToGRPCCode_outside T v.errType hk, n7]
      simp only [util.allKinds, List.mem_cons, List.mem_singleton, List.not_mem_nil, or_false,
        not_or] at hk
      obtain ⟨a1, a2, a3, a4, a5, a6, a7, a8, a9, a10, a11, a12, a13⟩ := hk
      simp only [util.ServiceError.HTTPCode, a1, a2, a3, a4, a5, a6, a9, a10, a11, a12, a13,
        if_false]
      rfl
  · intro h
    rw [h, e13, n13]
    refine ⟨rfl, ?_⟩
    simp [util.ServiceError.HTTPCode, h]
    decide

/-- C28 at the gRPC numbering, for a `DeadlineExceeded` error (408 on both routes) and an
`Aborted` error (409 against 500). -/
theorem C28_two_routes_witness :
    HTTPStatusFromCode codes.grpc
        (util.ErrorTypeToGRPCCode codes.grpc (util.Error util.DeadlineExceeded "late").errType)
      = (util.Error util.DeadlineExceeded "late").HTTPCode ∧
    (HTTPStatusFromCode codes.grpc
        (util.ErrorTypeToGRPCCode codes.grpc (util.Error util.Aborted "stop").errType) = 409 ∧
      (util.Error util.Aborted "stop").HTTPCode = 500) :=
  ⟨(C28_two_routes codes.grpc (util.Error util.DeadlineExceeded "late")).1 (by decide),
   (C28_two_routes codes.grpc (util.Error util.Aborted "stop")).2 rfl⟩

end logging

namespace serverconfig

/-- Chaining one more interceptor at the end of a nested chain is wrapping the handler
with it. -/
theorem nestedChain_append {Ctx Req Info Res : Type} (info : Info)
    (l : List (UnaryServerInterceptor Ctx Req Info Res))
    (x : UnaryServerInterceptor Ctx Req Info Res) (h : UnaryHandler Ctx Req Res) :
    nestedChain info (l ++ [x]) h = nestedChain info l (buildChain info x h) := by
  induction l with
  | nil => rfl
  | cons i rest ih =>
    rw [List.cons_append]
    unfold nestedChain
    rw [ih]

/-- After the rounds for the indices below `k`, the loop has built the nested chain of
the first `k` interceptors around the chain it started from. -/
theorem chainLoop_eq {Ctx Req Info Res : Type} (info : Info)
    (interceptors : List (UnaryServerInterceptor Ctx Req Info Res)) (k : Nat)
    (hk : k ≤ interceptors.length) (chain : UnaryHandler Ctx Req Res) :
    chainLoop info interceptors k chain = nestedChain info (interceptors.take k) chain := by
  induction k generalizing chain with
  | zero => rfl
  | succ i ih =>
    have hi : i < interceptors.length := hk
    unfold chainLoop
    rw [List.get?_eq_get hi]
    simp only []
    rw [ih (Nat.le_of_lt hi), List.take_succ]
    simp only [List.getElem?_eq_getElem hi, Option.toList_some, List.get_eq_getElem]
    rw [nestedChain_append]

/-- C26: for every list of interceptors `i1..in` and every handler `h`, the interceptor
returned by `ChainUnaryServer` applied to `(ctx, req, info, h)` equals `i1` called with a
next-handler that calls `i2` with a next-handler that ... calls `in` with next-handler `h`,
each with the same `info`; for the empty list it equals calling `h(ctx, req)` directly. -/
theorem C26_chain_is_nesting {Ctx Req Info Res : Type}
    (interceptors : List (UnaryServerInterceptor Ctx Req Info Res)) (ctx : Ctx) (req : Req)
    (info : Info) (h : UnaryHandler Ctx Req Res) :
    ChainUnaryServer interceptors ctx req info h = nestedChain info interceptors h ctx req ∧
    ChainUnaryServer ([] : List (UnaryServerInterceptor Ctx Req Info Res)) ctx req info h
      = h ctx req := by
  constructor
  · unfold ChainUnaryServer
    simp only []
    rw [chainLoop_eq info interceptors interceptors.length (Nat.le_refl _), List.take_length]
  · rfl

end serverconfig

namespace httpService

/-- C27: for every call of `Call` with non-empty `url` and `method` whose HTTP round trip
yields a response, `Call` returns an error if and only if the status code of the response
is greater than 299; in particular a response with a status code below 200 is returned to
the caller with a nil error. -/
theorem C27_error_iff_above_299 (L : Lib) (s : Service) (method url : String)
    (body : Option Reader) (authorization contentType : String) (urlParams : List URLParam)
    (req : Request) (resp : Response)
    (hurl : url ≠ "") (hmethod : method ≠ "")
    (hreq : L.NewRequest (L.ToUpper method) url body = .ok req)
    (hdo : s.httpClient.Do (buildRequest L req authorization contentType urlParams) = .ok resp) :
    ((s.Call L method url body authorization contentType urlParams).err ≠ none ↔
      resp.StatusCode > 299) ∧
    (resp.StatusCode < 200 →
      (s.Call L method url body authorization contentType urlParams).resp = some resp ∧
      (s.Call L method url body authorization contentType urlParams).err = none) := by
  rw [Call_of_response L s method url body authorization contentType urlParams req resp hurl
    hmethod hreq hdo]
  by_cases h : resp.StatusCode > 299
  · rw [if_pos h]
    refine ⟨⟨fun _ => h, fun _ => by simp⟩, fun hlt => ?_⟩
    omega
  · rw [if_neg h]
    exact ⟨⟨fun hne => absurd rfl hne, fun hgt => absurd hgt h⟩, fun _ => ⟨rfl, rfl⟩⟩

end httpService

namespace httpService

/-- C27 at a 101 response: it is returned with a nil error. -/
theorem C27_error_iff_above_299_witness :
    ((answering switchingResponse).Call exampleLib "get" "https://api.example/v1" none
        "sso-key k" "" []).resp = some switchingResponse ∧
    ((answering switchingResponse).Call exampleLib "get" "https://api.example/v1" none
        "sso-key k" "" []).err = none :=
  (C27_error_iff_above_299 exampleLib (answering switchingResponse) "get"
    "https://api.example/v1" none "sso-key k" "" [] exampleRequest switchingResponse
    (by decide) (by decide) rfl rfl).2 (by decide)

end httpService

namespace server

/-- The invariant holds when the goroutines are launched. -/
theorem Inv.init {β : Type} (plan : Nat → Plan β) (n : Nat) : Inv plan n Shared.init where
  mutex_iff := fun i => by simp [Shared.init, PC.holds]
  snapshot := fun i snap h => by simp [Shared.init] at h
  holder_appends := fun i h => by simp [Shared.init, PC.holds] at h
  outside_idle := fun i _ => rfl
  slice_eq := ⟨[], rfl, List.nodup_nil, fun i => by simp [appended, Shared.init, PC.appended]⟩

/-- A move of goroutine `i` between two points outside the guarded section, neither of
which counts as an append, keeps the invariant when mutex and slice are unchanged. -/
theorem Inv.move {β : Type} {plan : Nat → Plan β} {n : Nat} {s s2 : Shared β} {i : Nat}
    (h : Inv plan n s) (hi : i < n) (p : PC β)
    (hpc : s2.pc = fun j => if j = i then p else s.pc j)
    (hm : s2.mutex = s.mutex) (hsl : s2.slice = s.slice)
    (hold_old : (s.pc i).holds = false) (hold_new : p.holds = false)
    (app_old : (s.pc i).appended (plan i).appends = false)
    (app_new : p.appended (plan i).appends = false) : Inv plan n s2 where
  mutex_iff := fun j => by
    rw [hm, hpc]
    by_cases hj : j = i
    · subst hj
      simp only [if_true, hold_new]
      rw [h.mutex_iff j, hold_old]
    · simp only [hj, if_false]
      exact h.mutex_iff j
  snapshot := fun j snap hj2 => by
    rw [hpc] at hj2
    rw [hsl]
    by_cases hj : j = i
    · subst hj
      simp only [if_true] at hj2
      rw [hj2] at hold_new
      simp [PC.holds] at hold_new
    · simp only [hj, if_false] at hj2
      exact h.snapshot j snap hj2
  holder_appends := fun j hj2 => by
    rw [hpc] at hj2
    by_cases hj : j = i
    · subst hj
      simp only [if_true] at hj2
      rw [hold_new] at hj2
      cases hj2
    · simp only [hj, if_false] at hj2
      exact h.holder_appends j hj2
  outside_idle := fun j hj2 => by
    rw [hpc]
    have hj : j ≠ i := by omega
    simp only [hj, if_false]
    exact h.outside_idle j hj2
  slice_eq := by
    obtain ⟨order, h1, h2, h3⟩ := h.slice_eq
    refine ⟨order, by rw [hsl, h1], h2, fun j => ?_⟩
    rw [h3 j]
    unfold appended
    rw [hpc]
    by_cases hj : j = i
    · subst hj
      simp only [if_true, app_new, app_old]
    · simp only [hj, if_false]

end server

namespace server

/-- Taking the free mutex keeps the invariant. -/
theorem Inv.lock {β : Type} {plan : Nat → Plan β} {n : Nat} {s s2 : Shared β} {i : Nat}
    (h : Inv plan n s) (hi : i < n) (hold_old : (s.pc i).holds = false)
    (app_old : (s.pc i).appended (plan i).appends = false)
    (hplan : (plan i).appends = true) (hfree : s.mutex = none)
    (hpc : s2.pc = fun j => if j = i then .locked else s.pc j)
    (hm : s2.mutex = some i) (hsl : s2.slice = s.slice) : Inv plan n s2 where
  mutex_iff := fun j => by
    rw [hm, hpc]
    by_cases hj : j = i
    · subst hj
      simp [PC.holds]
    · simp only [hj, if_false]
      have h1 := h.mutex_iff j
      rw [hfree] at h1
      constructor
      · intro h2
        exact absurd (Option.some.inj h2).symm hj
      · intro h2
        exact absurd (h1.mpr h2) (by simp)
  snapshot := fun j snap hj2 => by
    rw [hpc] at hj2
    rw [hsl]
    by_cases hj : j = i
    · subst hj
      simp at hj2
    · simp only [hj, if_false] at hj2
      exact h.snapshot j snap hj2
  holder_appends := fun j hj2 => by
    rw [hpc] at hj2
    by_cases hj : j = i
    · subst hj
      exact hplan
    · simp only [hj, if_false] at hj2
      exact h.holder_appends j hj2
  outside_idle := fun j hj2 => by
    rw [hpc]
    have hj : j ≠ i := by omega
    simp only [hj, if_false]
    exact h.outside_idle j hj2
  slice_eq := by
    obtain ⟨order, h1, h2, h3⟩ := h.slice_eq
    refine ⟨order, by rw [hsl, h1], h2, fun j => ?_⟩
    rw [h3 j]
    unfold appended
    rw [hpc]
    by_cases hj : j = i
    · subst hj
      simp only [if_true]
      rw [app_old]
      simp [PC.appended]
    · simp only [hj, if_false]

/-- Reading the slice under the mutex keeps the invariant. -/
theorem Inv.read {β : Type} {plan : Nat → Plan β} {n : Nat} {s s2 : Shared β} {i : Nat}
    (h : Inv plan n s) (hi : i < n) (hold_old : s.pc i = .locked)
    (hpc : s2.pc = fun j => if j = i then .read s.slice else s.pc j)
    (hm : s2.mutex = s.mutex) (hsl : s2.slice = s.slice) : Inv plan n s2 where
  mutex_iff := fun j => by
    rw [hm, hpc]
    by_cases hj : j = i
    · subst hj
      have h1 := h.mutex_iff j
      rw [hold_old] at h1
      simpa [PC.holds] using h1
    · simp only [hj, if_false]
      exact h.mutex_iff j
  snapshot := fun j snap hj2 => by
    rw [hpc] at hj2
    rw [hsl]
    by_cases hj : j = i
    · subst hj
      simp only [if_true, PC.read.injEq] at hj2
      exact hj2.symm
    · simp only [hj, if_false] at hj2
      exact h.snapshot j snap hj2
  holder_appends := fun j hj2 => by
    rw [hpc] at hj2
    by_cases hj : j = i
    · subst hj
      exact h.holder_appends j (by rw [hold_old]; rfl)
    · simp only [hj, if_false] at hj2
      exact h.holder_appends j hj2
  outside_idle := fun j hj2 => by
    rw [hpc]
    have hj : j ≠ i := by omega
    simp only [hj, if_false]
    exact h.outside_idle j hj2
  slice_eq := by
    obtain ⟨order, h1, h2, h3⟩ := h.slice_eq
    refine ⟨order, by rw [hsl, h1], h2, fun j => ?_⟩
    rw [h3 j]
    unfold appended
    rw [hpc]
    by_cases hj : j = i
    · subst hj
      simp [hold_old, PC.appended]
    · simp only [hj, if_false]

/-- Storing the appended slice under the mutex keeps the invariant: the slice read is
still the current one, so nothing stored by another goroutine is overwritten. -/
theorem Inv.write {β : Type} {plan : Nat → Plan β} {n : Nat} {s s2 : Shared β} {i : Nat}
    (h : Inv plan n s) (hi : i < n) (snap items : List β) (hold_old : s.pc i = .read snap)
    (hplan : plan i = .append items)
    (hpc : s2.pc = fun j => if j = i then .written else s.pc j)
    (hm : s2.mutex = s.mutex) (hsl : s2.slice = snap ++ items) : Inv plan n s2 where
  mutex_iff := fun j => by
    rw [hm, hpc]
    by_cases hj : j = i
    · subst hj
      have h1 := h.mutex_iff j
      rw [hold_old] at h1
      simpa [PC.holds] using h1
    · simp only [hj, if_false]
      exact h.mutex_iff j
  snapshot := fun j snap2 hj2 => by
    rw [hpc] at hj2
    by_cases hj : j = i
    · subst hj
      simp at hj2
    · simp only [hj, if_false] at hj2
      have hi2 : s.mutex = some i := (h.mutex_iff i).mpr (by rw [hold_old]; rfl)
      have hj3 : s.mutex = some j := (h.mutex_iff j).mpr (by rw [hj2]; rfl)
      rw [hi2] at hj3
      exact absurd (Option.some.inj hj3).symm hj
  holder_appends := fun j hj2 => by
    rw [hpc] at hj2
    by_cases hj : j = i
    · subst hj
      rw [hplan]
      rfl
    · simp only [hj, if_false] at hj2
      exact h.holder_appends j hj2
  outside_idle := fun j hj2 => by
    rw [hpc]
    have hj : j ≠ i := by omega
    simp only [hj, if_false]
    exact h.outside_idle j hj2
  slice_eq := by
    obtain ⟨order, h1, h2, h3⟩ := h.slice_eq
    have hnot : i ∉ order := by
      rw [h3 i]
      unfold appended
      rw [hold_old]
      simp [PC.appended]
    refine ⟨order ++ [i], ?_, ?_, fun j => ?_⟩
    · rw [hsl, h.snapshot i snap hold_old, h1, List.flatMap_append]
      simp [hplan, Plan.items]
    · exact List.nodup_append.mpr ⟨h2, List.nodup_singleton i, by
        intro a ha hb
        rw [List.mem_singleton.mp hb] at ha
        exact hnot ha⟩
    · unfold appended
      rw [hpc, List.mem_append, List.mem_singleton]
      by_cases hj : j = i
      · subst hj
        simp [PC.appended]
      · simp only [hj, if_false, or_false]
        exact h3 j

/-- Releasing the mutex keeps the invariant. -/
theorem Inv.unlock {β : Type} {plan : Nat → Plan β} {n : Nat} {s s2 : Shared β} {i : Nat}
    (h : Inv plan n s) (hi : i < n) (hold_old : s.pc i = .written)
    (hpc : s2.pc = fun j => if j = i then .done else s.pc j)
    (hm : s2.mutex = none) (hsl : s2.slice = s.slice) : Inv plan n s2 where
  mutex_iff := fun j => by
    rw [hm, hpc]
    by_cases hj : j = i
    · subst hj
      simp [PC.holds]
    · simp only [hj, if_false]
      constructor
      · intro h2
        cases h2
      · intro h2
        have hi2 : s.mutex = some i := (h.mutex_iff i).mpr (by rw [hold_old]; rfl)
        have hj3 : s.mutex = some j := (h.mutex_iff j).mpr h2
        rw [hi2] at hj3
        exact absurd (Option.some.inj hj3).symm hj
  snapshot := fun j snap hj2 => by
    rw [hpc] at hj2
    rw [hsl]
    by_cases hj : j = i
    · subst hj
      simp at hj2
    · simp only [hj, if_false] at hj2
      exact h.snapshot j snap hj2
  holder_appends := fun j hj2 => by
    rw [hpc] at hj2
    by_cases hj : j = i
    · subst hj
      simp [PC.holds] at hj2
    · simp only [hj, if_false] at hj2
      exact h.holder_appends j hj2
  outside_idle := fun j hj2 => by
    rw [hpc]
    have hj : j ≠ i := by omega
    simp only [hj, if_false]
    exact h.outside_idle j hj2
  slice_eq := by
    obtain ⟨order, h1, h2, h3⟩ := h.slice_eq
    refine ⟨order, by rw [hsl, h1], h2, fun j => ?_⟩
    rw [h3 j]
    unfold appended
    rw [hpc]
    by_cases hj : j = i
    · subst hj
      have ha := h.holder_appends j (by rw [hold_old]; rfl)
      simp [hold_old, PC.appended, ha]
    · simp only [hj, if_false]

end server

namespace server

/-- Every step of a goroutine keeps the invariant. -/
theorem Inv.step {β : Type} {plan : Nat → Plan β} {n : Nat} {s s2 : Shared β} {i : Nat}
    (h : Inv plan n s) (hs : step plan n s i = some s2) : Inv plan n s2 := by
  unfold server.step at hs
  by_cases hi : i < n
  · rw [if_pos hi] at hs
    cases hpc : s.pc i with
    | idle =>
      rw [hpc] at hs
      simp only [Option.some.injEq] at hs
      subst hs
      exact h.move hi .calling rfl rfl rfl (by rw [hpc]; rfl) rfl (by rw [hpc]; rfl) rfl
    | calling =>
      rw [hpc] at hs
      simp only [Option.some.injEq] at hs
      subst hs
      exact h.move hi .called rfl rfl rfl (by rw [hpc]; rfl) rfl (by rw [hpc]; rfl) rfl
    | called =>
      rw [hpc] at hs
      cases hplan : plan i with
      | fail e =>
        rw [hplan] at hs
        simp only [Option.some.injEq] at hs
        subst hs
        exact h.move hi .done rfl rfl rfl (by rw [hpc]; rfl) rfl (by rw [hpc]; rfl)
          (by rw [hplan]; rfl)
      | skip =>
        rw [hplan] at hs
        simp only [Option.some.injEq] at hs
        subst hs
        exact h.move hi .done rfl rfl rfl (by rw [hpc]; rfl) rfl (by rw [hpc]; rfl)
          (by rw [hplan]; rfl)
      | append items =>
        rw [hplan] at hs
        cases hmx : s.mutex with
        | some k =>
          rw [hmx] at hs
          cases hs
        | none =>
          rw [hmx] at hs
          simp only [Option.some.injEq] at hs
          subst hs
          exact h.lock hi (by rw [hpc]; rfl) (by rw [hpc]; rfl) (by rw [hplan]; rfl) hmx rfl
            rfl rfl
    | locked =>
      rw [hpc] at hs
      simp only [Option.some.injEq] at hs
      subst hs
      exact h.read hi hpc rfl rfl rfl
    | read snap =>
      rw [hpc] at hs
      cases hplan : plan i with
      | fail e =>
        rw [hplan] at hs
        cases hs
      | skip =>
        rw [hplan] at hs
        cases hs
      | append items =>
        rw [hplan] at hs
        simp only [Option.some.injEq] at hs
        subst hs
        exact h.write hi snap items hpc hplan rfl rfl rfl
    | written =>
      rw [hpc] at hs
      simp only [Option.some.injEq] at hs
      subst hs
      exact h.unlock hi hpc rfl rfl rfl
    | done =>
      rw [hpc] at hs
      cases hs
  · rw [if_neg hi] at hs
    cases hs

/-- The invariant holds after every schedule. -/
theorem Inv.run {β : Type} {plan : Nat → Plan β} {n : Nat} (sched : List Nat)
    (s : Shared β) (h : Inv plan n s) : Inv plan n (server.run plan n s sched) := by
  induction sched generalizing s with
  | nil => exact h
  | cons i rest ih =>
    unfold server.run
    cases hs : server.step plan n s i with
    | some s2 => exact ih s2 (Inv.step h hs)
    | none => exact ih s h

/-- A step that changes the slice is the store of a goroutine that has read the slice. -/
theorem step_slice {β : Type} {plan : Nat → Plan β} {n : Nat} {s s2 : Shared β} {i : Nat}
    (hs : step plan n s i = some s2) (hne : s2.slice ≠ s.slice) :
    ∃ snap, s.pc i = .read snap := by
  unfold server.step at hs
  by_cases hi : i < n
  · rw [if_pos hi] at hs
    cases hpc : s.pc i with
    | read snap => exact ⟨snap, rfl⟩
    | idle =>
      rw [hpc] at hs
      simp only [Option.some.injEq] at hs
      subst hs
      exact absurd rfl hne
    | calling =>
      rw [hpc] at hs
      simp only [Option.some.injEq] at hs
      subst hs
      exact absurd rfl hne
    | locked =>
      rw [hpc] at hs
      simp only [Option.some.injEq] at hs
      subst hs
      exact absurd rfl hne
    | written =>
      rw [hpc] at hs
      simp only [Option.some.injEq] at hs
      subst hs
      exact absurd rfl hne
    | done =>
      rw [hpc] at hs
      cases hs
    | called =>
      rw [hpc] at hs
      cases hplan : plan i with
      | fail e =>
        rw [hplan] at hs
        simp only [Option.some.injEq] at hs
        subst hs
        exact absurd rfl hne
      | skip =>
        rw [hplan] at hs
        simp only [Option.some.injEq] at hs
        subst hs
        exact absurd rfl hne
      | append items =>
        rw [hplan] at hs
        cases hmx : s.mutex with
        | some k =>
          rw [hmx] at hs
          cases hs
        | none =>
          rw [hmx] at hs
          simp only [Option.some.injEq] at hs
          subst hs
          exact absurd rfl hne
  · rw [if_neg hi] at hs
    cases hs

end server

namespace server

/-- C21: in the fan-outs of `/domain-suggest` and `/list-dns` (and for any plans of the
goroutines), after every interleaving of the steps of the goroutines: a step that changes
the shared slice is taken by the goroutine holding the mutex; the goroutine holding the
mutex is not before or inside its call of `godaddyService`; and no append is lost: the
slice is made of the items of the goroutines that have stored their append, each exactly
once, so the items of every goroutine that has returned are in it. -/
theorem C21_mutex_guards_appends {β : Type} (plan : Nat → Plan β) (n : Nat)
    (sched : List Nat) :
    (∀ i s2, step plan n (run plan n Shared.init sched) i = some s2 →
      s2.slice ≠ (run plan n Shared.init sched).slice →
      (run plan n Shared.init sched).mutex = some i) ∧
    (∀ i, (run plan n Shared.init sched).mutex = some i →
      (run plan n Shared.init sched).pc i ≠ .idle ∧
      (run plan n Shared.init sched).pc i ≠ .calling) ∧
    (∃ order : List Nat, order.Nodup ∧
      (∀ i, i ∈ order ↔ appended plan (run plan n Shared.init sched) i = true) ∧
      (run plan n Shared.init sched).slice = order.flatMap (fun i => (plan i).items)) ∧
    (∀ i, (run plan n Shared.init sched).pc i = .done →
      ∃ before after : List β,
        (run plan n Shared.init sched).slice = before ++ (plan i).items ++ after) := by
  have h : Inv plan n (run plan n Shared.init sched) := Inv.run sched _ (Inv.init plan n)
  obtain ⟨order, h1, h2, h3⟩ := h.slice_eq
  refine ⟨?_, ?_, ⟨order, h2, h3, h1⟩, ?_⟩
  · intro i s2 hs hne
    obtain ⟨snap, hsnap⟩ := step_slice hs hne
    exact (h.mutex_iff i).mpr (by rw [hsnap]; rfl)
  · intro i hm
    have hh := (h.mutex_iff i).mp hm
    constructor
    · intro hpc
      rw [hpc] at hh
      cases hh
    · intro hpc
      rw [hpc] at hh
      cases hh
  · intro i hdone
    cases hp : plan i with
    | fail e => exact ⟨[], (run plan n Shared.init sched).slice, by simp [Plan.items]⟩
    | skip => exact ⟨[], (run plan n Shared.init sched).slice, by simp [Plan.items]⟩
    | append items =>
      have hmem : i ∈ order := (h3 i).mpr (by
        unfold appended
        rw [hdone, hp]
        rfl)
      obtain ⟨l1, l2, hsplit⟩ := List.append_of_mem hmem
      refine ⟨l1.flatMap (fun i => (plan i).items), l2.flatMap (fun i => (plan i).items), ?_⟩
      rw [h1, hsplit, List.flatMap_append, List.flatMap_cons, hp]
      simp [Plan.items, List.append_assoc]

end server

namespace server

/-- C21 at the goroutines of `/list-dns` for the working adapter, after the goroutine of
`TXT` has run to its end, and at the goroutines of `/domain-suggest` for the failing
adapter, after the goroutine of `b.com` has failed and the one of `a.com` has then run to
its end: the items of the goroutine that returned are in the slice. -/
theorem C21_mutex_guards_appends_witness :
    (∃ before after : List godaddy.DNSRecord,
      (run (listDNSPlans workingAdapter "foo") 8 Shared.init [7, 7, 7, 7, 7, 7]).slice
        = before ++ (listDNSPlans workingAdapter "foo" 7).items ++ after) ∧
    (∃ before after : List suggestion,
      (run (domainSuggestPlans failingAdapter ["a.com", "b.com"]) 2 Shared.init
          [1, 1, 1, 0, 0, 0, 0, 0, 0]).slice
        = before ++ (domainSuggestPlans failingAdapter ["a.com", "b.com"] 0).items ++ after) :=
  ⟨(C21_mutex_guards_appends (listDNSPlans workingAdapter "foo") 8
      [7, 7, 7, 7, 7, 7]).2.2.2 7 (by decide),
   (C21_mutex_guards_appends (domainSuggestPlans failingAdapter ["a.com", "b.com"]) 2
      [1, 1, 1, 0, 0, 0, 0, 0, 0]).2.2.2 0 (by decide)⟩

end server

namespace godaddy

/-- C30: for every domain for which the Transport Client call succeeds and the response
body is fully readable but is not syntactically valid JSON, `GetDomainAvailabilityAndPrice`
reports no error and returns `available = false` and `price = 0`; it returns an error only
when the `Call` fails or the body cannot be read, and then the error has kind
`Internal`. -/
theorem C30_invalid_json_ignored (U : Unmarshaler) (s : Service) (domain : String) :
    (∀ (r : httpService.Response) (rb : httpService.Reader),
      s.httpClient.Call http.MethodGet domainsAvailableURL none auth ""
          [{ Key := "domain", Value := domain }] = (some r, none) →
      r.Body = some rb → rb.err = none → U.Valid rb.data = false →
      s.GetDomainAvailabilityAndPrice U domain
        = some { available := false, price := 0, err := none
                 calls := [availabilityArgs domain] }) ∧
    (∀ (res : AvailabilityResult) (e : GoError),
      s.GetDomainAvailabilityAndPrice U domain = some res → res.err = some e →
      ((s.httpClient.Call http.MethodGet domainsAvailableURL none auth ""
            [{ Key := "domain", Value := domain }]).2 ≠ none ∨
        ∃ r rb, (s.httpClient.Call http.MethodGet domainsAvailableURL none auth ""
            [{ Key := "domain", Value := domain }]).1 = some r ∧
          r.Body = some rb ∧ rb.err ≠ none) ∧
      ∃ se : util.ServiceError, e = .service se ∧ se.ErrorType = util.Internal) := by
  constructor
  · intro r rb hcall hbody hread hvalid
    unfold Service.GetDomainAvailabilityAndPrice
    have hc : s.httpClient.Call (availabilityArgs domain).method (availabilityArgs domain).url
        (availabilityArgs domain).body (availabilityArgs domain).authorization
        (availabilityArgs domain).contentType (availabilityArgs domain).urlParams
        = (some r, none) := hcall
    simp only [hc, hbody, httpService.ReadAll, hread, Unmarshaler.Unmarshal, hvalid]
    rfl
  · intro res e hres he
    unfold Service.GetDomainAvailabilityAndPrice at hres
    have hc : s.httpClient.Call (availabilityArgs domain).method (availabilityArgs domain).url
        (availabilityArgs domain).body (availabilityArgs domain).authorization
        (availabilityArgs domain).contentType (availabilityArgs domain).urlParams
        = s.httpClient.Call http.MethodGet domainsAvailableURL none auth ""
          [{ Key := "domain", Value := domain }] := rfl
    simp only [hc] at hres
    cases h2 : (s.httpClient.Call http.MethodGet domainsAvailableURL none auth ""
        [{ Key := "domain", Value := domain }]).2 with
    | some e2 =>
      simp only [h2, Option.some.injEq] at hres
      subst hres
      simp only [Option.some.injEq] at he
      subst he
      exact ⟨Or.inl (by simp), _, rfl, rfl⟩
    | none =>
      simp only [h2] at hres
      cases h1 : (s.httpClient.Call http.MethodGet domainsAvailableURL none auth ""
          [{ Key := "domain", Value := domain }]).1 with
      | none =>
        simp only [h1] at hres
        cases hres
      | some r =>
        simp only [h1] at hres
        cases hb : r.Body with
        | none =>
          simp only [hb] at hres
          cases hres
        | some rb =>
          simp only [hb, httpService.ReadAll] at hres
          cases hr : rb.err with
          | some e3 =>
            simp only [hr, Option.some.injEq] at hres
            subst hres
            simp only [Option.some.injEq] at he
            subst he
            exact ⟨Or.inr ⟨r, rb, rfl, hb, by simp [hr]⟩, _, rfl, rfl⟩
          | none =>
            simp only [hr, Option.some.injEq] at hres
            subst hres
            cases he

/-- C30 at the service whose upstream answers 200 with an HTML page. -/
theorem C30_invalid_json_ignored_witness :
    htmlService.GetDomainAvailabilityAndPrice exampleUnmarshaler "example.com"
      = some { available := false, price := 0, err := none
               calls := [availabilityArgs "example.com"] } :=
  (C30_invalid_json_ignored exampleUnmarshaler htmlService "example.com").1
    { StatusCode := 200, Header := [],
      Body := some { data := "<html>maintenance</html>", err := none } }
    { data := "<html>maintenance</html>", err := none } (by decide) rfl rfl (by decide)

end godaddy

namespace serverconfig

/-- C26 at two tagging interceptors: the first is entered first and left last. -/
theorem C26_chain_is_nesting_witness :
    ChainUnaryServer [tagging "a", tagging "b"] () ["r"] "i" (fun _ req => req)
      = nestedChain "i" [tagging "a", tagging "b"] (fun _ req => req) () ["r"] ∧
    ChainUnaryServer [tagging "a", tagging "b"] () ["r"] "i" (fun _ req => req)
      = ["r", "a:i", "b:i", "b", "a"] :=
  ⟨(C26_chain_is_nesting [tagging "a", tagging "b"] () ["r"] "i" (fun _ req => req)).1,
   by decide⟩

end serverconfig

/-! ## The fan-outs with the calls of `godaddyService` on record: theorems -/

namespace server

/-- The two shapes of a step: the call of a goroutine that had not yet called, which lists
the goroutine, or a move of a goroutine that had called, which lists nothing. -/
theorem step_cases {β : Type} {plan : Nat → Plan β} {n : Nat} {s s2 : Shared β} {i : Nat}
    (hs : step plan n s i = some s2) :
    i < n ∧
    ((s.pc i = .idle ∧ s2.calls = s.calls ++ [i] ∧
        s2.pc = fun j => if j = i then .calling else s.pc j) ∨
      (s.pc i ≠ .idle ∧ s2.calls = s.calls ∧
        ∃ p : PC β, p ≠ .idle ∧ s2.pc = fun j => if j = i then p else s.pc j)) := by
  unfold step at hs
  by_cases hi : i < n
  · refine ⟨hi, ?_⟩
    rw [if_pos hi] at hs
    cases hpc : s.pc i with
    | idle =>
      rw [hpc] at hs
      simp only [Option.some.injEq] at hs
      subst hs
      exact Or.inl ⟨rfl, rfl, rfl⟩
    | calling =>
      rw [hpc] at hs
      simp only [Option.some.injEq] at hs
      subst hs
      exact Or.inr ⟨by simp, rfl, .called, by simp, rfl⟩
    | called =>
      rw [hpc] at hs
      cases hplan : plan i with
      | fail e =>
        rw [hplan] at hs
        simp only [Option.some.injEq] at hs
        subst hs
        exact Or.inr ⟨by simp, rfl, .done, by simp, rfl⟩
      | skip =>
        rw [hplan] at hs
        simp only [Option.some.injEq] at hs
        subst hs
        exact Or.inr ⟨by simp, rfl, .done, by simp, rfl⟩
      | append items =>
        rw [hplan] at hs
        cases hmx : s.mutex with
        | some k =>
          rw [hmx] at hs
          cases hs
        | none =>
          rw [hmx] at hs
          simp only [Option.some.injEq] at hs
          subst hs
          exact Or.inr ⟨by simp, rfl, .locked, by simp, rfl⟩
    | locked =>
      rw [hpc] at hs
      simp only [Option.some.injEq] at hs
      subst hs
      exact Or.inr ⟨by simp, rfl, .read s.slice, by simp, rfl⟩
    | read snap =>
      rw [hpc] at hs
      cases hplan : plan i with
      | fail e =>
        rw [hplan] at hs
        cases hs
      | skip =>
        rw [hplan] at hs
        cases hs
      | append items =>
        rw [hplan] at hs
        simp only [Option.some.injEq] at hs
        subst hs
        exact Or.inr ⟨by simp, rfl, .written, by simp, rfl⟩
    | written =>
      rw [hpc] at hs
      simp only [Option.some.injEq] at hs
      subst hs
      exact Or.inr ⟨by simp, rfl, .done, by simp, rfl⟩
    | done =>
      rw [hpc] at hs
      cases hs
  · rw [if_neg hi] at hs
    cases hs

/-- The invariant of the issued calls holds when the goroutines are launched. -/
theorem CallsInv.calls_init {β : Type} (n : Nat) : CallsInv n (Shared.init : Shared β) where
  nodup := List.nodup_nil
  mem_iff := fun i => by simp [Shared.init]
  outside_idle := fun i _ => rfl

/-- Every step keeps the invariant of the issued calls. -/
theorem CallsInv.calls_step {β : Type} {plan : Nat → Plan β} {n : Nat} {s s2 : Shared β} {i : Nat}
    (h : CallsInv n s) (hs : server.step plan n s i = some s2) : CallsInv n s2 := by
  obtain ⟨hi, hc⟩ := step_cases hs
  rcases hc with ⟨hidle, hcalls, hpc⟩ | ⟨hnot, hcalls, p, hp, hpc⟩
  · have hnotin : i ∉ s.calls := fun hmem => (h.mem_iff i).mp hmem hidle
    refine ⟨?_, ?_, ?_⟩
    · rw [hcalls]
      exact List.nodup_append.mpr ⟨h.nodup, List.nodup_singleton i, by
        intro a ha hb
        rw [List.mem_singleton.mp hb] at ha
        exact hnotin ha⟩
    · intro j
      rw [hcalls, hpc, List.mem_append, List.mem_singleton]
      by_cases hj : j = i
      · subst hj
        simp
      · simp only [hj, if_false, or_false]
        exact h.mem_iff j
    · intro j hj
      rw [hpc]
      have hji : j ≠ i := by omega
      simp only [hji, if_false]
      exact h.outside_idle j hj
  · refine ⟨?_, ?_, ?_⟩
    · rw [hcalls]
      exact h.nodup
    · intro j
      rw [hcalls, hpc]
      by_cases hj : j = i
      · subst hj
        simp only [if_true]
        exact ⟨fun _ => hp, fun _ => (h.mem_iff j).mpr hnot⟩
      · simp only [hj, if_false]
        exact h.mem_iff j
    · intro j hj
      rw [hpc]
      have hji : j ≠ i := by omega
      simp only [hji, if_false]
      exact h.outside_idle j hj

/-- A step of the fan-out with the record: the shared state makes a step of `step`, and
the record grows by the invocation of the goroutine exactly when the goroutine is listed as
having issued its call. -/
theorem stepTraced_grows {β : Type}
    {call : Nat → List godaddy.Invocation → Plan β × List godaddy.Invocation}
    {inv : Nat → godaddy.Invocation} {n : Nat}
    (hcall : ∀ i, i < n → ∀ log, (call i log).2 = log ++ [inv i])
    {st st2 : Traced β} {i : Nat} (hs : stepTraced call n st i = some st2) :
    server.step st.plans n st.shared i = some st2.shared ∧
    ∃ rest : List Nat, st2.shared.calls = st.shared.calls ++ rest ∧
      st2.log = st.log ++ rest.map inv := by
  unfold stepTraced at hs
  cases h1 : server.step st.plans n st.shared i with
  | none =>
    rw [h1] at hs
    cases hs
  | some s2 =>
    rw [h1] at hs
    obtain ⟨hi, hc⟩ := step_cases h1
    rcases hc with ⟨hidle, hcalls, hpc⟩ | ⟨hnot, hcalls, p, hp, hpc⟩
    · rw [hidle] at hs
      simp only [Option.some.injEq] at hs
      subst hs
      exact ⟨rfl, [i], hcalls, by simp [hcall i hi]⟩
    · have hst2 : st2 = { st with shared := s2 } := by
        cases hpc2 : st.shared.pc i with
        | idle => exact absurd hpc2 hnot
        | calling => rw [hpc2] at hs; simp only [Option.some.injEq] at hs; exact hs.symm
        | called => rw [hpc2] at hs; simp only [Option.some.injEq] at hs; exact hs.symm
        | locked => rw [hpc2] at hs; simp only [Option.some.injEq] at hs; exact hs.symm
        | read snap => rw [hpc2] at hs; simp only [Option.some.injEq] at hs; exact hs.symm
        | written => rw [hpc2] at hs; simp only [Option.some.injEq] at hs; exact hs.symm
        | done => rw [hpc2] at hs; simp only [Option.some.injEq] at hs; exact hs.symm
      subst hst2
      exact ⟨rfl, [], by simp [hcalls], by simp⟩

/-- Over any turns the invariant of the issued calls is kept, and the record grows by the
invocations of the goroutines that issue their call, in the order in which they do. -/
theorem runTraced_grows {β : Type}
    {call : Nat → List godaddy.Invocation → Plan β × List godaddy.Invocation}
    {inv : Nat → godaddy.Invocation} {n : Nat}
    (hcall : ∀ i, i < n → ∀ log, (call i log).2 = log ++ [inv i])
    (turns : List Nat) (st : Traced β) (h : CallsInv n st.shared) :
    CallsInv n (runTraced call n st turns).shared ∧
    ∃ rest : List Nat,
      (runTraced call n st turns).shared.calls = st.shared.calls ++ rest ∧
      (runTraced call n st turns).log = st.log ++ rest.map inv := by
  induction turns generalizing st with
  | nil => exact ⟨h, [], by simp [runTraced], by simp [runTraced]⟩
  | cons i rest ih =>
    unfold runTraced
    cases hs : stepTraced call n st i with
    | none => exact ih st h
    | some st2 =>
      obtain ⟨hstep, r1, hc1, hl1⟩ := stepTraced_grows hcall hs
      obtain ⟨hinv, r2, hc2, hl2⟩ := ih st2 (CallsInv.calls_step h hstep)
      refine ⟨hinv, r1 ++ r2, ?_, ?_⟩
      · simp only [hc2, hc1, List.append_assoc]
      · simp only [hl2, hl1, List.map_append, List.append_assoc]

/-- `allDone` says that each of the `n` goroutines has returned. -/
theorem allDone_iff {β : Type} (n : Nat) (s : Shared β) :
    allDone n s = true ↔ ∀ i, i < n → s.pc i = .done := by
  unfold allDone
  rw [List.all_eq_true]
  constructor
  · intro h i hi
    have := h i (List.mem_range.mpr hi)
    cases hpc : s.pc i <;> simp [hpc, PC.isDone] at this ⊢
  · intro h i hi
    rw [h i (List.mem_range.mp hi)]
    rfl

/-- When all goroutines have returned, the goroutines listed as having issued their call
are the `n` goroutines, each once. -/
theorem CallsInv.perm_range {β : Type} {n : Nat} {s : Shared β} (h : CallsInv n s)
    (hdone : allDone n s = true) : s.calls.Perm (List.range n) := by
  rw [List.perm_ext_iff_of_nodup h.nodup (List.nodup_range n)]
  intro i
  rw [h.mem_iff i, List.mem_range]
  constructor
  · intro hne
    by_contra hlt
    exact hne (h.outside_idle i (by omega))
  · intro hlt
    rw [(allDone_iff n s).mp hdone i hlt]
    simp

end server

namespace server

/-- The state after a first turn and the rest. -/
theorem runTraced_cons {β : Type}
    (call : Nat → List godaddy.Invocation → Plan β × List godaddy.Invocation) (n : Nat)
    (i : Nat) (rest : List Nat) (st : Traced β) :
    runTraced call n st (i :: rest)
      = match stepTraced call n st i with
        | some st2 => runTraced call n st2 rest
        | none => runTraced call n st rest := rfl

/-- Running first the turns `t1` and then the turns `t2`. -/
theorem runTraced_append {β : Type}
    (call : Nat → List godaddy.Invocation → Plan β × List godaddy.Invocation) (n : Nat)
    (t1 t2 : List Nat) (st : Traced β) :
    runTraced call n st (t1 ++ t2) = runTraced call n (runTraced call n st t1) t2 := by
  induction t1 generalizing st with
  | nil => rfl
  | cons i rest ih =>
    rw [List.cons_append, runTraced_cons, runTraced_cons]
    cases hs : stepTraced call n st i with
    | none => exact ih st
    | some st2 => exact ih st2

/-- Six turns take a goroutine that has not yet called to its end when the mutex is free,
leave the mutex free and move no other goroutine. -/
theorem runTraced_six {β : Type}
    (call : Nat → List godaddy.Invocation → Plan β × List godaddy.Invocation) (n : Nat)
    (st : Traced β) (i : Nat) (hi : i < n) (hpc : st.shared.pc i = .idle)
    (hm : st.shared.mutex = none) :
    (runTraced call n st (List.replicate 6 i)).shared.mutex = none ∧
    (runTraced call n st (List.replicate 6 i)).shared.pc i = .done ∧
    ∀ j, j ≠ i → (runTraced call n st (List.replicate 6 i)).shared.pc j = st.shared.pc j := by
  cases hP : (call i st.log).1 with
  | fail e =>
    simp [List.replicate, runTraced, stepTraced, step, Shared.setPC, hi, hpc, hm, hP]
    intro j hj
    simp [hj]
  | skip =>
    simp [List.replicate, runTraced, stepTraced, step, Shared.setPC, hi, hpc, hm, hP]
    intro j hj
    simp [hj]
  | append items =>
    simp [List.replicate, runTraced, stepTraced, step, Shared.setPC, hi, hpc, hm, hP]
    intro j hj
    simp [hj]

end server

namespace server

/-- After the turns that run the first `k` goroutines one after the other, these have
returned, the others have not yet called, and the mutex is free. -/
theorem runTraced_sequential_upto {β : Type}
    (call : Nat → List godaddy.Invocation → Plan β × List godaddy.Invocation) (n : Nat)
    (log : List godaddy.Invocation) (k : Nat) (hk : k ≤ n) :
    (runTraced call n (Traced.init log)
        ((List.range k).flatMap (fun i => List.replicate 6 i))).shared.mutex = none ∧
    (∀ i, i < k → (runTraced call n (Traced.init log)
        ((List.range k).flatMap (fun i => List.replicate 6 i))).shared.pc i = .done) ∧
    (∀ i, k ≤ i → (runTraced call n (Traced.init log)
        ((List.range k).flatMap (fun i => List.replicate 6 i))).shared.pc i = .idle) := by
  induction k with
  | zero =>
    refine ⟨rfl, fun i hi => by omega, fun i _ => rfl⟩
  | succ k ih =>
    obtain ⟨hm, hdone, hidle⟩ := ih (by omega)
    rw [List.range_succ, List.flatMap_append, runTraced_append]
    simp only [List.flatMap_cons, List.flatMap_nil, List.append_nil]
    obtain ⟨h1, h2, h3⟩ := runTraced_six call n
      (runTraced call n (Traced.init log)
        ((List.range k).flatMap (fun i => List.replicate 6 i))) k (by omega)
      (hidle k (Nat.le_refl k)) hm
    refine ⟨h1, ?_, ?_⟩
    · intro i hi
      by_cases hik : i = k
      · subst hik
        exact h2
      · rw [h3 i hik]
        exact hdone i (by omega)
    · intro i hi
      rw [h3 i (by omega)]
      exact hidle i (by omega)

/-- The turns `sequentialTurns n` let all `n` goroutines return. -/
theorem allDone_sequential {β : Type}
    (call : Nat → List godaddy.Invocation → Plan β × List godaddy.Invocation) (n : Nat)
    (log : List godaddy.Invocation) :
    allDone n (runTraced call n (Traced.init log) (sequentialTurns n)).shared = true := by
  rw [allDone_iff]
  exact (runTraced_sequential_upto call n log n (Nat.le_refl n)).2.1

/-- Listing, for the positions of a list in order, the image of the element at each
position gives the images of the elements. -/
theorem map_range_get {α γ : Type} (l : List α) (f : α → γ) (d : γ) :
    (List.range l.length).map
        (fun i => (l.get? i).elim d f)
      = l.map f := by
  apply List.ext_getElem
  · simp
  · intro i h1 h2
    simp only [List.getElem_map, List.getElem_range, List.get?_eq_getElem?]
    have hi : i < l.length := by simpa using h2
    rw [List.getElem?_eq_getElem hi]
    rfl

end server

namespace server

/-- When all goroutines have returned, the record has grown by the invocations of the `n`
goroutines, each once, in the order in which they issued their call. -/
theorem runTraced_perm {β : Type}
    {call : Nat → List godaddy.Invocation → Plan β × List godaddy.Invocation}
    {inv : Nat → godaddy.Invocation} {n : Nat}
    (hcall : ∀ i, i < n → ∀ log, (call i log).2 = log ++ [inv i])
    (log : List godaddy.Invocation) (turns : List Nat)
    (hdone : allDone n (runTraced call n (Traced.init log) turns).shared = true) :
    ∃ order : List Nat, order.Perm (List.range n) ∧
      (runTraced call n (Traced.init log) turns).log = log ++ order.map inv := by
  obtain ⟨hinv, rest, hc, hl⟩ :=
    runTraced_grows hcall turns (Traced.init log) (CallsInv.calls_init n)
  refine ⟨rest, ?_, hl⟩
  have hrest : (runTraced call n (Traced.init log) turns).shared.calls = rest := by
    rw [hc]
    rfl
  rw [← hrest]
  exact hinv.perm_range hdone

/-- A goroutine that has not yet issued its call after the turns `turns1` issues it in the
turns that follow, when after these all goroutines have returned. -/
theorem runTraced_late_call {β : Type}
    {call : Nat → List godaddy.Invocation → Plan β × List godaddy.Invocation}
    {inv : Nat → godaddy.Invocation} {n : Nat}
    (hcall : ∀ i, i < n → ∀ log, (call i log).2 = log ++ [inv i])
    (log : List godaddy.Invocation) (turns1 turns2 : List Nat) (j : Nat) (hj : j < n)
    (hidle : (runTraced call n (Traced.init log) turns1).shared.pc j = .idle)
    (hdone : allDone n (runTraced call n (Traced.init log) (turns1 ++ turns2)).shared = true) :
    ∃ rest : List Nat, j ∈ rest ∧
      (runTraced call n (Traced.init log) (turns1 ++ turns2)).log
        = (runTraced call n (Traced.init log) turns1).log ++ rest.map inv := by
  obtain ⟨hinv1, -, -, -⟩ :=
    runTraced_grows hcall turns1 (Traced.init log) (CallsInv.calls_init n)
  rw [runTraced_append] at hdone ⊢
  obtain ⟨hinv2, rest, hc, hl⟩ :=
    runTraced_grows hcall turns2 (runTraced call n (Traced.init log) turns1) hinv1
  refine ⟨rest, ?_, hl⟩
  have hnot : j ∉ (runTraced call n (Traced.init log) turns1).shared.calls :=
    fun hmem => (hinv1.mem_iff j).mp hmem hidle
  have hmem : j ∈ (runTraced call n (runTraced call n (Traced.init log) turns1)
      turns2).shared.calls := by
    rw [hinv2.mem_iff j, (allDone_iff n _).mp hdone j hj]
    simp
  rw [hc, List.mem_append] at hmem
  exact hmem.resolve_left hnot

/-- The turn of a goroutine that has not yet issued its call is its call. -/
theorem runTraced_turn_idle {β : Type}
    (call : Nat → List godaddy.Invocation → Plan β × List godaddy.Invocation) (n : Nat)
    (st : Traced β) (j : Nat) (hj : j < n) (hidle : st.shared.pc j = .idle) :
    (runTraced call n st [j]).log = (call j st.log).2 := by
  simp [runTraced, stepTraced, step, hj, hidle]

/-- The call of the `i`-th goroutine of `/list-dns` leaves the invocation of
`GetDNSRecords` for the `i`-th record type on the record. -/
theorem listDNSCalls_log (godaddyService : godaddy.Interface) (domain : String) (i : Nat)
    (hi : i < godaddy.DNSTypes.length) (log : List godaddy.Invocation) :
    (listDNSCalls godaddyService domain i log).2
      = log ++ [(godaddy.DNSTypes.get? i).elim godaddy.Invocation.ListTLDs
          (godaddy.Invocation.GetDNSRecords domain)] := by
  unfold listDNSCalls
  rw [List.get?_eq_getElem?, List.getElem?_eq_getElem hi]
  simp only [godaddy.Interface.invokeGetDNSRecords, Option.elim]
  split <;> rfl

/-- The call of the `i`-th goroutine of `/domain-suggest` leaves the invocation of
`GetDomainAvailabilityAndPrice` for the `i`-th candidate on the record. -/
theorem domainSuggestCalls_log (godaddyService : godaddy.Interface) (sDomains : List String)
    (i : Nat) (hi : i < sDomains.length) (log : List godaddy.Invocation) :
    (domainSuggestCalls godaddyService sDomains i log).2
      = log ++ [(sDomains.get? i).elim godaddy.Invocation.ListTLDs
          godaddy.Invocation.GetDomainAvailabilityAndPrice] := by
  unfold domainSuggestCalls
  rw [List.get?_eq_getElem?, List.getElem?_eq_getElem hi]
  simp only [godaddy.Interface.invokeGetDomainAvailabilityAndPrice, Option.elim]
  split
  · rfl
  · split <;> rfl

/-- The handler of `/list-dns` answers exactly when all its goroutines have returned, and
the invocations of its outcome are those on the record of its goroutines. -/
theorem listDNSInterleaved_some (J : Lib) (godaddyService : godaddy.Interface)
    (turns : List Nat) (r : Request) (req : domainRequest)
    (hdec : J.DecodeDomain r.Body = .ok req) :
    (allDone godaddy.DNSTypes.length
        (runTraced (listDNSCalls godaddyService req.Domain) godaddy.DNSTypes.length
          (Traced.init []) turns).shared = true →
      ∃ out, listDNSInterleaved J godaddyService turns r = some out) ∧
    ∀ out, listDNSInterleaved J godaddyService turns r = some out →
      allDone godaddy.DNSTypes.length
        (runTraced (listDNSCalls godaddyService req.Domain) godaddy.DNSTypes.length
          (Traced.init []) turns).shared = true ∧
      out.calls = (runTraced (listDNSCalls godaddyService req.Domain)
        godaddy.DNSTypes.length (Traced.init []) turns).log := by
  unfold listDNSInterleaved listDNSFanOut
  simp only [hdec]
  constructor
  · intro hdone
    rw [if_pos hdone]
    split
    · exact ⟨_, rfl⟩
    · split
      · exact ⟨_, rfl⟩
      · exact ⟨_, rfl⟩
  · intro out hout
    by_cases hdone : allDone godaddy.DNSTypes.length
        (runTraced (listDNSCalls godaddyService req.Domain) godaddy.DNSTypes.length
          (Traced.init []) turns).shared = true
    · rw [if_pos hdone] at hout
      refine ⟨hdone, ?_⟩
      split at hout
      · simp only [Option.some.injEq] at hout
        rw [← hout]
      · split at hout
        · simp only [Option.some.injEq] at hout
          rw [← hout]
        · simp only [Option.some.injEq] at hout
          rw [← hout]
    · rw [if_neg hdone] at hout
      cases hout

/-- The handler of `/domain-suggest`, once the suggestions `sDomains` are obtained,
answers exactly when all its goroutines have returned, and the invocations of its outcome
are those on the record of its goroutines. -/
theorem domainSuggestInterleaved_some (J : Lib) (godaddyService : godaddy.Interface)
    (turns : List Nat) (r : Request) (req : domainRequest) (sDomains : List String)
    (hdec : J.DecodeDomain r.Body = .ok req)
    (hsug : godaddyService.GetDomainSuggestions req.Domain = (sDomains, none)) :
    (allDone sDomains.length
        (runTraced (domainSuggestCalls godaddyService sDomains) sDomains.length
          (Traced.init [godaddy.Invocation.GetDomainSuggestions req.Domain])
          turns).shared = true →
      ∃ out, domainSuggestInterleaved J godaddyService turns r = some out) ∧
    ∀ out, domainSuggestInterleaved J godaddyService turns r = some out →
      allDone sDomains.length
        (runTraced (domainSuggestCalls godaddyService sDomains) sDomains.length
          (Traced.init [godaddy.Invocation.GetDomainSuggestions req.Domain])
          turns).shared = true ∧
      out.calls = (runTraced (domainSuggestCalls godaddyService sDomains) sDomains.length
        (Traced.init [godaddy.Invocation.GetDomainSuggestions req.Domain]) turns).log := by
  unfold domainSuggestInterleaved domainSuggestFanOut
  simp only [hdec, godaddy.Interface.invokeGetDomainSuggestions, hsug, List.nil_append]
  constructor
  · intro hdone
    rw [if_pos hdone]
    split
    · exact ⟨_, rfl⟩
    · exact ⟨_, rfl⟩
  · intro out hout
    by_cases hdone : allDone sDomains.length
        (runTraced (domainSuggestCalls godaddyService sDomains) sDomains.length
          (Traced.init [godaddy.Invocation.GetDomainSuggestions req.Domain])
          turns).shared = true
    · rw [if_pos hdone] at hout
      refine ⟨hdone, ?_⟩
      split at hout
      · simp only [Option.some.injEq] at hout
        rw [← hout]
      · simp only [Option.some.injEq] at hout
        rw [← hout]
    · rw [if_neg hdone] at hout
      cases hout

end server

namespace server

/-- A step reads the plan of the goroutine only after the goroutine has called. -/
theorem step_congr {β : Type} {plan1 plan2 : Nat → Plan β} {n : Nat} {s : Shared β} {i : Nat}
    (h : s.pc i ≠ .idle → plan1 i = plan2 i) : step plan1 n s i = step plan2 n s i := by
  unfold step
  by_cases hi : i < n
  · rw [if_pos hi, if_pos hi]
    cases hpc : s.pc i with
    | idle => rfl
    | calling => rfl
    | called => rw [h (by simp [hpc])]
    | locked => rfl
    | read snap => rw [h (by simp [hpc])]
    | written => rfl
    | done => rfl
  · rw [if_neg hi, if_neg hi]

/-- The plan that the call of a goroutine of `/list-dns` gives it is the plan of
`listDNSPlans`. -/
theorem listDNSCalls_plan (godaddyService : godaddy.Interface) (domain : String) (i : Nat)
    (log : List godaddy.Invocation) :
    (listDNSCalls godaddyService domain i log).1 = listDNSPlans godaddyService domain i := by
  unfold listDNSCalls listDNSPlans listDNSPlan
  cases godaddy.DNSTypes.get? i with
  | none => rfl
  | some t =>
    simp only [godaddy.Interface.invokeGetDNSRecords]
    split <;> rfl

/-- The plan that the call of a goroutine of `/domain-suggest` gives it is the plan of
`domainSuggestPlans`. -/
theorem domainSuggestCalls_plan (godaddyService : godaddy.Interface)
    (sDomains : List String) (i : Nat) (log : List godaddy.Invocation) :
    (domainSuggestCalls godaddyService sDomains i log).1
      = domainSuggestPlans godaddyService sDomains i := by
  unfold domainSuggestCalls domainSuggestPlans domainSuggestPlan
  cases sDomains.get? i with
  | none => rfl
  | some d =>
    simp only [godaddy.Interface.invokeGetDomainAvailabilityAndPrice]
    split
    · rfl
    · split <;> rfl

/-- The shared state of the fan-out with the record is the shared state of the goroutines
run by `run` with the plans their calls give them, and the goroutines that have called
have the plan their call gave them. -/
theorem runTraced_shared_plans {β : Type}
    {call : Nat → List godaddy.Invocation → Plan β × List godaddy.Invocation}
    {plan : Nat → Plan β} (n : Nat)
    (hplan : ∀ i log, (call i log).1 = plan i)
    (turns : List Nat) (st : Traced β)
    (hst : ∀ i, st.shared.pc i ≠ .idle → st.plans i = plan i) :
    (runTraced call n st turns).shared = run plan n st.shared turns ∧
    ∀ i, (runTraced call n st turns).shared.pc i ≠ .idle →
      (runTraced call n st turns).plans i = plan i := by
  induction turns generalizing st with
  | nil => exact ⟨rfl, hst⟩
  | cons i rest ih =>
    rw [runTraced_cons]
    unfold run
    have hc : step st.plans n st.shared i = step plan n st.shared i := step_congr (hst i)
    cases h1 : step st.plans n st.shared i with
    | none =>
      have h2 : stepTraced call n st i = none := by
        unfold stepTraced
        rw [h1]
      rw [h2, ← hc, h1]
      exact ih st hst
    | some s2 =>
      rw [← hc, h1]
      obtain ⟨-, hcase⟩ := step_cases h1
      rcases hcase with ⟨hidle, -, hpc⟩ | ⟨hnot, -, p, -, hpc⟩
      · have h2 : stepTraced call n st i
            = some { shared := s2
                     plans := fun j => if j = i then (call i st.log).1 else st.plans j
                     log := (call i st.log).2 } := by
          unfold stepTraced
          rw [h1, hidle]
        rw [h2]
        refine ih _ ?_
        intro k hk
        by_cases hki : k = i
        · subst hki
          simp only [if_true]
          exact hplan k st.log
        · simp only [hki, if_false]
          refine hst k ?_
          rw [hpc] at hk
          simpa [hki] using hk
      · have h2 : stepTraced call n st i = some { st with shared := s2 } := by
          unfold stepTraced
          rw [h1]
          cases hpc2 : st.shared.pc i with
          | idle => exact absurd hpc2 hnot
          | calling => rfl
          | called => rfl
          | locked => rfl
          | read snap => rfl
          | written => rfl
          | done => rfl
        rw [h2]
        refine ih _ ?_
        intro k _
        by_cases hki : k = i
        · subst hki
          exact hst k hnot
        · refine hst k ?_
          intro hk2
          have : s2.pc k = .idle := by
            rw [hpc]
            simp [hki, hk2]
          contradiction

/-- The shared state of the fan-out with the record is the shared state of the goroutines
run by `run` with the plans their calls give them. -/
theorem runTraced_shared {β : Type}
    {call : Nat → List godaddy.Invocation → Plan β × List godaddy.Invocation}
    {plan : Nat → Plan β} (n : Nat)
    (hplan : ∀ i log, (call i log).1 = plan i)
    (turns : List Nat) (st : Traced β)
    (hst : ∀ i, st.shared.pc i ≠ .idle → st.plans i = plan i) :
    (runTraced call n st turns).shared = run plan n st.shared turns :=
  (runTraced_shared_plans n hplan turns st hst).1

/-- The shared state of the goroutines of `/list-dns` in the fan-out with the record is
their shared state under `run` with the plans `listDNSPlans`. -/
theorem listDNS_traced_shared (godaddyService : godaddy.Interface) (domain : String)
    (log : List godaddy.Invocation) (turns : List Nat) :
    (runTraced (listDNSCalls godaddyService domain) godaddy.DNSTypes.length
        (Traced.init log) turns).shared
      = run (listDNSPlans godaddyService domain) godaddy.DNSTypes.length Shared.init turns :=
  runTraced_shared godaddy.DNSTypes.length (listDNSCalls_plan godaddyService domain) turns
    (Traced.init log) (fun _ h => absurd rfl h)

/-- The shared state of the goroutines of `/domain-suggest` in the fan-out with the record
is their shared state under `run` with the plans `domainSuggestPlans`. -/
theorem domainSuggest_traced_shared (godaddyService : godaddy.Interface)
    (sDomains : List String) (log : List godaddy.Invocation) (turns : List Nat) :
    (runTraced (domainSuggestCalls godaddyService sDomains) sDomains.length
        (Traced.init log) turns).shared
      = run (domainSuggestPlans godaddyService sDomains) sDomains.length Shared.init turns :=
  runTraced_shared sDomains.length (domainSuggestCalls_plan godaddyService sDomains) turns
    (Traced.init log) (fun _ h => absurd rfl h)

end server

namespace server

/-- Three turns take the goroutine that holds the mutex to its end and free the mutex,
moving no other goroutine. -/
theorem runTraced_release {β : Type}
    (call : Nat → List godaddy.Invocation → Plan β × List godaddy.Invocation) (n : Nat)
    (st : Traced β) (h : Nat) (hh : h < n) (items : List β)
    (hplan : st.plans h = .append items) (hholds : (st.shared.pc h).holds = true) :
    (runTraced call n st [h, h, h]).shared.mutex = none ∧
    (runTraced call n st [h, h, h]).shared.pc h = .done ∧
    ∀ j, j ≠ h → (runTraced call n st [h, h, h]).shared.pc j = st.shared.pc j := by
  cases hpc : st.shared.pc h with
  | idle => simp [hpc, PC.holds] at hholds
  | calling => simp [hpc, PC.holds] at hholds
  | called => simp [hpc, PC.holds] at hholds
  | done => simp [hpc, PC.holds] at hholds
  | locked =>
    simp [runTraced, stepTraced, step, Shared.setPC, hh, hpc, hplan]
    intro j hj
    simp [hj]
  | read snap =>
    simp [runTraced, stepTraced, step, Shared.setPC, hh, hpc, hplan]
    intro j hj
    simp [hj]
  | written =>
    simp [runTraced, stepTraced, step, Shared.setPC, hh, hpc, hplan]
    intro j hj
    simp [hj]

/-- Six turns take a goroutine that does not hold the mutex to its end when the mutex is
free, leave the mutex free and move no other goroutine. -/
theorem runTraced_six_any {β : Type}
    (call : Nat → List godaddy.Invocation → Plan β × List godaddy.Invocation) (n : Nat)
    (st : Traced β) (i : Nat) (hi : i < n) (hm : st.shared.mutex = none)
    (hnh : (st.shared.pc i).holds = false) :
    (runTraced call n st (List.replicate 6 i)).shared.mutex = none ∧
    (runTraced call n st (List.replicate 6 i)).shared.pc i = .done ∧
    ∀ j, j ≠ i → (runTraced call n st (List.replicate 6 i)).shared.pc j = st.shared.pc j := by
  cases hpc : st.shared.pc i with
  | idle => exact runTraced_six call n st i hi hpc hm
  | locked => simp [hpc, PC.holds] at hnh
  | read snap => simp [hpc, PC.holds] at hnh
  | written => simp [hpc, PC.holds] at hnh
  | done =>
    simp [List.replicate, runTraced, stepTraced, step, Shared.setPC, hi, hpc, hm]
  | calling =>
    cases hP : st.plans i with
    | fail e =>
      simp [List.replicate, runTraced, stepTraced, step, Shared.setPC, hi, hpc, hm, hP]
      intro j hj
      simp [hj]
    | skip =>
      simp [List.replicate, runTraced, stepTraced, step, Shared.setPC, hi, hpc, hm, hP]
      intro j hj
      simp [hj]
    | append items =>
      simp [List.replicate, runTraced, stepTraced, step, Shared.setPC, hi, hpc, hm, hP]
      intro j hj
      simp [hj]
  | called =>
    cases hP : st.plans i with
    | fail e =>
      simp [List.replicate, runTraced, stepTraced, step, Shared.setPC, hi, hpc, hm, hP]
      intro j hj
      simp [hj]
    | skip =>
      simp [List.replicate, runTraced, stepTraced, step, Shared.setPC, hi, hpc, hm, hP]
      intro j hj
      simp [hj]
    | append items =>
      simp [List.replicate, runTraced, stepTraced, step, Shared.setPC, hi, hpc, hm, hP]
      intro j hj
      simp [hj]

/-- From a state in which the mutex is free and no goroutine is in the guarded section, the
turns that run the first `k` goroutines one after the other take these to their end and
move no other goroutine. -/
theorem runTraced_sequential_from {β : Type}
    (call : Nat → List godaddy.Invocation → Plan β × List godaddy.Invocation) (n : Nat)
    (st : Traced β) (hm : st.shared.mutex = none)
    (hnh : ∀ i, (st.shared.pc i).holds = false) (k : Nat) (hk : k ≤ n) :
    (runTraced call n st
        ((List.range k).flatMap (fun i => List.replicate 6 i))).shared.mutex = none ∧
    (∀ i, i < k → (runTraced call n st
        ((List.range k).flatMap (fun i => List.replicate 6 i))).shared.pc i = .done) ∧
    (∀ i, k ≤ i → (runTraced call n st
        ((List.range k).flatMap (fun i => List.replicate 6 i))).shared.pc i
          = st.shared.pc i) := by
  induction k with
  | zero =>
    refine ⟨hm, fun i hi => by omega, fun i _ => rfl⟩
  | succ k ih =>
    obtain ⟨hm2, hdone, hsame⟩ := ih (by omega)
    rw [List.range_succ, List.flatMap_append, runTraced_append]
    simp only [List.flatMap_cons, List.flatMap_nil, List.append_nil]
    obtain ⟨h1, h2, h3⟩ := runTraced_six_any call n
      (runTraced call n st ((List.range k).flatMap (fun i => List.replicate 6 i))) k
      (by omega) hm2 (by rw [hsame k (Nat.le_refl k)]; exact hnh k)
    refine ⟨h1, ?_, ?_⟩
    · intro i hi
      by_cases hik : i = k
      · subst hik
        exact h2
      · rw [h3 i hik]
        exact hdone i (by omega)
    · intro i hi
      rw [h3 i (by omega)]
      exact hsame i (by omega)

/-- The goroutines never block each other for good: whatever turns they have been given,
there are further turns after which all of them have returned. -/
theorem runTraced_completes {β : Type}
    {call : Nat → List godaddy.Invocation → Plan β × List godaddy.Invocation}
    {plan : Nat → Plan β} (n : Nat) (hplan : ∀ i log, (call i log).1 = plan i)
    (log : List godaddy.Invocation) (turns1 : List Nat) :
    ∃ turns2 : List Nat,
      allDone n (runTraced call n (Traced.init log) (turns1 ++ turns2)).shared = true := by
  obtain ⟨hshared, hplans⟩ :=
    runTraced_shared_plans n hplan turns1 (Traced.init log) (fun _ h => absurd rfl h)
  have hI : Inv plan n (runTraced call n (Traced.init log) turns1).shared := by
    rw [hshared]
    exact Inv.run turns1 _ (Inv.init plan n)
  cases hm : (runTraced call n (Traced.init log) turns1).shared.mutex with
  | none =>
    have hnh : ∀ i, ((runTraced call n (Traced.init log) turns1).shared.pc i).holds
        = false := by
      intro i
      cases hb : ((runTraced call n (Traced.init log) turns1).shared.pc i).holds with
      | false => rfl
      | true =>
        have := (hI.mutex_iff i).mpr hb
        rw [hm] at this
        cases this
    refine ⟨sequentialTurns n, ?_⟩
    rw [runTraced_append, allDone_iff]
    exact (runTraced_sequential_from call n _ hm hnh n (Nat.le_refl n)).2.1
  | some h =>
    have hholds : ((runTraced call n (Traced.init log) turns1).shared.pc h).holds = true :=
      (hI.mutex_iff h).mp hm
    have hh : h < n := by
      by_contra hge
      rw [hI.outside_idle h (by omega)] at hholds
      cases hholds
    have hne : (runTraced call n (Traced.init log) turns1).shared.pc h ≠ .idle := by
      intro hidle
      rw [hidle] at hholds
      cases hholds
    have happ := hI.holder_appends h hholds
    obtain ⟨items, hitems⟩ : ∃ items, plan h = .append items := by
      cases hp : plan h with
      | fail e => rw [hp] at happ; cases happ
      | skip => rw [hp] at happ; cases happ
      | append items => exact ⟨items, rfl⟩
    obtain ⟨h1, h2, h3⟩ := runTraced_release call n
      (runTraced call n (Traced.init log) turns1) h hh items
      ((hplans h hne).trans hitems) hholds
    have hnh : ∀ i, ((runTraced call n (runTraced call n (Traced.init log) turns1)
        [h, h, h]).shared.pc i).holds = false := by
      intro i
      by_cases hih : i = h
      · subst hih
        rw [h2]
        rfl
      · rw [h3 i hih]
        cases hb : ((runTraced call n (Traced.init log) turns1).shared.pc i).holds with
        | false => rfl
        | true =>
          have := (hI.mutex_iff i).mpr hb
          rw [hm] at this
          simp only [Option.some.injEq] at this
          exact absurd this.symm hih
    refine ⟨[h, h, h] ++ sequentialTurns n, ?_⟩
    rw [runTraced_append, runTraced_append, allDone_iff]
    exact (runTraced_sequential_from call n _ h1 hnh n (Nat.le_refl n)).2.1

end server

namespace server

/-- The handler of `/list-dns` never waits for good: whatever turns its goroutines have
been given, there are further turns after which it answers. -/
theorem listDNSInterleaved_completes (J : Lib) (godaddyService : godaddy.Interface)
    (r : Request) (req : domainRequest) (hdec : J.DecodeDomain r.Body = .ok req)
    (turns1 : List Nat) :
    ∃ (turns2 : List Nat) (out : Outcome),
      listDNSInterleaved J godaddyService (turns1 ++ turns2) r = some out := by
  obtain ⟨turns2, hdone⟩ := runTraced_completes godaddy.DNSTypes.length
    (listDNSCalls_plan godaddyService req.Domain) [] turns1
  obtain ⟨out, hout⟩ :=
    (listDNSInterleaved_some J godaddyService (turns1 ++ turns2) r req hdec).1 hdone
  exact ⟨turns2, out, hout⟩

/-- The handler of `/domain-suggest` never waits for good: once the suggestions are
obtained, whatever turns its goroutines have been given, there are further turns after
which it answers. -/
theorem domainSuggestInterleaved_completes (J : Lib) (godaddyService : godaddy.Interface)
    (r : Request) (req : domainRequest) (sDomains : List String)
    (hdec : J.DecodeDomain r.Body = .ok req)
    (hsug : godaddyService.GetDomainSuggestions req.Domain = (sDomains, none))
    (turns1 : List Nat) :
    ∃ (turns2 : List Nat) (out : Outcome),
      domainSuggestInterleaved J godaddyService (turns1 ++ turns2) r = some out := by
  obtain ⟨turns2, hdone⟩ := runTraced_completes sDomains.length
    (domainSuggestCalls_plan godaddyService sDomains)
    [godaddy.Invocation.GetDomainSuggestions req.Domain] turns1
  obtain ⟨out, hout⟩ :=
    (domainSuggestInterleaved_some J godaddyService (turns1 ++ turns2) r req sDomains hdec
      hsug).1 hdone
  exact ⟨turns2, out, hout⟩

end server

namespace server

/-- Whatever the turns that lead the handler of `/list-dns` to its answer, the invocations
on record are those of `GetDNSRecords` for the 8 record types, each once. -/
theorem listDNSInterleaved_perm (J : Lib) (godaddyService : godaddy.Interface)
    (turns : List Nat) (r : Request) (req : domainRequest)
    (hdec : J.DecodeDomain r.Body = .ok req) (out : Outcome)
    (hout : listDNSInterleaved J godaddyService turns r = some out) :
    out.calls.Perm (["A", "AAAA", "CNAME", "MX", "NS", "SOA", "SRV", "TXT"].map
      (godaddy.Invocation.GetDNSRecords req.Domain)) := by
  obtain ⟨hdone, hcalls⟩ :=
    (listDNSInterleaved_some J godaddyService turns r req hdec).2 out hout
  obtain ⟨order, hperm, hlog⟩ :=
    runTraced_perm (listDNSCalls_log godaddyService req.Domain) [] turns hdone
  rw [hcalls, hlog, List.nil_append]
  have h2 := hperm.map (fun i => (godaddy.DNSTypes.get? i).elim godaddy.Invocation.ListTLDs
    (godaddy.Invocation.GetDNSRecords req.Domain))
  have h3 := map_range_get godaddy.DNSTypes
    (godaddy.Invocation.GetDNSRecords req.Domain) godaddy.Invocation.ListTLDs
  exact h2.trans (List.Perm.of_eq h3)

/-- The invocations of `GetDNSRecords` for one domain and the 8 record types are 8
different invocations. -/
theorem listDNS_invocations_nodup (domain : String) :
    (["A", "AAAA", "CNAME", "MX", "NS", "SOA", "SRV", "TXT"].map
      (godaddy.Invocation.GetDNSRecords domain)).Nodup :=
  List.Nodup.map (fun a b hab => by injection hab) (by decide)

/-- C15: for every `/list-dns` request with a decodable body naming domain `D`, the
handler answers once its goroutines have been given their turns (the turns that run them
one after the other are enough, and whatever turns they have been given there are further
turns after which it answers), and whatever the turns that lead to an answer, the
invocations of `godaddyService` it has made by then are `GetDNSRecords` with domain `D`
exactly once for each of the 8 record types `A`, `AAAA`, `CNAME`, `MX`, `NS`, `SOA`, `SRV`,
`TXT`, and nothing else: no other record type, no other domain, no other operation. -/
theorem C15_list_dns_calls (J : Lib) (godaddyService : godaddy.Interface) (r : Request)
    (req : domainRequest) (hdec : J.DecodeDomain r.Body = .ok req) :
    (∃ out, listDNSInterleaved J godaddyService (sequentialTurns 8) r = some out) ∧
    (∀ turns : List Nat, ∃ (more : List Nat) (out : Outcome),
      listDNSInterleaved J godaddyService (turns ++ more) r = some out) ∧
    ∀ (turns : List Nat) (out : Outcome),
      listDNSInterleaved J godaddyService turns r = some out →
      out.calls.Perm (["A", "AAAA", "CNAME", "MX", "NS", "SOA", "SRV", "TXT"].map
        (godaddy.Invocation.GetDNSRecords req.Domain)) ∧
      (∀ dnsType : String,
        out.calls.count (godaddy.Invocation.GetDNSRecords req.Domain dnsType)
          = if dnsType ∈ ["A", "AAAA", "CNAME", "MX", "NS", "SOA", "SRV", "TXT"] then 1
            else 0) ∧
      (∀ c, c ∈ out.calls →
        ∃ dnsType, dnsType ∈ ["A", "AAAA", "CNAME", "MX", "NS", "SOA", "SRV", "TXT"] ∧
          c = godaddy.Invocation.GetDNSRecords req.Domain dnsType) := by
  refine ⟨?_, ?_, ?_⟩
  · exact (listDNSInterleaved_some J godaddyService (sequentialTurns 8) r req hdec).1
      (allDone_sequential (listDNSCalls godaddyService req.Domain) 8 [])
  · exact listDNSInterleaved_completes J godaddyService r req hdec
  · intro turns out hout
    have hP := listDNSInterleaved_perm J godaddyService turns r req hdec out hout
    have hinj : Function.Injective (godaddy.Invocation.GetDNSRecords req.Domain) := by
      intro a b hab
      injection hab
    have hnodup := listDNS_invocations_nodup req.Domain
    refine ⟨hP, ?_, ?_⟩
    · intro dnsType
      rw [hP.count_eq, List.count_eq_of_nodup hnodup]
      by_cases hm : dnsType ∈ ["A", "AAAA", "CNAME", "MX", "NS", "SOA", "SRV", "TXT"]
      · rw [if_pos hm, if_pos (List.mem_map_of_mem _ hm)]
      · rw [if_neg hm, if_neg (fun h => hm ((List.mem_map_of_injective hinj).mp h))]
    · intro c hc
      obtain ⟨t, ht, rfl⟩ := List.mem_map.mp (hP.subset hc)
      exact ⟨t, ht, rfl⟩

/-- C15 at the adapter whose `MX` listing fails and the request naming `foo`: the handler
answers; after the turns in which only the goroutine of `MX` has moved there are further
turns after which it answers; and when its goroutines run one after the other from the
last to the first it answers 500 having invoked all 8 listings, each once. -/
theorem C15_list_dns_calls_witness :
    exampleJSON.DecodeDomain fooRequest.Body = .ok { Domain := "foo" } ∧
    (∃ out, listDNSInterleaved exampleJSON failingAdapter (sequentialTurns 8) fooRequest
      = some out) ∧
    (∃ (more : List Nat) (out : Outcome),
      listDNSInterleaved exampleJSON failingAdapter ([3, 3, 3] ++ more) fooRequest
        = some out) ∧
    listDNSInterleaved exampleJSON failingAdapter (sequentialTurns 8).reverse fooRequest
      = some { w := http.Error http.ResponseWriter.fresh "Internal Server Error"
                 http.StatusInternalServerError
               calls := ["TXT", "SRV", "SOA", "NS", "MX", "CNAME", "AAAA", "A"].map
                 (godaddy.Invocation.GetDNSRecords "foo") } ∧
    (["TXT", "SRV", "SOA", "NS", "MX", "CNAME", "AAAA", "A"].map
        (godaddy.Invocation.GetDNSRecords "foo")).Perm
      (["A", "AAAA", "CNAME", "MX", "NS", "SOA", "SRV", "TXT"].map
        (godaddy.Invocation.GetDNSRecords "foo")) ∧
    (∀ dnsType : String,
      (["TXT", "SRV", "SOA", "NS", "MX", "CNAME", "AAAA", "A"].map
          (godaddy.Invocation.GetDNSRecords "foo")).count
          (godaddy.Invocation.GetDNSRecords "foo" dnsType)
        = if dnsType ∈ ["A", "AAAA", "CNAME", "MX", "NS", "SOA", "SRV", "TXT"] then 1
          else 0) ∧
    (∀ c, c ∈ ["TXT", "SRV", "SOA", "NS", "MX", "CNAME", "AAAA", "A"].map
          (godaddy.Invocation.GetDNSRecords "foo") →
      ∃ dnsType, dnsType ∈ ["A", "AAAA", "CNAME", "MX", "NS", "SOA", "SRV", "TXT"] ∧
        c = godaddy.Invocation.GetDNSRecords "foo" dnsType) :=
  ⟨rfl,
   (C15_list_dns_calls exampleJSON failingAdapter fooRequest { Domain := "foo" } rfl).1,
   (C15_list_dns_calls exampleJSON failingAdapter fooRequest { Domain := "foo" } rfl).2.1
     [3, 3, 3],
   by decide,
   (C15_list_dns_calls exampleJSON failingAdapter fooRequest { Domain := "foo" } rfl).2.2
     (sequentialTurns 8).reverse
     { w := http.Error http.ResponseWriter.fresh "Internal Server Error"
         http.StatusInternalServerError
       calls := ["TXT", "SRV", "SOA", "NS", "MX", "CNAME", "AAAA", "A"].map
         (godaddy.Invocation.GetDNSRecords "foo") }
     (by decide)⟩

end server

namespace server

/-- Whatever the turns that lead the handler of `/domain-suggest` to its answer once the
suggestions `sDomains` are obtained, the invocations on record are that of
`GetDomainSuggestions` followed by those of `GetDomainAvailabilityAndPrice` for the
candidates, one for each. -/
theorem domainSuggestInterleaved_perm (J : Lib) (godaddyService : godaddy.Interface)
    (turns : List Nat) (r : Request) (req : domainRequest) (sDomains : List String)
    (hdec : J.DecodeDomain r.Body = .ok req)
    (hsug : godaddyService.GetDomainSuggestions req.Domain = (sDomains, none))
    (out : Outcome) (hout : domainSuggestInterleaved J godaddyService turns r = some out) :
    out.calls.Perm (godaddy.Invocation.GetDomainSuggestions req.Domain ::
      sDomains.map godaddy.Invocation.GetDomainAvailabilityAndPrice) := by
  obtain ⟨hdone, hcalls⟩ :=
    (domainSuggestInterleaved_some J godaddyService turns r req sDomains hdec hsug).2 out
      hout
  obtain ⟨order, hperm, hlog⟩ :=
    runTraced_perm (domainSuggestCalls_log godaddyService sDomains)
      [godaddy.Invocation.GetDomainSuggestions req.Domain] turns hdone
  rw [hcalls, hlog, List.singleton_append]
  have h2 := hperm.map (fun i => (sDomains.get? i).elim godaddy.Invocation.ListTLDs
    godaddy.Invocation.GetDomainAvailabilityAndPrice)
  have h3 := map_range_get sDomains
    godaddy.Invocation.GetDomainAvailabilityAndPrice godaddy.Invocation.ListTLDs
  exact List.Perm.cons _ (h2.trans (List.Perm.of_eq h3))

/-- C22, as stated, fails in both fan-outs.  In `/list-dns` at the adapter whose `MX`
listing fails: after the three turns in which the goroutine of `MX` calls, gets the error
and returns it, the context is cancelled and the goroutine of `A` has not yet issued its
call; at its next turn it issues it, and the handler answers having invoked all 8 listings,
7 of them after the cancellation.  In `/domain-suggest` at the adapter whose check of
`b.com` fails: after the goroutine of `b.com` has returned the error the context is
cancelled, and the goroutine of `a.com` still issues its call. -/
theorem C22_call_after_cancellation :
    ((listDNSFanOut failingAdapter "foo" [3, 3, 3]).shared.cancelled = true ∧
      (listDNSFanOut failingAdapter "foo" [3, 3, 3]).shared.err = some upstreamError ∧
      (listDNSFanOut failingAdapter "foo" [3, 3, 3]).shared.pc 0 = .idle ∧
      (listDNSFanOut failingAdapter "foo" [3, 3, 3]).log
        = [godaddy.Invocation.GetDNSRecords "foo" "MX"] ∧
      (listDNSFanOut failingAdapter "foo" [3, 3, 3, 0]).log
        = [godaddy.Invocation.GetDNSRecords "foo" "MX",
           godaddy.Invocation.GetDNSRecords "foo" "A"] ∧
      (listDNSInterleaved exampleJSON failingAdapter ([3, 3, 3] ++ sequentialTurns 8)
          fooRequest).map Outcome.calls
        = some (["MX", "A", "AAAA", "CNAME", "NS", "SOA", "SRV", "TXT"].map
            (godaddy.Invocation.GetDNSRecords "foo"))) ∧
    ((domainSuggestFanOut failingAdapter ["a.com", "b.com"]
        [godaddy.Invocation.GetDomainSuggestions "foo"] [1, 1, 1]).shared.cancelled = true ∧
      (domainSuggestFanOut failingAdapter ["a.com", "b.com"]
        [godaddy.Invocation.GetDomainSuggestions "foo"] [1, 1, 1]).shared.err
        = some upstreamError ∧
      (domainSuggestFanOut failingAdapter ["a.com", "b.com"]
        [godaddy.Invocation.GetDomainSuggestions "foo"] [1, 1, 1]).shared.pc 0 = .idle ∧
      (domainSuggestFanOut failingAdapter ["a.com", "b.com"]
        [godaddy.Invocation.GetDomainSuggestions "foo"] [1, 1, 1]).log
        = [godaddy.Invocation.GetDomainSuggestions "foo",
           godaddy.Invocation.GetDomainAvailabilityAndPrice "b.com"] ∧
      (domainSuggestFanOut failingAdapter ["a.com", "b.com"]
        [godaddy.Invocation.GetDomainSuggestions "foo"] [1, 1, 1, 0]).log
        = [godaddy.Invocation.GetDomainSuggestions "foo",
           godaddy.Invocation.GetDomainAvailabilityAndPrice "b.com",
           godaddy.Invocation.GetDomainAvailabilityAndPrice "a.com"] ∧
      (domainSuggestInterleaved exampleJSON failingAdapter ([1, 1, 1] ++ sequentialTurns 2)
          fooRequest).map Outcome.calls
        = some [godaddy.Invocation.GetDomainSuggestions "foo",
            godaddy.Invocation.GetDomainAvailabilityAndPrice "b.com",
            godaddy.Invocation.GetDomainAvailabilityAndPrice "a.com"]) := by
  decide

/-- C22, amended: in the fan-outs of `/list-dns` and `/domain-suggest` no goroutine checks
the cancellation signal.  Whatever the turns `turns1` after which an error has been
returned and the context cancelled, a goroutine `j` that has not yet issued its call of
`godaddyService` by then issues it at its next turn; there are further turns after which
the handler answers; and whatever the turns `turns2` that lead the handler to its answer,
the invocations the handler has made are those made up to the cancellation followed by
others among which is the call of goroutine `j`, and they are the calls of all the
goroutines, one for each (after that of `GetDomainSuggestions` in `/domain-suggest`).  In
`/list-dns` the call of goroutine `j` was not among those made before the cancellation. -/
theorem C22_calls_not_cancelled (J : Lib) (godaddyService : godaddy.Interface) (r : Request)
    (req : domainRequest) (hdec : J.DecodeDomain r.Body = .ok req) :
    (∀ (turns1 : List Nat) (j : Nat) (dnsType : String),
      godaddy.DNSTypes.get? j = some dnsType →
      (listDNSFanOut godaddyService req.Domain turns1).shared.cancelled = true →
      (listDNSFanOut godaddyService req.Domain turns1).shared.pc j = .idle →
      godaddy.Invocation.GetDNSRecords req.Domain dnsType ∉
        (listDNSFanOut godaddyService req.Domain turns1).log ∧
      (listDNSFanOut godaddyService req.Domain (turns1 ++ [j])).log
        = (listDNSFanOut godaddyService req.Domain turns1).log
          ++ [godaddy.Invocation.GetDNSRecords req.Domain dnsType] ∧
      (∃ (turns2 : List Nat) (out : Outcome),
        listDNSInterleaved J godaddyService (turns1 ++ turns2) r = some out) ∧
      ∀ (turns2 : List Nat) (out : Outcome),
        listDNSInterleaved J godaddyService (turns1 ++ turns2) r = some out →
        (∃ rest : List godaddy.Invocation,
          out.calls = (listDNSFanOut godaddyService req.Domain turns1).log ++ rest ∧
          godaddy.Invocation.GetDNSRecords req.Domain dnsType ∈ rest) ∧
        out.calls.Perm (["A", "AAAA", "CNAME", "MX", "NS", "SOA", "SRV", "TXT"].map
          (godaddy.Invocation.GetDNSRecords req.Domain))) ∧
    (∀ (turns1 : List Nat) (j : Nat) (sDomains : List String) (domain : String),
      godaddyService.GetDomainSuggestions req.Domain = (sDomains, none) →
      sDomains.get? j = some domain →
      (domainSuggestFanOut godaddyService sDomains
        [godaddy.Invocation.GetDomainSuggestions req.Domain] turns1).shared.cancelled
        = true →
      (domainSuggestFanOut godaddyService sDomains
        [godaddy.Invocation.GetDomainSuggestions req.Domain] turns1).shared.pc j = .idle →
      (domainSuggestFanOut godaddyService sDomains
        [godaddy.Invocation.GetDomainSuggestions req.Domain] (turns1 ++ [j])).log
        = (domainSuggestFanOut godaddyService sDomains
            [godaddy.Invocation.GetDomainSuggestions req.Domain] turns1).log
          ++ [godaddy.Invocation.GetDomainAvailabilityAndPrice domain] ∧
      (∃ (turns2 : List Nat) (out : Outcome),
        domainSuggestInterleaved J godaddyService (turns1 ++ turns2) r = some out) ∧
      ∀ (turns2 : List Nat) (out : Outcome),
        domainSuggestInterleaved J godaddyService (turns1 ++ turns2) r = some out →
        (∃ rest : List godaddy.Invocation,
          out.calls = (domainSuggestFanOut godaddyService sDomains
            [godaddy.Invocation.GetDomainSuggestions req.Domain] turns1).log ++ rest ∧
          godaddy.Invocation.GetDomainAvailabilityAndPrice domain ∈ rest) ∧
        out.calls.Perm (godaddy.Invocation.GetDomainSuggestions req.Domain ::
          sDomains.map godaddy.Invocation.GetDomainAvailabilityAndPrice)) := by
  constructor
  · intro turns1 j dnsType hget _ hidle
    unfold listDNSFanOut at hidle ⊢
    have hj : j < godaddy.DNSTypes.length := by
      rw [List.get?_eq_getElem?] at hget
      exact (List.getElem?_eq_some_iff.mp hget).1
    have hinv : (godaddy.DNSTypes.get? j).elim godaddy.Invocation.ListTLDs
        (godaddy.Invocation.GetDNSRecords req.Domain)
        = godaddy.Invocation.GetDNSRecords req.Domain dnsType := by
      rw [hget]
      rfl
    have hlate : ∀ (turns2 : List Nat) (out : Outcome),
        listDNSInterleaved J godaddyService (turns1 ++ turns2) r = some out →
        out.calls.Nodup ∧
        (∃ rest : List godaddy.Invocation,
          out.calls = (runTraced (listDNSCalls godaddyService req.Domain)
            godaddy.DNSTypes.length (Traced.init []) turns1).log ++ rest ∧
          godaddy.Invocation.GetDNSRecords req.Domain dnsType ∈ rest) ∧
        out.calls.Perm (["A", "AAAA", "CNAME", "MX", "NS", "SOA", "SRV", "TXT"].map
          (godaddy.Invocation.GetDNSRecords req.Domain)) := by
      intro turns2 out hout
      obtain ⟨hdone, hcalls⟩ :=
        (listDNSInterleaved_some J godaddyService (turns1 ++ turns2) r req hdec).2 out hout
      obtain ⟨rest, hmem, hlog⟩ :=
        runTraced_late_call (listDNSCalls_log godaddyService req.Domain) [] turns1 turns2 j
          hj hidle hdone
      have hperm := listDNSInterleaved_perm J godaddyService (turns1 ++ turns2) r req hdec
        out hout
      exact ⟨hperm.nodup_iff.mpr (listDNS_invocations_nodup req.Domain),
        ⟨_, hcalls.trans hlog, List.mem_map.mpr ⟨j, hmem, hinv⟩⟩, hperm⟩
    obtain ⟨turns2, out, hout⟩ :=
      listDNSInterleaved_completes J godaddyService r req hdec turns1
    refine ⟨?_, ?_, ⟨turns2, out, hout⟩, fun t2 o ho => (hlate t2 o ho).2⟩
    · obtain ⟨hnodup, ⟨rest, hrest, hin⟩, -⟩ := hlate turns2 out hout
      rw [hrest] at hnodup
      intro hold
      exact (List.nodup_append.mp hnodup).2.2 hold hin
    · rw [runTraced_append, runTraced_turn_idle _ _ _ j hj hidle,
        listDNSCalls_log godaddyService req.Domain j hj, hinv]
  · intro turns1 j sDomains domain hsug hget _ hidle
    unfold domainSuggestFanOut at hidle ⊢
    have hj : j < sDomains.length := by
      rw [List.get?_eq_getElem?] at hget
      exact (List.getElem?_eq_some_iff.mp hget).1
    have hinv : (sDomains.get? j).elim godaddy.Invocation.ListTLDs
        godaddy.Invocation.GetDomainAvailabilityAndPrice
        = godaddy.Invocation.GetDomainAvailabilityAndPrice domain := by
      rw [hget]
      rfl
    refine ⟨?_, domainSuggestInterleaved_completes J godaddyService r req sDomains hdec hsug
      turns1, ?_⟩
    · rw [runTraced_append, runTraced_turn_idle _ _ _ j hj hidle,
        domainSuggestCalls_log godaddyService sDomains j hj, hinv]
    · intro turns2 out hout
      obtain ⟨hdone, hcalls⟩ :=
        (domainSuggestInterleaved_some J godaddyService (turns1 ++ turns2) r req sDomains
          hdec hsug).2 out hout
      obtain ⟨rest, hmem, hlog⟩ :=
        runTraced_late_call (domainSuggestCalls_log godaddyService sDomains)
          [godaddy.Invocation.GetDomainSuggestions req.Domain] turns1 turns2 j hj hidle hdone
      exact ⟨⟨_, hcalls.trans hlog, List.mem_map.mpr ⟨j, hmem, hinv⟩⟩,
        domainSuggestInterleaved_perm J godaddyService (turns1 ++ turns2) r req sDomains hdec
          hsug out hout⟩

end server

namespace server

/-- C22, amended, at the adapter whose `MX` listing and whose check of `b.com` fail and the
request naming `foo`: in `/list-dns` the goroutine of `A`, which had not called when the
goroutine of `MX` returned its error, and in `/domain-suggest` the goroutine of `a.com`,
which had not called when the goroutine of `b.com` returned its error, issue their call
after the cancellation. -/
theorem C22_calls_not_cancelled_witness :
    exampleJSON.DecodeDomain fooRequest.Body = .ok { Domain := "foo" } ∧
    (godaddy.DNSTypes.get? 0 = some "A" ∧
      (listDNSFanOut failingAdapter "foo" [3, 3, 3]).shared.cancelled = true ∧
      (listDNSFanOut failingAdapter "foo" [3, 3, 3]).shared.pc 0 = .idle ∧
      godaddy.Invocation.GetDNSRecords "foo" "A" ∉
        (listDNSFanOut failingAdapter "foo" [3, 3, 3]).log ∧
      (listDNSFanOut failingAdapter "foo" ([3, 3, 3] ++ [0])).log
        = (listDNSFanOut failingAdapter "foo" [3, 3, 3]).log
          ++ [godaddy.Invocation.GetDNSRecords "foo" "A"] ∧
      (∃ (turns2 : List Nat) (out : Outcome),
        listDNSInterleaved exampleJSON failingAdapter ([3, 3, 3] ++ turns2) fooRequest
          = some out) ∧
      listDNSInterleaved exampleJSON failingAdapter ([3, 3, 3] ++ sequentialTurns 8)
          fooRequest
        = some { w := http.Error http.ResponseWriter.fresh "Internal Server Error"
                   http.StatusInternalServerError
                 calls := ["MX", "A", "AAAA", "CNAME", "NS", "SOA", "SRV", "TXT"].map
                   (godaddy.Invocation.GetDNSRecords "foo") } ∧
      (∃ rest : List godaddy.Invocation,
        ["MX", "A", "AAAA", "CNAME", "NS", "SOA", "SRV", "TXT"].map
            (godaddy.Invocation.GetDNSRecords "foo")
          = (listDNSFanOut failingAdapter "foo" [3, 3, 3]).log ++ rest ∧
        godaddy.Invocation.GetDNSRecords "foo" "A" ∈ rest) ∧
      (["MX", "A", "AAAA", "CNAME", "NS", "SOA", "SRV", "TXT"].map
          (godaddy.Invocation.GetDNSRecords "foo")).Perm
        (["A", "AAAA", "CNAME", "MX", "NS", "SOA", "SRV", "TXT"].map
          (godaddy.Invocation.GetDNSRecords "foo"))) ∧
    (failingAdapter.GetDomainSuggestions "foo" = (["a.com", "b.com"], none) ∧
      ["a.com", "b.com"].get? 0 = some "a.com" ∧
      (domainSuggestFanOut failingAdapter ["a.com", "b.com"]
        [godaddy.Invocation.GetDomainSuggestions "foo"] [1, 1, 1]).shared.cancelled = true ∧
      (domainSuggestFanOut failingAdapter ["a.com", "b.com"]
        [godaddy.Invocation.GetDomainSuggestions "foo"] [1, 1, 1]).shared.pc 0 = .idle ∧
      (domainSuggestFanOut failingAdapter ["a.com", "b.com"]
        [godaddy.Invocation.GetDomainSuggestions "foo"] ([1, 1, 1] ++ [0])).log
        = (domainSuggestFanOut failingAdapter ["a.com", "b.com"]
            [godaddy.Invocation.GetDomainSuggestions "foo"] [1, 1, 1]).log
          ++ [godaddy.Invocation.GetDomainAvailabilityAndPrice "a.com"] ∧
      (∃ (turns2 : List Nat) (out : Outcome),
        domainSuggestInterleaved exampleJSON failingAdapter ([1, 1, 1] ++ turns2) fooRequest
          = some out) ∧
      domainSuggestInterleaved exampleJSON failingAdapter ([1, 1, 1] ++ sequentialTurns 2)
          fooRequest
        = some { w := (((http.Error http.ResponseWriter.fresh "Internal Server Error"
                     http.StatusInternalServerError).HeaderSet "Content-Type"
                     "application/json").WriteHeader http.StatusOK).Write "[a.com=500]"
                 calls := [godaddy.Invocation.GetDomainSuggestions "foo",
                   godaddy.Invocation.GetDomainAvailabilityAndPrice "b.com",
                   godaddy.Invocation.GetDomainAvailabilityAndPrice "a.com"] } ∧
      (∃ rest : List godaddy.Invocation,
        [godaddy.Invocation.GetDomainSuggestions "foo",
          godaddy.Invocation.GetDomainAvailabilityAndPrice "b.com",
          godaddy.Invocation.GetDomainAvailabilityAndPrice "a.com"]
          = (domainSuggestFanOut failingAdapter ["a.com", "b.com"]
              [godaddy.Invocation.GetDomainSuggestions "foo"] [1, 1, 1]).log ++ rest ∧
        godaddy.Invocation.GetDomainAvailabilityAndPrice "a.com" ∈ rest) ∧
      [godaddy.Invocation.GetDomainSuggestions "foo",
          godaddy.Invocation.GetDomainAvailabilityAndPrice "b.com",
          godaddy.Invocation.GetDomainAvailabilityAndPrice "a.com"].Perm
        (godaddy.Invocation.GetDomainSuggestions "foo" ::
          ["a.com", "b.com"].map godaddy.Invocation.GetDomainAvailabilityAndPrice)) :=
  ⟨rfl,
   ⟨rfl, by decide, by decide,
    ((C22_calls_not_cancelled exampleJSON failingAdapter fooRequest { Domain := "foo" }
      rfl).1 [3, 3, 3] 0 "A" rfl (by decide) (by decide)).1,
    ((C22_calls_not_cancelled exampleJSON failingAdapter fooRequest { Domain := "foo" }
      rfl).1 [3, 3, 3] 0 "A" rfl (by decide) (by decide)).2.1,
    ((C22_calls_not_cancelled exampleJSON failingAdapter fooRequest { Domain := "foo" }
      rfl).1 [3, 3, 3] 0 "A" rfl (by decide) (by decide)).2.2.1,
    by decide,
    ((C22_calls_not_cancelled exampleJSON failingAdapter fooRequest { Domain := "foo" }
      rfl).1 [3, 3, 3] 0 "A" rfl (by decide) (by decide)).2.2.2 (sequentialTurns 8)
      { w := http.Error http.ResponseWriter.fresh "Internal Server Error"
          http.StatusInternalServerError
        calls := ["MX", "A", "AAAA", "CNAME", "NS", "SOA", "SRV", "TXT"].map
          (godaddy.Invocation.GetDNSRecords "foo") }
      (by decide)⟩,
   ⟨rfl, rfl, by decide, by decide,
    ((C22_calls_not_cancelled exampleJSON failingAdapter fooRequest { Domain := "foo" }
      rfl).2 [1, 1, 1] 0 ["a.com", "b.com"] "a.com" rfl rfl (by decide) (by decide)).1,
    ((C22_calls_not_cancelled exampleJSON failingAdapter fooRequest { Domain := "foo" }
      rfl).2 [1, 1, 1] 0 ["a.com", "b.com"] "a.com" rfl rfl (by decide) (by decide)).2.1,
    by decide,
    ((C22_calls_not_cancelled exampleJSON failingAdapter fooRequest { Domain := "foo" }
      rfl).2 [1, 1, 1] 0 ["a.com", "b.com"] "a.com" rfl rfl (by decide) (by decide)).2.2
      (sequentialTurns 2)
      { w := (((http.Error http.ResponseWriter.fresh "Internal Server Error"
            http.StatusInternalServerError).HeaderSet "Content-Type"
            "application/json").WriteHeader http.StatusOK).Write "[a.com=500]"
        calls := [godaddy.Invocation.GetDomainSuggestions "foo",
          godaddy.Invocation.GetDomainAvailabilityAndPrice "b.com",
          godaddy.Invocation.GetDomainAvailabilityAndPrice "a.com"] }
      (by decide)⟩⟩

end server

/-! ## The step-by-step fan-outs and the schedules -/

namespace server

/-- The invariant of the kept error holds when the goroutines are launched. -/
theorem ErrInv.err_init {β : Type} (plan : Nat → Plan β) :
    ErrInv plan (Shared.init : Shared β) :=
  ⟨[], List.nodup_nil, fun i => by simp [Shared.init], rfl⟩

/-- A step of goroutine `i` that is not its return keeps the invariant of the kept error. -/
theorem ErrInv.err_move {β : Type} {plan : Nat → Plan β} {s s2 : Shared β} {i : Nat}
    (h : ErrInv plan s) (p : PC β) (hp : p ≠ .done) (hpc : s.pc i ≠ .done)
    (hpc2 : s2.pc = fun j => if j = i then p else s.pc j) (herr : s2.err = s.err) :
    ErrInv plan s2 := by
  obtain ⟨order, hnd, hmem, he⟩ := h.failed
  refine ⟨order, hnd, ?_, herr.trans he⟩
  intro j
  rw [hmem j, hpc2]
  by_cases hj : j = i
  · subst hj
    simp [hp, hpc]
  · simp [hj]

/-- The return of a goroutine that returns nil keeps the invariant of the kept error. -/
theorem ErrInv.err_return_nil {β : Type} {plan : Nat → Plan β} {s s2 : Shared β} {i : Nat}
    (h : ErrInv plan s) (hplan : (plan i).err = none) (hpc : s.pc i ≠ .done)
    (hpc2 : s2.pc = fun j => if j = i then .done else s.pc j) (herr : s2.err = s.err) :
    ErrInv plan s2 := by
  obtain ⟨order, hnd, hmem, he⟩ := h.failed
  refine ⟨order, hnd, ?_, herr.trans he⟩
  intro j
  rw [hmem j, hpc2]
  by_cases hj : j = i
  · subst hj
    simp [hplan, hpc]
  · simp [hj]

/-- The return of a goroutine that returns an error keeps the invariant of the kept
error: the error is kept when it is the first. -/
theorem ErrInv.err_return_err {β : Type} {plan : Nat → Plan β} {s s2 : Shared β} {i : Nat}
    (h : ErrInv plan s) (e : GoError) (hplan : plan i = .fail e) (hpc : s.pc i ≠ .done)
    (hpc2 : s2.pc = fun j => if j = i then .done else s.pc j)
    (herr : s2.err = match s.err with
      | some e0 => some e0
      | none => some e) :
    ErrInv plan s2 := by
  obtain ⟨order, hnd, hmem, he⟩ := h.failed
  have hnot : i ∉ order := fun hi => hpc ((hmem i).mp hi).1
  refine ⟨order ++ [i], ?_, ?_, ?_⟩
  · exact List.nodup_append.mpr ⟨hnd, List.nodup_singleton i, by
      intro a ha hb
      rw [List.mem_singleton.mp hb] at ha
      exact hnot ha⟩
  · intro j
    rw [List.mem_append, List.mem_singleton, hmem j, hpc2]
    by_cases hj : j = i
    · subst hj
      simp [hplan, Plan.err, hpc]
    · simp [hj]
  · rw [herr, he]
    cases order with
    | nil => simp [hplan, Plan.err]
    | cons a t =>
      have ha := ((hmem a).mp (List.mem_cons_self a t)).2
      cases hpa : (plan a).err with
      | none => exact absurd hpa ha
      | some e0 => simp [hpa]

/-- Every step keeps the invariant of the kept error. -/
theorem ErrInv.err_step {β : Type} {plan : Nat → Plan β} {n : Nat} {s s2 : Shared β} {i : Nat}
    (h : ErrInv plan s) (hI : Inv plan n s) (hs : server.step plan n s i = some s2) :
    ErrInv plan s2 := by
  unfold server.step at hs
  by_cases hi : i < n
  · rw [if_pos hi] at hs
    cases hpc : s.pc i with
    | idle =>
      rw [hpc] at hs
      simp only [Option.some.injEq] at hs
      subst hs
      exact h.err_move .calling (by simp) (by simp [hpc]) rfl rfl
    | calling =>
      rw [hpc] at hs
      simp only [Option.some.injEq] at hs
      subst hs
      exact h.err_move .called (by simp) (by simp [hpc]) rfl rfl
    | called =>
      rw [hpc] at hs
      cases hplan : plan i with
      | fail e =>
        rw [hplan] at hs
        simp only [Option.some.injEq] at hs
        subst hs
        exact h.err_return_err e hplan (by simp [hpc]) rfl rfl
      | skip =>
        rw [hplan] at hs
        simp only [Option.some.injEq] at hs
        subst hs
        exact h.err_return_nil (by simp [hplan, Plan.err]) (by simp [hpc]) rfl rfl
      | append items =>
        rw [hplan] at hs
        cases hmx : s.mutex with
        | some k =>
          rw [hmx] at hs
          cases hs
        | none =>
          rw [hmx] at hs
          simp only [Option.some.injEq] at hs
          subst hs
          exact h.err_move .locked (by simp) (by simp [hpc]) rfl rfl
    | locked =>
      rw [hpc] at hs
      simp only [Option.some.injEq] at hs
      subst hs
      exact h.err_move (.read s.slice) (by simp) (by simp [hpc]) rfl rfl
    | read snap =>
      rw [hpc] at hs
      cases hplan : plan i with
      | fail e =>
        rw [hplan] at hs
        cases hs
      | skip =>
        rw [hplan] at hs
        cases hs
      | append items =>
        rw [hplan] at hs
        simp only [Option.some.injEq] at hs
        subst hs
        exact h.err_move .written (by simp) (by simp [hpc]) rfl rfl
    | written =>
      rw [hpc] at hs
      simp only [Option.some.injEq] at hs
      subst hs
      have happ := hI.holder_appends i (by simp [hpc, PC.holds])
      have hnil : (plan i).err = none := by
        cases hplan : plan i with
        | fail e => rw [hplan] at happ; cases happ
        | skip => rfl
        | append items => rfl
      exact h.err_return_nil hnil (by simp [hpc]) rfl rfl
    | done =>
      rw [hpc] at hs
      cases hs
  · rw [if_neg hi] at hs
    cases hs

/-- Over any turns the invariant of the kept error is kept. -/
theorem ErrInv.err_run {β : Type} {plan : Nat → Plan β} {n : Nat} (turns : List Nat)
    (s : Shared β) (h : ErrInv plan s) (hI : Inv plan n s) :
    ErrInv plan (server.run plan n s turns) := by
  induction turns generalizing s with
  | nil => exact h
  | cons i rest ih =>
    unfold server.run
    cases hs : server.step plan n s i with
    | some s2 => exact ih s2 (h.err_step hI hs) (Inv.step hI hs)
    | none => exact ih s h hI

end server

namespace server

/-- A plan that returns an error appends nothing and does not enter the guarded section. -/
theorem Plan.of_err {β : Type} {p : Plan β} (h : p.err ≠ none) :
    p.items = [] ∧ p.appends = false := by
  cases p with
  | fail e => exact ⟨rfl, rfl⟩
  | skip => exact absurd rfl h
  | append items => exact absurd rfl h

/-- A plan that does not enter the guarded section appends nothing. -/
theorem Plan.items_of_not_appends {β : Type} {p : Plan β} (h : p.appends = false) :
    p.items = [] := by
  cases p with
  | fail e => rfl
  | skip => rfl
  | append items => cases h

/-- A plan that enters the guarded section returns nil. -/
theorem Plan.err_of_appends {β : Type} {p : Plan β} (h : p.appends = true) :
    p.err = none := by
  cases p with
  | fail e => cases h
  | skip => rfl
  | append items => rfl

/-- When all goroutines have returned, the shared state is what `g.Wait()` finds after the
goroutines have ended in some order: there is a permutation of the goroutines such that
folding their results in that order keeps the error of the shared state and collects its
slice. -/
theorem finished_order {β : Type} {plan : Nat → Plan β} {n : Nat} {s : Shared β}
    (hI : Inv plan n s) (hE : ErrInv plan s) (hdone : allDone n s = true) :
    ∃ fin : List Nat, fin.Perm (List.range n) ∧
      (FanOut.wait (fin.map (fun i => (plan i).result))).err = s.err ∧
      (FanOut.wait (fin.map (fun i => (plan i).result))).collected = s.slice := by
  obtain ⟨fo, hfnd, hfmem, hferr⟩ := hE.failed
  obtain ⟨ao, hslice, hand, hamem⟩ := hI.slice_eq
  have hpc : ∀ i, i < n → s.pc i = .done := (allDone_iff n s).mp hdone
  have hf_lt : ∀ i, i ∈ fo → i < n := by
    intro i hi
    by_contra hge
    have := ((hfmem i).mp hi).1
    rw [hI.outside_idle i (by omega)] at this
    cases this
  have ha_lt : ∀ i, i ∈ ao → i < n := by
    intro i hi
    by_contra hge
    have := (hamem i).mp hi
    unfold appended at this
    rw [hI.outside_idle i (by omega)] at this
    cases this
  have ha_app : ∀ i, i ∈ ao → (plan i).appends = true := by
    intro i hi
    have := (hamem i).mp hi
    unfold appended at this
    rw [hpc i (ha_lt i hi)] at this
    exact this
  have hdisj : ∀ i, i ∈ fo → i ∉ ao := by
    intro i hi hia
    have h1 := (Plan.of_err ((hfmem i).mp hi).2).2
    rw [ha_app i hia] at h1
    cases h1
  refine ⟨fo ++ ao ++ (List.range n).filter (fun i => decide (i ∉ fo ∧ i ∉ ao)), ?_, ?_, ?_⟩
  · rw [List.perm_ext_iff_of_nodup ?_ (List.nodup_range n)]
    · intro i
      simp only [List.mem_append, List.mem_filter, List.mem_range, decide_eq_true_eq]
      constructor
      · rintro ((h1 | h1) | h1)
        · exact hf_lt i h1
        · exact ha_lt i h1
        · exact h1.1
      · intro hi
        by_cases h1 : i ∈ fo
        · exact Or.inl (Or.inl h1)
        · by_cases h2 : i ∈ ao
          · exact Or.inl (Or.inr h2)
          · exact Or.inr ⟨hi, h1, h2⟩
    · refine List.nodup_append.mpr ⟨List.nodup_append.mpr ⟨hfnd, hand, ?_⟩,
        (List.nodup_range n).filter _, ?_⟩
      · intro a ha hb
        exact hdisj a ha hb
      · intro a ha hb
        have := (List.mem_filter.mp hb).2
        simp only [decide_eq_true_eq] at this
        rcases List.mem_append.mp ha with h1 | h1
        · exact this.1 h1
        · exact this.2 h1
  · cases fo with
    | nil =>
      rw [hferr]
      apply FanOut.wait_err_none
      intro res hres
      obtain ⟨i, hi, rfl⟩ := List.mem_map.mp hres
      simp only [List.nil_append, List.mem_append, List.mem_filter, List.mem_range,
        decide_eq_true_eq] at hi
      rcases hi with h1 | h1
      · exact Plan.err_of_appends (ha_app i h1)
      · by_contra hne
        have : i ∈ ([] : List Nat) := (hfmem i).mpr ⟨hpc i h1.1, hne⟩
        cases this
    | cons a t =>
      have ha := ((hfmem a).mp (List.mem_cons_self a t)).2
      cases hpa : (plan a).err with
      | none => exact absurd hpa ha
      | some e0 =>
        rw [hferr]
        simp only [List.head?_cons, Option.some_bind, hpa]
        unfold FanOut.wait
        simp only [List.cons_append, List.map_cons, List.foldl_cons]
        apply FanOut.foldl_err_of_some
        simp [FanOut.finish, Plan.result, hpa]
  · rw [FanOut.wait_collected, hslice, List.flatMap_map]
    simp only [List.flatMap_append, Plan.result]
    have h1 : fo.flatMap (fun i => (plan i).items) = [] := by
      rw [List.flatMap_eq_nil_iff]
      intro i hi
      exact (Plan.of_err ((hfmem i).mp hi).2).1
    have h2 : ((List.range n).filter (fun i => decide (i ∉ fo ∧ i ∉ ao))).flatMap
        (fun i => (plan i).items) = [] := by
      rw [List.flatMap_eq_nil_iff]
      intro i hi
      have hi2 := List.mem_filter.mp hi
      have hlt := List.mem_range.mp hi2.1
      have hno := hi2.2
      simp only [decide_eq_true_eq] at hno
      apply Plan.items_of_not_appends
      cases hb : (plan i).appends with
      | false => rfl
      | true =>
        exfalso
        apply hno.2
        rw [hamem i]
        unfold appended
        rw [hpc i hlt]
        exact hb
    rw [h1, h2]
    simp

end server

namespace server

/-- What the goroutine of `/list-dns` for one record type has done when it ends is the
result of its plan. -/
theorem listDNSPlan_result (godaddyService : godaddy.Interface) (domain DNSType : String) :
    (listDNSPlan godaddyService domain DNSType).result
      = listDNSTask godaddyService domain DNSType := by
  cases h : (godaddyService.GetDNSRecords domain DNSType).2 <;>
    simp [listDNSPlan, listDNSTask, Plan.result, Plan.err, Plan.items, h]

/-- What the goroutine of `/domain-suggest` for one candidate has done when it ends is the
result of its plan. -/
theorem domainSuggestPlan_result (godaddyService : godaddy.Interface) (domain : String) :
    (domainSuggestPlan godaddyService domain).result
      = domainSuggestTask godaddyService domain := by
  cases h : (godaddyService.GetDomainAvailabilityAndPrice domain).2.2 with
  | some e =>
    simp [domainSuggestPlan, domainSuggestTask, Plan.result, Plan.err, Plan.items, h]
  | none =>
    cases ha : (godaddyService.GetDomainAvailabilityAndPrice domain).1 <;>
      simp [domainSuggestPlan, domainSuggestTask, Plan.result, Plan.err, Plan.items, h, ha]

/-- The elements of a list, listed by position. -/
theorem map_range_getD {α : Type} (l : List α) (x : α) :
    (List.range l.length).map (fun i => l.getD i x) = l := by
  apply List.ext_getElem
  · simp
  · intro i h1 h2
    simp only [List.getElem_map, List.getElem_range, List.getD_eq_getElem?_getD]
    rw [List.getElem?_eq_getElem h2]
    rfl

/-- The element at a position of a list. -/
theorem get?_eq_getD {α : Type} (l : List α) (x : α) (i : Nat) (hi : i < l.length) :
    l.get? i = some (l.getD i x) := by
  rw [List.get?_eq_getElem?, List.getD_eq_getElem?_getD, List.getElem?_eq_getElem hi]
  rfl

/-- Every answer of the `/list-dns` handler with its goroutines run step by step is the
answer of the handler `listDNS` under a schedule: the order in which the goroutines issued
their calls and an order in which they ended, both permutations of the record types. -/
theorem listDNSInterleaved_schedule (J : Lib) (godaddyService : godaddy.Interface)
    (turns : List Nat) (r : Request) (out : Outcome)
    (hout : listDNSInterleaved J godaddyService turns r = some out) :
    ∃ sched : Schedule,
      (sched.started godaddy.DNSTypes).Perm godaddy.DNSTypes ∧
      (sched.finished godaddy.DNSTypes).Perm godaddy.DNSTypes ∧
      listDNS J godaddyService sched r = out := by
  cases hdec : J.DecodeDomain r.Body with
  | error e =>
    refine ⟨inOrder, List.Perm.refl _, List.Perm.refl _, ?_⟩
    unfold listDNSInterleaved at hout
    simp only [hdec] at hout
    unfold listDNS
    simp only [hdec]
    exact Option.some.inj hout
  | ok req =>
    obtain ⟨hdone, hcalls⟩ :=
      (listDNSInterleaved_some J godaddyService turns r req hdec).2 out hout
    have hshared := listDNS_traced_shared godaddyService req.Domain [] turns
    have hI : Inv (listDNSPlans godaddyService req.Domain) godaddy.DNSTypes.length
        (runTraced (listDNSCalls godaddyService req.Domain) godaddy.DNSTypes.length
          (Traced.init []) turns).shared := by
      rw [hshared]
      exact Inv.run turns _ (Inv.init _ _)
    have hE : ErrInv (listDNSPlans godaddyService req.Domain)
        (runTraced (listDNSCalls godaddyService req.Domain) godaddy.DNSTypes.length
          (Traced.init []) turns).shared := by
      rw [hshared]
      exact ErrInv.err_run turns _ (ErrInv.err_init _) (Inv.init _ _)
    obtain ⟨fin, hfperm, hferr, hfcoll⟩ := finished_order hI hE hdone
    obtain ⟨order, hoperm, hlog⟩ :=
      runTraced_perm (listDNSCalls_log godaddyService req.Domain) [] turns hdone
    have hfin_lt : ∀ i, i ∈ fin → i < godaddy.DNSTypes.length :=
      fun i hi => List.mem_range.mp (hfperm.subset hi)
    have hord_lt : ∀ i, i ∈ order → i < godaddy.DNSTypes.length :=
      fun i hi => List.mem_range.mp (hoperm.subset hi)
    have htasks : (fin.map (fun i => godaddy.DNSTypes.getD i "")).map
        (listDNSTask godaddyService req.Domain)
        = fin.map (fun i => (listDNSPlans godaddyService req.Domain i).result) := by
      rw [List.map_map]
      apply List.map_congr_left
      intro i hi
      simp only [Function.comp, listDNSPlans,
        get?_eq_getD godaddy.DNSTypes "" i (hfin_lt i hi), listDNSPlan_result]
    have hcalls2 : (order.map (fun i => godaddy.DNSTypes.getD i "")).map
        (godaddy.Invocation.GetDNSRecords req.Domain) = out.calls := by
      rw [hcalls, hlog, List.nil_append, List.map_map]
      apply List.map_congr_left
      intro i hi
      simp only [Function.comp, get?_eq_getD godaddy.DNSTypes "" i (hord_lt i hi),
        Option.elim]
    refine ⟨{ started := fun _ => order.map (fun i => godaddy.DNSTypes.getD i "")
              finished := fun _ => fin.map (fun i => godaddy.DNSTypes.getD i "") },
      ?_, ?_, ?_⟩
    · exact (hoperm.map _).trans (List.Perm.of_eq (map_range_getD godaddy.DNSTypes ""))
    · exact (hfperm.map _).trans (List.Perm.of_eq (map_range_getD godaddy.DNSTypes ""))
    · unfold listDNSInterleaved listDNSFanOut at hout
      simp only [hdec, hdone, if_true] at hout
      unfold listDNS
      simp only [hdec, htasks, hferr, hfcoll, hcalls2]
      apply Option.some.inj
      rw [← hout, ← hcalls]
      cases (runTraced (listDNSCalls godaddyService req.Domain) godaddy.DNSTypes.length
          (Traced.init []) turns).shared.err with
      | some e => rfl
      | none =>
        cases J.MarshalRecords (runTraced (listDNSCalls godaddyService req.Domain)
          godaddy.DNSTypes.length (Traced.init []) turns).shared.slice <;> rfl

end server

namespace server

/-- Every answer of the `/domain-suggest` handler with its goroutines run step by step is
the answer of the handler `domainSuggest` under a schedule: the order in which the
goroutines issued their calls and an order in which they ended, both permutations of the
candidates. -/
theorem domainSuggestInterleaved_schedule (J : Lib) (godaddyService : godaddy.Interface)
    (turns : List Nat) (r : Request) (out : Outcome)
    (hout : domainSuggestInterleaved J godaddyService turns r = some out) :
    ∃ sched : Schedule,
      (∀ req, J.DecodeDomain r.Body = .ok req →
        (sched.started (godaddyService.GetDomainSuggestions req.Domain).1).Perm
          (godaddyService.GetDomainSuggestions req.Domain).1 ∧
        (sched.finished (godaddyService.GetDomainSuggestions req.Domain).1).Perm
          (godaddyService.GetDomainSuggestions req.Domain).1) ∧
      domainSuggest J godaddyService sched r = out := by
  cases hdec : J.DecodeDomain r.Body with
  | error e =>
    refine ⟨inOrder, fun _ _ => ⟨List.Perm.refl _, List.Perm.refl _⟩, ?_⟩
    unfold domainSuggestInterleaved at hout
    simp only [hdec] at hout
    unfold domainSuggest
    simp only [hdec]
    exact Option.some.inj hout
  | ok req =>
    cases hsug2 : (godaddyService.GetDomainSuggestions req.Domain).2 with
    | some e =>
      refine ⟨inOrder, fun _ _ => ⟨List.Perm.refl _, List.Perm.refl _⟩, ?_⟩
      unfold domainSuggestInterleaved at hout
      simp only [hdec, godaddy.Interface.invokeGetDomainSuggestions, hsug2,
        List.nil_append] at hout
      unfold domainSuggest
      simp only [hdec, hsug2]
      exact Option.some.inj hout
    | none =>
      have hsug : godaddyService.GetDomainSuggestions req.Domain
          = ((godaddyService.GetDomainSuggestions req.Domain).1, none) := by
        rw [← hsug2]
      generalize (godaddyService.GetDomainSuggestions req.Domain).1 = sDomains at hsug
      obtain ⟨hdone, hcalls⟩ :=
        (domainSuggestInterleaved_some J godaddyService turns r req sDomains hdec hsug).2 out
          hout
      have hshared := domainSuggest_traced_shared godaddyService sDomains
        [godaddy.Invocation.GetDomainSuggestions req.Domain] turns
      have hI : Inv (domainSuggestPlans godaddyService sDomains) sDomains.length
          (runTraced (domainSuggestCalls godaddyService sDomains) sDomains.length
            (Traced.init [godaddy.Invocation.GetDomainSuggestions req.Domain])
            turns).shared := by
        rw [hshared]
        exact Inv.run turns _ (Inv.init _ _)
      have hE : ErrInv (domainSuggestPlans godaddyService sDomains)
          (runTraced (domainSuggestCalls godaddyService sDomains) sDomains.length
            (Traced.init [godaddy.Invocation.GetDomainSuggestions req.Domain])
            turns).shared := by
        rw [hshared]
        exact ErrInv.err_run turns _ (ErrInv.err_init _) (Inv.init _ _)
      obtain ⟨fin, hfperm, hferr, hfcoll⟩ := finished_order hI hE hdone
      obtain ⟨order, hoperm, hlog⟩ :=
        runTraced_perm (domainSuggestCalls_log godaddyService sDomains)
          [godaddy.Invocation.GetDomainSuggestions req.Domain] turns hdone
      have hfin_lt : ∀ i, i ∈ fin → i < sDomains.length :=
        fun i hi => List.mem_range.mp (hfperm.subset hi)
      have hord_lt : ∀ i, i ∈ order → i < sDomains.length :=
        fun i hi => List.mem_range.mp (hoperm.subset hi)
      have htasks : (fin.map (fun i => sDomains.getD i "")).map
          (domainSuggestTask godaddyService)
          = fin.map (fun i => (domainSuggestPlans godaddyService sDomains i).result) := by
        rw [List.map_map]
        apply List.map_congr_left
        intro i hi
        simp only [Function.comp, domainSuggestPlans,
          get?_eq_getD sDomains "" i (hfin_lt i hi), domainSuggestPlan_result]
      have hcalls2 : godaddy.Invocation.GetDomainSuggestions req.Domain ::
          (order.map (fun i => sDomains.getD i "")).map
            godaddy.Invocation.GetDomainAvailabilityAndPrice = out.calls := by
        rw [hcalls, hlog, List.singleton_append, List.map_map]
        congr 1
        apply List.map_congr_left
        intro i hi
        simp only [Function.comp, get?_eq_getD sDomains "" i (hord_lt i hi), Option.elim]
      refine ⟨{ started := fun _ => order.map (fun i => sDomains.getD i "")
                finished := fun _ => fin.map (fun i => sDomains.getD i "") }, ?_, ?_⟩
      · intro req2 hreq2
        cases hreq2
        rw [hsug]
        exact ⟨(hoperm.map _).trans (List.Perm.of_eq (map_range_getD sDomains "")),
          (hfperm.map _).trans (List.Perm.of_eq (map_range_getD sDomains ""))⟩
      · unfold domainSuggestInterleaved domainSuggestFanOut at hout
        simp only [hdec, godaddy.Interface.invokeGetDomainSuggestions, hsug,
          List.nil_append, hdone, if_true] at hout
        unfold domainSuggest
        simp only [hdec, hsug, htasks, hferr, hfcoll, hcalls2]
        apply Option.some.inj
        rw [← hout, ← hcalls]
        cases J.MarshalSuggestions (runTraced (domainSuggestCalls godaddyService sDomains)
          sDomains.length (Traced.init [godaddy.Invocation.GetDomainSuggestions req.Domain])
          turns).shared.slice <;> rfl

end server
